import Mathlib

/-!
STM32 SDC low level driver: blocking read rendezvous, and the Cortex-M port layer

A shallow embedding of `os/hal/platforms/STM32/sdc_lld.c` together with the
parts of the Cortex-M port (`os/ports/GCC/ARMCMx/chcore.h`) it relies on.

* The machine is a record `World`; every C statement with an observable effect
  becomes a function `World → World` that also appends an `Event` to the
  world's trace, so that orderings ("under the gate", "exactly once") can be
  stated.
* Hardware registers that only the hardware writes (`SDIO->STA`,
  `SDIO->RESP1`) are input streams: each read consumes the next sample.  A
  finite list stands for the stream that continues with zeros for ever, so a
  poll loop that exhausts the list really never ends: this is `Result.hang`.
* 32 bit registers are `Nat` values reduced modulo `2 ^ 32` where the C
  arithmetic can wrap.
-/

namespace SdcLld

/-! ## Constants of headers outside this development -/

/-- Modelled from the spec: wake code "success" (`RDY_OK` of the kernel headers). -/
def RDY_OK : Int := 0

/-- Modelled from the spec: wake code "generic failure" (`RDY_RESET` of the kernel headers). -/
def RDY_RESET : Int := -2

/-- Modelled from the spec: command CRC-fail status bit (STM32 SDIO_STA bit 0). -/
def SDIO_STA_CCRCFAIL : Nat := 0x1
/-- Modelled from the spec: data CRC-fail status bit (STM32 SDIO_STA bit 1). -/
def SDIO_STA_DCRCFAIL : Nat := 0x2
/-- Modelled from the spec: command timeout status bit (STM32 SDIO_STA bit 2). -/
def SDIO_STA_CTIMEOUT : Nat := 0x4
/-- Modelled from the spec: data timeout status bit (STM32 SDIO_STA bit 3). -/
def SDIO_STA_DTIMEOUT : Nat := 0x8
/-- Modelled from the spec: command-complete (response received) status bit (STM32 SDIO_STA bit 6). -/
def SDIO_STA_CMDREND : Nat := 0x40
/-- Modelled from the spec: command-sent status bit (STM32 SDIO_STA bit 7). -/
def SDIO_STA_CMDSENT : Nat := 0x80
/-- Modelled from the spec: data-end status bit (STM32 SDIO_STA bit 8). -/
def SDIO_STA_DATAEND : Nat := 0x100
/-- Modelled from the spec: start-bit error status bit (STM32 SDIO_STA bit 9). -/
def SDIO_STA_STBITERR : Nat := 0x200

/-- Modelled from the spec: interrupt-clear bit matching `SDIO_STA_CCRCFAIL`. -/
def SDIO_ICR_CCRCFAILC : Nat := 0x1
/-- Modelled from the spec: interrupt-clear bit matching `SDIO_STA_CTIMEOUT`. -/
def SDIO_ICR_CTIMEOUTC : Nat := 0x4
/-- Modelled from the spec: interrupt-clear bit matching `SDIO_STA_CMDREND`. -/
def SDIO_ICR_CMDRENDC : Nat := 0x40
/-- Modelled from the spec: interrupt-clear bit matching `SDIO_STA_CMDSENT`. -/
def SDIO_ICR_CMDSENTC : Nat := 0x80

/-- Modelled from the spec: interrupt-mask bit matching `SDIO_STA_DCRCFAIL`. -/
def SDIO_MASK_DCRCFAILIE : Nat := 0x2
/-- Modelled from the spec: interrupt-mask bit matching `SDIO_STA_DTIMEOUT`. -/
def SDIO_MASK_DTIMEOUTIE : Nat := 0x8
/-- Modelled from the spec: interrupt-mask bit matching `SDIO_STA_DATAEND`. -/
def SDIO_MASK_DATAENDIE : Nat := 0x100
/-- Modelled from the spec: interrupt-mask bit matching `SDIO_STA_STBITERR`. -/
def SDIO_MASK_STBITERRIE : Nat := 0x200

/-- Modelled from the spec: short-response selector of the command register (SDIO_CMD bit 6). -/
def SDIO_CMD_WAITRESP_0 : Nat := 0x40
/-- Modelled from the spec: long-response selector of the command register (SDIO_CMD bit 7). -/
def SDIO_CMD_WAITRESP_1 : Nat := 0x80
/-- Modelled from the spec: command path state machine enable (SDIO_CMD bit 10). -/
def SDIO_CMD_CPSMEN : Nat := 0x400

/-- Modelled from the spec: data-control register, transfer enable (DTEN, bit 0). -/
def SDIO_DCTRL_DTEN : Nat := 0x1
/-- Modelled from the spec: data-control register, direction card to controller (DTDIR, bit 1). -/
def SDIO_DCTRL_DTDIR : Nat := 0x2
/-- Modelled from the spec: data-control register, stream mode (DTMODE, bit 2). -/
def SDIO_DCTRL_DTMODE : Nat := 0x4
/-- Modelled from the spec: data-control register, DMA enable (DMAEN, bit 3). -/
def SDIO_DCTRL_DMAEN : Nat := 0x8
/-- Modelled from the spec: data-control register, block size field bit 0 (bit 4). -/
def SDIO_DCTRL_DBLOCKSIZE_0 : Nat := 0x10
/-- Modelled from the spec: data-control register, block size field bit 3 (bit 7). -/
def SDIO_DCTRL_DBLOCKSIZE_3 : Nat := 0x80
/-- Modelled from the spec: data-control register, read-wait mode (RWMOD, bit 10). -/
def SDIO_DCTRL_RWMOD : Nat := 0x400

/-- Modelled from the spec: DMA channel configuration, 32 bit peripheral size. -/
def DMA_CCR1_PSIZE_1 : Nat := 0x200
/-- Modelled from the spec: DMA channel configuration, 32 bit memory size. -/
def DMA_CCR1_MSIZE_1 : Nat := 0x800
/-- Modelled from the spec: DMA channel configuration, memory increment. -/
def DMA_CCR1_MINC : Nat := 0x80

/-- Modelled from the spec: the multi-block read command (CMD18 of the SD protocol). -/
def SDC_CMD_READ_MULTIPLE_BLOCK : Nat := 18
/-- Modelled from the spec: the stop-transmission command (CMD12 of the SD protocol). -/
def SDC_CMD_STOP_TRANSMISSION : Nat := 12
/-- Modelled from the spec: the generic card error bits of a short (R1) response. -/
def SDC_R1_ERROR_MASK : Nat := 0xFDFFE008
/-- Modelled from the spec: the fixed block size, 512 bytes. -/
def SDC_BLOCK_SIZE : Nat := 512

/-! ## Data model -/

/-- Thread references (`Thread *`); `Option Tid` is a possibly-NULL reference. -/
abbrev Tid := Nat

/-- Modelled from the spec: the driver state machine STOPPED / READY / ACTIVE
(`sdcstate_t`, declared in a header outside this development). -/
inductive sdcstate_t where
  | SDC_STOP
  | SDC_READY
  | SDC_ACTIVE
deriving DecidableEq, Repr

/-- The SDIO registers the driver writes. -/
inductive Reg where
  | POWER
  | CLKCR
  | DTIMER
  | ARG
  | CMD
  | DLEN
  | DCTRL
  | ICR
  | MASK
deriving DecidableEq, Repr

/-- Observable actions, in program order. -/
inductive Event where
  | lock
  | unlock
  | lockFromIsr
  | unlockFromIsr
  | slotRead
  | slotWrite (v : Option Tid)
  | rdymsgRead (t : Tid) (v : Int)
  | rdymsgWrite (t : Tid) (v : Int)
  | readyI (t : Tid)
  | goSleep (t : Tid)
  | resume (t : Tid)
  | assertFail (n : Nat)
  | pendSV
  | staRead (v : Nat)
  | respRead (v : Nat)
  | regWrite (r : Reg) (v : Nat)
  | dmaSetup (cnt : Nat) (buf : Nat) (ccr : Nat)
  | dmaEnable
  | dmaDisable
deriving DecidableEq, Repr

/-- The machine: driver object `SDCD1`, the kernel data the driver touches,
the SDIO and DMA registers, the environment scripts and the trace. -/
structure World where
  /-- Field `SDCD1.state`. -/
  state : sdcstate_t
  /-- Field `SDCD1.thread`, the waiting-thread slot. -/
  thread : Option Tid
  /-- Field `p_u.rdymsg` of every thread. -/
  rdymsg : Tid → Int
  /-- Threads made ready and not yet resumed. -/
  rlist : List Tid
  /-- The critical-section gate is held. -/
  locked : Bool
  /-- A deferred reschedule trap has been requested. -/
  pendsv : Bool
  /-- Last value written to each SDIO register. -/
  regs : Reg → Nat
  /-- Samples the next reads of `SDIO->STA` return (then zeros). -/
  staIn : List Nat
  /-- Samples the next reads of `SDIO->RESP1` return (then zeros). -/
  respIn : List Nat
  /-- DMA2 channel 4 is enabled. -/
  dmaEnabled : Bool
  /-- DMA2 channel 4 transfer count, memory address and configuration. -/
  dmaCNDTR : Nat
  dmaCMAR : Nat
  dmaCCR : Nat
  /-- Environment: the SDIO interrupt is raised while the calling thread is suspended. -/
  irq : Bool
  /-- Build option `CH_DBG_ENABLE_ASSERTS`. -/
  dbgAsserts : Bool
  /-- Build option `STM32_SDC_SDIO_DMA_PRIORITY`. -/
  dmaPriority : Nat
  /-- Modelled from the spec: `chSchIsRescRequiredI`, whether a thread in the
  ready list has a higher priority than the interrupted one. -/
  rescRequired : List Tid → Bool
  /-- Everything done so far, oldest first. -/
  trace : List Event

/-- Outcome of running a piece of driver code. -/
inductive Result (α : Type) where
  /-- The code returned `v`. -/
  | ret (v : α) (w : World)
  /-- A debug assertion failed: `chDbgPanic` halted the system. -/
  | halt (w : World)
  /-- The code never returns (endless poll loop, or a sleep never woken). -/
  | hang (w : World)

/-- The machine state in which an outcome leaves the system. -/
def Result.world {α : Type} : Result α → World
  | .ret _ w => w
  | .halt w => w
  | .hang w => w

/-- Sequencing of outcomes: continue only after a return. -/
def Result.bind {α β : Type} (r : Result α) (f : α → World → Result β) : Result β :=
  match r with
  | .ret v w => f v w
  | .halt w => .halt w
  | .hang w => .hang w

/-- Replace the machine state of an outcome. -/
def Result.mapWorld {α : Type} (f : World → World) : Result α → Result α
  | .ret v w => .ret v (f w)
  | .halt w => .halt (f w)
  | .hang w => .hang (f w)

/-! ## Primitive actions -/

/-- Append one event to the trace. -/
def emit (e : Event) (w : World) : World :=
  { w with trace := w.trace ++ [e] }

/-- `chSysLock()`: enter the gate from thread context. -/
def chSysLock (w : World) : World :=
  emit .lock { w with locked := true }

/-- `chSysUnlock()`: leave the gate from thread context. -/
def chSysUnlock (w : World) : World :=
  emit .unlock { w with locked := false }

/-- `chSysLockFromIsr()`: enter the gate from an interrupt handler. -/
def chSysLockFromIsr (w : World) : World :=
  emit .lockFromIsr { w with locked := true }

/-- `chSysUnlockFromIsr()`: leave the gate from an interrupt handler. -/
def chSysUnlockFromIsr (w : World) : World :=
  emit .unlockFromIsr { w with locked := false }

/-- A read of `SDCD1.thread`. -/
def readSlot (w : World) : Option Tid × World :=
  (w.thread, emit .slotRead w)

/-- A write of `SDCD1.thread`. -/
def writeSlot (v : Option Tid) (w : World) : World :=
  emit (.slotWrite v) { w with thread := v }

/-- The assignment `tp->p_u.rdymsg = v`. -/
def writeRdymsg (t : Tid) (v : Int) (w : World) : World :=
  emit (.rdymsgWrite t v) { w with rdymsg := fun u => if u = t then v else w.rdymsg u }

/-- A read of `tp->p_u.rdymsg`. -/
def readRdymsg (t : Tid) (w : World) : Int × World :=
  (w.rdymsg t, emit (.rdymsgRead t (w.rdymsg t)) w)

/-- Modelled from the spec: `chSchReadyI(tp)`, "mark thread ready from
interrupt context": the thread enters the ready list. -/
def chSchReadyI (t : Tid) (w : World) : World :=
  emit (.readyI t) { w with rlist := w.rlist ++ [t] }

/-- A read of `SDIO->STA`: the next sample of the status stream. -/
def readSTA (w : World) : Nat × World :=
  (w.staIn.headD 0, emit (.staRead (w.staIn.headD 0)) { w with staIn := w.staIn.tail })

/-- A read of `SDIO->RESP1`: the next sample of the response stream. -/
def readRESP1 (w : World) : Nat × World :=
  (w.respIn.headD 0, emit (.respRead (w.respIn.headD 0)) { w with respIn := w.respIn.tail })

/-- A write of an SDIO register. -/
def writeReg (r : Reg) (v : Nat) (w : World) : World :=
  emit (.regWrite r v) { w with regs := fun q => if q = r then v else w.regs q }

/-- Modelled from the spec: `dmaChannelSetup`, loads transfer count, memory
address and configuration of the channel. -/
def dmaChannelSetup (cnt buf ccr : Nat) (w : World) : World :=
  emit (.dmaSetup cnt buf ccr) { w with dmaCNDTR := cnt, dmaCMAR := buf, dmaCCR := ccr }

/-- Modelled from the spec: `dmaEnableChannel`, the channel starts serving requests. -/
def dmaEnableChannel (w : World) : World :=
  emit .dmaEnable { w with dmaEnabled := true }

/-- Modelled from the spec: `dmaDisableChannel`, the channel is torn down. -/
def dmaDisableChannel (w : World) : World :=
  emit .dmaDisable { w with dmaEnabled := false }

/-- Macro `PORT_IRQ_EPILOGUE` of chcore.h. -/
def PORT_IRQ_EPILOGUE (w : World) : World :=
  let w := chSysLockFromIsr w
  let w := if w.rescRequired w.rlist then emit .pendSV { w with pendsv := true } else w
  chSysUnlockFromIsr w

/-! ## The interrupt handler -/

/-- Function `SDIO_IRQHandler` (sdc_lld.c, lines 58-74). -/
def SDIO_IRQHandler (w : World) : World :=
  let w := chSysLockFromIsr w
  let (slot, w) := readSlot w
  let w :=
    match slot with
    | some t =>
      let (sta, w) := readSTA w
      let w := (readSlot w).2
      let w :=
        if sta &&& SDIO_STA_DATAEND ≠ 0 then writeRdymsg t RDY_OK w
        else writeRdymsg t RDY_RESET w
      let w := (readSlot w).2
      let w := chSchReadyI t w
      writeSlot none w
    | none => w
  let w := chSysUnlockFromIsr w
  PORT_IRQ_EPILOGUE w

/-- Function `sdc_lld_init` (sdc_lld.c, lines 85-89); `sdcObjectInit` puts the
driver object in the stopped state. -/
def sdc_lld_init (w : World) : World :=
  let w := { w with state := sdcstate_t.SDC_STOP }
  writeSlot none w

/-! ## Command senders -/

/-- The loop `while (((sta = SDIO->STA) & mask) == 0) ;` run over the status
stream `l`: it returns the first sample with a bit of `mask`, and never ends
when there is none. -/
def pollLoop (mask : Nat) (w : World) : List Nat → Result Nat
  | [] => .hang { w with staIn := [] }
  | s :: rest =>
    if s &&& mask ≠ 0 then .ret s (emit (.staRead s) { w with staIn := rest })
    else pollLoop mask (emit (.staRead s) { w with staIn := rest }) rest

/-- The poll loop started on the status stream of the machine. -/
def pollSTA (mask : Nat) (w : World) : Result Nat :=
  pollLoop mask w w.staIn

/-- Function `sdc_lld_send_cmd_short_crc` (sdc_lld.c, lines 267-282).  The
response buffer is passed in and handed back with the boolean result. -/
def sdc_lld_send_cmd_short_crc (cmd arg : Nat) (resp : List Nat) (w : World) :
    Result (Bool × List Nat) :=
  let w := writeReg .ARG (arg % 2 ^ 32) w
  let w := writeReg .CMD ((cmd % 2 ^ 8) ||| SDIO_CMD_WAITRESP_0 ||| SDIO_CMD_CPSMEN) w
  (pollSTA (SDIO_STA_CMDREND ||| SDIO_STA_CTIMEOUT ||| SDIO_STA_CCRCFAIL) w).bind fun sta w =>
    let w := writeReg .ICR (SDIO_ICR_CMDRENDC ||| SDIO_ICR_CTIMEOUTC ||| SDIO_ICR_CCRCFAILC) w
    if sta &&& (SDIO_STA_CTIMEOUT ||| SDIO_STA_CCRCFAIL) ≠ 0 then .ret (true, resp) w
    else
      let (r, w) := readRESP1 w
      .ret (false, resp.set 0 r) w

/-! ## Sleeping and waking -/

/-- Macro `chDbgAssert(sdcp->thread == NULL, ...)`: nothing unless assertions
are compiled in; then the slot is read and a non-NULL value halts the system. -/
def chDbgAssert_slotNull (n : Nat) (w : World) : Result Unit :=
  if w.dbgAsserts then
    let (slot, w) := readSlot w
    if slot = none then .ret () w else .halt (emit (.assertFail n) w)
  else .ret () w

/-- Modelled from the spec: first half of `chSchGoSleepS`, the calling thread
is marked non-runnable and then the gate opens. -/
def chSchGoSleepS_suspend (self : Tid) (w : World) : World :=
  emit (.goSleep self) { w with locked := false }

/-- The environment while the caller is suspended: the SDIO interrupt, if the
hardware raises it, is served by `SDIO_IRQHandler`. -/
def deliverIrq (w : World) : World :=
  if w.irq then SDIO_IRQHandler { w with irq := false } else w

/-- Modelled from the spec: second half of `chSchGoSleepS`, the interrupt of
the environment is served and the thread resumes, under the gate, once it has
been made ready; a thread never made ready stays blocked for ever. -/
def chSchGoSleepS_wake (self : Tid) (w : World) : Result Unit :=
  let w := deliverIrq w
  if self ∈ w.rlist then
    .ret () (emit (.resume self) { w with rlist := w.rlist.erase self, locked := true })
  else .hang w

/-- Modelled from the spec: `chSchGoSleepS`, "go to sleep, release gate" and
resume after the wake. -/
def chSchGoSleepS (self : Tid) (w : World) : Result Unit :=
  chSchGoSleepS_wake self (chSchGoSleepS_suspend self w)

/-! ## Block read and write -/

/-- The terminal conditions of the data phase tested under the gate. -/
def dataTerminalBits : Nat :=
  SDIO_STA_DCRCFAIL ||| SDIO_STA_DTIMEOUT ||| SDIO_STA_DATAEND ||| SDIO_STA_STBITERR

/-- Label `error:` of `sdc_lld_read` (sdc_lld.c, lines 385-390). -/
def sdc_lld_read_error (w : World) : Result Bool :=
  let w := dmaDisableChannel w
  let w := writeReg .ICR 0xFFFFFFFF w
  let w := writeReg .MASK 0 w
  let w := writeReg .DCTRL 0 w
  .ret true w

/-- Lines 380-384 of `sdc_lld_read`: leave the gate, send the stop command. -/
def sdc_lld_read_stop (resp : List Nat) (w : World) : Result Bool :=
  let w := chSysUnlock w
  (sdc_lld_send_cmd_short_crc SDC_CMD_STOP_TRANSMISSION 0 resp w).bind fun r w =>
    if r.1 then sdc_lld_read_error w else .ret false w

/-- Lines 365-372 of `sdc_lld_read`: registration in the waiting-thread slot,
sleep, and the branch on the wake code. -/
def sdc_lld_read_sleep (self : Tid) (resp : List Nat) (w : World) : Result Bool :=
  (chDbgAssert_slotNull 1 w).bind fun _ w =>
    let w := writeSlot (some self) w
    (chSchGoSleepS self w).bind fun _ w =>
      (chDbgAssert_slotNull 2 w).bind fun _ w =>
        let (msg, w) := readRdymsg self w
        if msg ≠ RDY_OK then sdc_lld_read_error (chSysUnlock w)
        else sdc_lld_read_stop resp w

/-- Lines 361-379 of `sdc_lld_read`, from `chSysLock` on: the rendezvous. -/
def sdc_lld_read_wait (self : Tid) (resp : List Nat) (w : World) : Result Bool :=
  let w := chSysLock w
  let (sta, w) := readSTA w
  if sta &&& dataTerminalBits = 0 then sdc_lld_read_sleep self resp w
  else
    if sta &&& SDIO_STA_DATAEND = 0 then sdc_lld_read_error (chSysUnlock w)
    else sdc_lld_read_stop resp w

/-- Lines 335-354 of `sdc_lld_read`: DMA channel and data path set-up. -/
def sdc_lld_read_setup (buf n : Nat) (w : World) : World :=
  let w := dmaChannelSetup ((n * SDC_BLOCK_SIZE) % 2 ^ 32 / 4) buf
    ((w.dmaPriority <<< 12) ||| DMA_CCR1_PSIZE_1 ||| DMA_CCR1_MSIZE_1 ||| DMA_CCR1_MINC) w
  let w := writeReg .ICR 0xFFFFFFFF w
  let w := writeReg .MASK (SDIO_MASK_DCRCFAILIE ||| SDIO_MASK_DTIMEOUTIE |||
    SDIO_MASK_DATAENDIE ||| SDIO_MASK_STBITERRIE) w
  let w := writeReg .DLEN ((n * SDC_BLOCK_SIZE) % 2 ^ 32) w
  let w := writeReg .DCTRL (SDIO_DCTRL_RWMOD ||| SDIO_DCTRL_DBLOCKSIZE_3 |||
    SDIO_DCTRL_DBLOCKSIZE_3 ||| SDIO_DCTRL_DMAEN ||| SDIO_DCTRL_DTEN) w
  dmaEnableChannel w

/-- Function `sdc_lld_read` (sdc_lld.c, lines 331-391), called by thread
`self` (`chThdSelf()`); `TRUE` is failure, `FALSE` is success.  The local
buffer `resp[1]` starts as `[0]`; it is read only after a successful send. -/
def sdc_lld_read (self : Tid) (startblk buf n : Nat) (w : World) : Result Bool :=
  let w := sdc_lld_read_setup buf n w
  (sdc_lld_send_cmd_short_crc SDC_CMD_READ_MULTIPLE_BLOCK startblk [0] w).bind fun r w =>
    if r.1 ∨ r.2.headD 0 &&& SDC_R1_ERROR_MASK ≠ 0 then sdc_lld_read_error w
    else sdc_lld_read_wait self r.2 w

/-- Function `sdc_lld_write` (sdc_lld.c, lines 407-411). -/
def sdc_lld_write (_startblk _buf _n : Nat) (w : World) : Result Bool :=
  .ret true w

/-! ## Sequences of registrations and interrupts on one device -/

/-- Lines 365-367 of `sdc_lld_read` up to the point where the caller is
suspended: assertion #1, registration in the slot, going to sleep. -/
def sdc_lld_read_register (self : Tid) (w : World) : Result Unit :=
  (chDbgAssert_slotNull 1 w).bind fun _ w =>
    .ret () (chSchGoSleepS_suspend self (writeSlot (some self) w))

/-- One step on the device: a thread reaches registration, or the interrupt runs. -/
inductive Op where
  | register (t : Tid)
  | irq
deriving DecidableEq, Repr

/-- Run one step. -/
def runOp (op : Op) (w : World) : Result Unit :=
  match op with
  | .register t => sdc_lld_read_register t w
  | .irq => .ret () (SDIO_IRQHandler w)

/-- Run a sequence of steps, stopping at the first that does not return. -/
def runOps : List Op → World → Result Unit
  | [], w => .ret () w
  | op :: ops, w => (runOp op w).bind fun _ w => runOps ops w

/-- A machine at rest: empty slot, gate open, nothing recorded. -/
def World.idle (sta resp : List Nat) (irq : Bool) (asserts : Bool) : World where
  state := sdcstate_t.SDC_READY
  thread := none
  rdymsg := fun _ => 0
  rlist := []
  locked := false
  pendsv := false
  regs := fun _ => 0
  staIn := sta
  respIn := resp
  dmaEnabled := false
  dmaCNDTR := 0
  dmaCMAR := 0
  dmaCCR := 0
  irq := irq
  dbgAsserts := asserts
  dmaPriority := 3
  rescRequired := fun _ => false
  trace := []

/-! ## Long-response command sender -/

/-- Function `sdc_lld_send_cmd_long_crc` (sdc_lld.c, lines 298-315).  The
response buffer is passed in and handed back with the boolean result. -/
def sdc_lld_send_cmd_long_crc (cmd arg : Nat) (resp : List Nat) (w : World) :
    Result (Bool × List Nat) :=
  let w := writeReg .ARG (arg % 2 ^ 32) w
  let w := writeReg .CMD
    ((cmd % 2 ^ 8) ||| SDIO_CMD_WAITRESP_0 ||| SDIO_CMD_WAITRESP_1 ||| SDIO_CMD_CPSMEN) w
  (pollSTA (SDIO_STA_CMDREND ||| SDIO_STA_CTIMEOUT ||| SDIO_STA_CCRCFAIL) w).bind fun sta w =>
    let w := writeReg .ICR (SDIO_ICR_CMDRENDC ||| SDIO_ICR_CTIMEOUTC ||| SDIO_ICR_CCRCFAILC) w
    if sta &&& (SDIO_STA_CTIMEOUT ||| SDIO_STA_CCRCFAIL) ≠ 0 then .ret (true, resp) w
    else
      let (r, w) := readRESP1 w
      .ret (false, resp.set 0 r) w

/-! ## Port layer (chcore.h): sizes -/

/-- Size of `stkalign_t` (`typedef uint32_t stkalign_t`). -/
def sizeof_stkalign_t : Nat := 4

/-- Size of `regarm_t` (`typedef void *regarm_t`) on the 32 bit Cortex-M. -/
def sizeof_regarm_t : Nat := 4

/-- The members of `struct intctx`. -/
inductive IntctxField where
  | basepri
  | r4
  | r5
  | r6
  | r7
  | r8
  | r9
  | r10
  | r11
  | lr_exc
  | r0
  | r1
  | r2
  | r3
  | r12
  | lr_thd
  | pc
  | xpsr
deriving DecidableEq, Repr

/-- The members of `struct intctx` in declaration order; `r7` is left out when
`CH_CURRP_REGISTER_CACHE` is defined (`cache`). -/
def intctxFields (cache : Bool) : List IntctxField :=
  [.basepri, .r4, .r5, .r6] ++ (if cache then [] else [.r7]) ++
  [.r8, .r9, .r10, .r11, .lr_exc, .r0, .r1, .r2, .r3, .r12, .lr_thd, .pc, .xpsr]

/-- Value of `sizeof(struct intctx)`: its members are words, without padding. -/
def sizeof_intctx (cache : Bool) : Nat :=
  sizeof_regarm_t * (intctxFields cache).length

/-- Byte offset of a member of `struct intctx`. -/
def intctxOffset (cache : Bool) (f : IntctxField) : Nat :=
  sizeof_regarm_t * (intctxFields cache).indexOf f

/-- Value of `sizeof(struct extctx)`: the structure is empty in this port. -/
def sizeof_extctx : Nat := 0

/-- Macro `INT_REQUIRED_STACK` (default value). -/
def INT_REQUIRED_STACK : Nat := 0

/-- Macro `STACK_ALIGN(n)` in 32 bit unsigned arithmetic. -/
def STACK_ALIGN (n : Nat) : Nat :=
  ((((n + 2 ^ 32 - 1) % 2 ^ 32) ||| (sizeof_stkalign_t - 1)) + 1) % 2 ^ 32

/-- Macro `THD_WA_SIZE(n)` in 32 bit unsigned arithmetic; `sizeofThread` is
`sizeof(Thread)`, a structure declared outside this development. -/
def THD_WA_SIZE (cache : Bool) (sizeofThread n : Nat) : Nat :=
  STACK_ALIGN ((sizeofThread + sizeof_intctx cache + sizeof_extctx + n +
    INT_REQUIRED_STACK) % 2 ^ 32)

/-- Macro `WORKING_AREA(s, n)`: the number of elements of the array it declares. -/
def WORKING_AREA_length (cache : Bool) (sizeofThread n : Nat) : Nat :=
  THD_WA_SIZE cache sizeofThread n / sizeof_stkalign_t

/-- Macro `WORKING_AREA(s, n)`: the size in bytes of the array it declares. -/
def WORKING_AREA_bytes (cache : Bool) (sizeofThread n : Nat) : Nat :=
  sizeof_stkalign_t * WORKING_AREA_length cache sizeofThread n

/-! ## Port layer (chcore.h): the gate and the initial context -/

/-- Values of the configuration macros the port takes from headers outside
this development. -/
structure PortParams where
  /-- Macro `CORTEX_BASEPRI_USER`. -/
  CORTEX_BASEPRI_USER : Nat
  /-- Macro `CORTEX_BASEPRI_KERNEL`. -/
  CORTEX_BASEPRI_KERNEL : Nat
  /-- Macro `CH_OPTIMIZE_SPEED`. -/
  CH_OPTIMIZE_SPEED : Bool

/-- The interrupt masking state of the processor: the BASEPRI threshold and
the global interrupt-enable flag (PRIMASK clear). -/
structure Cpu where
  basepri : Nat
  irqEnabled : Bool
deriving DecidableEq, Repr

/-- Instruction `msr BASEPRI, v`. -/
def msr_basepri (v : Nat) (c : Cpu) : Cpu :=
  { c with basepri := v }

/-- Instruction `cpsie i`. -/
def cpsie_i (c : Cpu) : Cpu :=
  { c with irqEnabled := true }

/-- Instruction `cpsid i`. -/
def cpsid_i (c : Cpu) : Cpu :=
  { c with irqEnabled := false }

/-- Modelled from the spec: the out-of-line `_port_lock`, "raises the
interrupt-priority threshold to kernel level". -/
def _port_lock (p : PortParams) (c : Cpu) : Cpu :=
  msr_basepri p.CORTEX_BASEPRI_KERNEL c

/-- Modelled from the spec: the out-of-line `_port_unlock`, "restores the
(user) threshold". -/
def _port_unlock (p : PortParams) (c : Cpu) : Cpu :=
  msr_basepri p.CORTEX_BASEPRI_USER c

/-- Macro `port_lock()`. -/
def port_lock (p : PortParams) (c : Cpu) : Cpu :=
  if p.CH_OPTIMIZE_SPEED then msr_basepri p.CORTEX_BASEPRI_KERNEL c else _port_lock p c

/-- Macro `port_unlock()`. -/
def port_unlock (p : PortParams) (c : Cpu) : Cpu :=
  if p.CH_OPTIMIZE_SPEED then msr_basepri p.CORTEX_BASEPRI_USER c else _port_unlock p c

/-- Macro `port_lock_from_isr()`. -/
def port_lock_from_isr (p : PortParams) (c : Cpu) : Cpu :=
  port_lock p c

/-- Macro `port_unlock_from_isr()`. -/
def port_unlock_from_isr (p : PortParams) (c : Cpu) : Cpu :=
  port_unlock p c

/-- Macro `port_disable()`. -/
def port_disable (c : Cpu) : Cpu :=
  cpsid_i c

/-- Macro `port_suspend()`. -/
def port_suspend (p : PortParams) (c : Cpu) : Cpu :=
  cpsie_i (msr_basepri p.CORTEX_BASEPRI_KERNEL c)

/-- Macro `port_enable()`. -/
def port_enable (p : PortParams) (c : Cpu) : Cpu :=
  cpsie_i (msr_basepri p.CORTEX_BASEPRI_USER c)

/-- Byte-addressed memory. -/
abbrev Mem := Nat → Nat

/-- A 32 bit little-endian store at byte address `a`. -/
def storeWord (m : Mem) (a v : Nat) : Mem :=
  fun x => if a ≤ x ∧ x < a + 4 then (v / 256 ^ (x - a)) % 256 else m x

/-- A 32 bit little-endian load at byte address `a`. -/
def loadWord (m : Mem) (a : Nat) : Nat :=
  m a + 256 * m (a + 1) + 256 ^ 2 * m (a + 2) + 256 ^ 3 * m (a + 3)

/-- Macro `SETUP_CONTEXT(workspace, wsize, pf, arg)`.  The thread pointer `tp`
is free in the macro: `ctx` is the address of `tp->p_ctx`, whose only member is
`r13`; `chThdExit` is the address of that function.  Every statement after
the first reads `tp->p_ctx.r13` back from memory. -/
def SETUP_CONTEXT (cache : Bool) (p : PortParams) (chThdExit ctx : Nat)
    (workspace wsize pf arg : Nat) (m : Mem) : Mem :=
  let m := storeWord m ctx ((workspace + wsize + 2 ^ 32 - sizeof_intctx cache) % 2 ^ 32)
  let m := storeWord m (loadWord m ctx + intctxOffset cache .basepri) p.CORTEX_BASEPRI_USER
  let m := storeWord m (loadWord m ctx + intctxOffset cache .lr_exc) 0xFFFFFFFD
  let m := storeWord m (loadWord m ctx + intctxOffset cache .r0) arg
  let m := storeWord m (loadWord m ctx + intctxOffset cache .lr_thd) chThdExit
  let m := storeWord m (loadWord m ctx + intctxOffset cache .pc) pf
  storeWord m (loadWord m ctx + intctxOffset cache .xpsr) 0x01000000

/-- Byte address `a` lies in the word at `b`. -/
def inWord (b a : Nat) : Prop :=
  b ≤ a ∧ a < b + 4

instance (b a : Nat) : Decidable (inWord b a) := by
  unfold inWord
  exact inferInstance

/-! ## Vocabulary of the statements -/

/-- The value of an outcome that returned. -/
def Result.val? {α : Type} : Result α → Option α
  | .ret v _ => some v
  | .halt _ => none
  | .hang _ => none

/-- A status sample shows none of command-complete (bit 6), command timeout
(bit 2), command CRC failure (bit 0). -/
def cmdPending (x : Nat) : Prop :=
  x.testBit 6 = false ∧ x.testBit 2 = false ∧ x.testBit 0 = false

/-- On the status stream `l` a command poll ends at sample `e` and leaves
`rest` unread: `e` is the first sample showing command-complete, timeout or
CRC failure. -/
def PollEnds (l : List Nat) (e : Nat) (rest : List Nat) : Prop :=
  ∃ pre, l = pre ++ e :: rest ∧ (∀ x ∈ pre, cmdPending x) ∧ ¬ cmdPending e

/-- The command register values written in a trace, oldest first. -/
def cmdWrites (tr : List Event) : List Nat :=
  tr.filterMap fun e =>
    match e with
    | .regWrite .CMD v => some v
    | _ => none

/-- The events that access the waiting-thread slot for writing or put a thread to sleep. -/
def isSlotWriteOrSleep (e : Event) : Bool :=
  match e with
  | .slotWrite _ => true
  | .goSleep _ => true
  | _ => false

/-- The word the short-response senders write to the command register. -/
def cmdWord (cmd : Nat) : Nat :=
  (cmd % 2 ^ 8) ||| SDIO_CMD_WAITRESP_0 ||| SDIO_CMD_CPSMEN

/-- A status sample that ends a command poll reports failure: timeout (bit 2)
or CRC failure (bit 0). -/
def cmdFailed (e : Nat) : Prop :=
  e.testBit 2 = true ∨ e.testBit 0 = true

instance (e : Nat) : Decidable (cmdFailed e) := by
  unfold cmdFailed
  exact inferInstance

/-- The machine right after a command poll that read `pre` and ended at `e`. -/
def cmdDone (cmd arg : Nat) (pre : List Nat) (e : Nat) (rest : List Nat) (w : World) : World :=
  writeReg .ICR (SDIO_ICR_CMDRENDC ||| SDIO_ICR_CTIMEOUTC ||| SDIO_ICR_CCRCFAILC)
    { writeReg .CMD (cmdWord cmd) (writeReg .ARG (arg % 2 ^ 32) w) with
      staIn := rest
      trace := (writeReg .CMD (cmdWord cmd) (writeReg .ARG (arg % 2 ^ 32) w)).trace ++
        (pre ++ [e]).map Event.staRead }

/-- The machine in which a command poll that is never answered spins. -/
def cmdHung (cmd arg : Nat) (w : World) : World :=
  { writeReg .CMD (cmdWord cmd) (writeReg .ARG (arg % 2 ^ 32) w) with
    staIn := []
    trace := (writeReg .CMD (cmdWord cmd) (writeReg .ARG (arg % 2 ^ 32) w)).trace ++
      w.staIn.map Event.staRead }

/-- The machine after the statements of label `error:`. -/
def tornDown (w : World) : World :=
  writeReg .DCTRL 0 (writeReg .MASK 0 (writeReg .ICR 0xFFFFFFFF (dmaDisableChannel w)))

/-- A status sample shows none of the terminal conditions of the data phase:
data CRC failure (bit 1), data timeout (bit 3), data end (bit 8), start-bit
error (bit 9). -/
def dataPending (s : Nat) : Prop :=
  s.testBit 1 = false ∧ s.testBit 3 = false ∧ s.testBit 8 = false ∧ s.testBit 9 = false

instance (s : Nat) : Decidable (dataPending s) := by
  unfold dataPending
  exact inferInstance

/-- The machine after an assertion on the slot that passes. -/
def assertPassed (w : World) : World :=
  if w.dbgAsserts then (readSlot w).2 else w

/-- The machine in which thread `self` is registered and suspended. -/
def registered (self : Tid) (w : World) : World :=
  chSchGoSleepS_suspend self (writeSlot (some self) (assertPassed w))

/-- The machine in which thread `self`, registered from `w`, has been woken by
the interrupt handler, has passed assertion #2 and has read its wake code. -/
def woken (self : Tid) (w : World) : World :=
  (readRdymsg self (assertPassed (emit (.resume self)
    { SDIO_IRQHandler { registered self w with irq := false } with
      rlist := (SDIO_IRQHandler { registered self w with irq := false }).rlist.erase self
      locked := true }))).2

/-- Operations on the gate from thread context. -/
def isGateOp (e : Event) : Bool :=
  match e with
  | .lock => true
  | .unlock => true
  | _ => false

/-- Operations on the DMA channel. -/
def isDmaOp (e : Event) : Bool :=
  match e with
  | .dmaSetup _ _ _ => true
  | .dmaEnable => true
  | .dmaDisable => true
  | _ => false

/-- The events a run added to the trace of the machine it started from. -/
def newEvents (w w1 : World) : List Event :=
  w1.trace.drop w.trace.length

/-- The machine after a command poll that ended at `e` without failure and
after the response register has been read. -/
def cmdAnswered (cmd arg : Nat) (pre : List Nat) (e : Nat) (rest : List Nat) (w : World) :
    World :=
  (readRESP1 (cmdDone cmd arg pre e rest w)).2

/-- On the status stream `l` a command is answered without timeout or CRC
failure, leaving `rest` unread. -/
def CmdSucceeds (l rest : List Nat) : Prop :=
  ∃ e, PollEnds l e rest ∧ ¬ cmdFailed e

/-- The machine at the point where `sdc_lld_read`, its read command answered
by the poll `pre ++ [e]`, has entered the gate and sampled the status. -/
def sampled (startblk buf n : Nat) (pre : List Nat) (e : Nat) (rest : List Nat) (w : World) :
    World :=
  (readSTA (chSysLock (cmdAnswered SDC_CMD_READ_MULTIPLE_BLOCK startblk pre e rest
    (sdc_lld_read_setup buf n w)))).2

/-- The events of `sdc_lld_read` up to the sampling of the status under the gate. -/
def sampledEvents (startblk buf n : Nat) (pre : List Nat) (e : Nat) (rest : List Nat)
    (w : World) : List Event :=
  [Event.dmaSetup ((n * SDC_BLOCK_SIZE) % 2 ^ 32 / 4) buf
      ((w.dmaPriority <<< 12) ||| DMA_CCR1_PSIZE_1 ||| DMA_CCR1_MSIZE_1 ||| DMA_CCR1_MINC),
    Event.regWrite Reg.ICR 0xFFFFFFFF,
    Event.regWrite Reg.MASK (SDIO_MASK_DCRCFAILIE ||| SDIO_MASK_DTIMEOUTIE |||
      SDIO_MASK_DATAENDIE ||| SDIO_MASK_STBITERRIE),
    Event.regWrite Reg.DLEN ((n * SDC_BLOCK_SIZE) % 2 ^ 32),
    Event.regWrite Reg.DCTRL (SDIO_DCTRL_RWMOD ||| SDIO_DCTRL_DBLOCKSIZE_3 |||
      SDIO_DCTRL_DBLOCKSIZE_3 ||| SDIO_DCTRL_DMAEN ||| SDIO_DCTRL_DTEN),
    Event.dmaEnable,
    Event.regWrite Reg.ARG (startblk % 2 ^ 32),
    Event.regWrite Reg.CMD (cmdWord SDC_CMD_READ_MULTIPLE_BLOCK)] ++
  (pre ++ [e]).map Event.staRead ++
  [Event.regWrite Reg.ICR (SDIO_ICR_CMDRENDC ||| SDIO_ICR_CTIMEOUTC ||| SDIO_ICR_CCRCFAILC),
    Event.respRead (w.respIn.headD 0),
    Event.lock,
    Event.staRead (rest.headD 0)]

/-- The reads of a thread's wake code in a trace: thread and value found. -/
def wakeReads (tr : List Event) : List (Tid × Int) :=
  tr.filterMap fun e =>
    match e with
    | .rdymsgRead t v => some (t, v)
    | _ => none

/-- The events of the rendezvous between a sleeping thread and the interrupt
handler: a thread goes to sleep, a wake code is deposited in a thread's
`rdymsg`, a thread is made ready, a thread resumes, a thread reads its wake
code. -/
def isRendezvous (e : Event) : Bool :=
  match e with
  | .goSleep _ => true
  | .rdymsgWrite _ _ => true
  | .readyI _ => true
  | .resume _ => true
  | .rdymsgRead _ _ => true
  | _ => false

/-- The complete rendezvous of thread `self` with wake code `c`, in program
order: the thread goes to sleep, the code `c` is deposited in its `rdymsg`,
the thread is made ready, the thread resumes, the thread reads `c`. -/
def rendezvous (self : Tid) (c : Int) : List Event :=
  [.goSleep self, .rdymsgWrite self c, .readyI self, .resume self, .rdymsgRead self c]

/-- The machine with the driver state field replaced. -/
def setState (st : sdcstate_t) (w : World) : World :=
  { w with state := st }

/-- The content of the slot, starting from `s`, after steps that all returned:
a registration stores its thread, an interrupt clears the slot. -/
def owner : List Op → Option Tid → Option Tid
  | [], s => s
  | Op.register t :: ops, _ => owner ops (some t)
  | Op.irq :: ops, _ => owner ops none

/-- Starting from slot content `s`, no registration of the sequence meets an
occupied slot. -/
def Exclusive : List Op → Option Tid → Prop
  | [], _ => True
  | Op.register t :: ops, s => s = none ∧ Exclusive ops (some t)
  | Op.irq :: ops, _ => Exclusive ops none

/-- The trace of `w1` continues the trace of `w`. -/
def Extends (w w1 : World) : Prop :=
  ∃ Z, w1.trace = w.trace ++ Z

/-- One event against the gate discipline, `held` telling whether the gate is
held before it: a lock needs the gate open, an unlock and a sleep need it
held and open it, a resumption takes it again, and a read or write of the
waiting-thread slot needs it held.  `none` is a violation. -/
def gateStep (held : Bool) (e : Event) : Option Bool :=
  match e with
  | .lock => if held then none else some true
  | .lockFromIsr => if held then none else some true
  | .unlock => if held then some false else none
  | .unlockFromIsr => if held then some false else none
  | .goSleep _ => if held then some false else none
  | .resume _ => if held then none else some true
  | .slotRead => if held then some true else none
  | .slotWrite _ => if held then some true else none
  | _ => some held

/-- A trace against the gate discipline: the state of the gate after it, or
`none` when some event violates the discipline. -/
def gateRun : Bool → List Event → Option Bool
  | h, [] => some h
  | h, e :: es =>
    match gateStep h e with
    | none => none
    | some h1 => gateRun h1 es

/-- From `w` with the gate state `h`, the events leading to `w1` respect the
gate discipline and leave the gate state `h1`. -/
def Safe (h : Bool) (w w1 : World) (h1 : Bool) : Prop :=
  ∃ Z, w1.trace = w.trace ++ Z ∧ gateRun h Z = some h1

/-- An outcome reached from `w` with gate state `h` respects the gate
discipline, and leaves the gate state `hret` when the code returned. -/
def SafeR {α : Type} (h : Bool) (w : World) (r : Result α) (hret : Bool) : Prop :=
  ∃ h1, Safe h w r.world h1 ∧ ∀ v w1, r = .ret v w1 → h1 = hret

/-! ## Bit tests -/

theorem lor_eq_zero_iff (x y : Nat) : x ||| y = 0 ↔ x = 0 ∧ y = 0 := by
  constructor
  · intro h
    constructor
    · apply Nat.eq_of_testBit_eq
      intro i
      have := congrArg (fun z => Nat.testBit z i) h
      simp only [Nat.testBit_or, Nat.zero_testBit, Bool.or_eq_false_iff] at this
      simpa using this.1
    · apply Nat.eq_of_testBit_eq
      intro i
      have := congrArg (fun z => Nat.testBit z i) h
      simp only [Nat.testBit_or, Nat.zero_testBit, Bool.or_eq_false_iff] at this
      simpa using this.2
  · rintro ⟨rfl, rfl⟩
    rfl

theorem and_lor_eq_zero_iff (a b c : Nat) :
    a &&& (b ||| c) = 0 ↔ a &&& b = 0 ∧ a &&& c = 0 := by
  rw [Nat.and_or_distrib_left, lor_eq_zero_iff]

theorem and_two_pow_ne_zero_iff (s i : Nat) : s &&& 2 ^ i ≠ 0 ↔ s.testBit i = true := by
  constructor
  · intro h
    obtain ⟨j, hj⟩ := Nat.ne_zero_implies_bit_true h
    simp only [Nat.testBit_and, Nat.testBit_two_pow, Bool.and_eq_true, decide_eq_true_eq] at hj
    obtain ⟨h1, h2⟩ := hj
    subst h2
    exact h1
  · intro h h0
    have := congrArg (fun z => Nat.testBit z i) h0
    simp [Nat.testBit_and, Nat.testBit_two_pow, h] at this

/-! ## The interrupt handler -/

/-- The events `PORT_IRQ_EPILOGUE` adds when the ready list is `rl`. -/
theorem PORT_IRQ_EPILOGUE_trace (w : World) :
    (PORT_IRQ_EPILOGUE w).trace = w.trace ++ [Event.lockFromIsr] ++
      (if w.rescRequired w.rlist then [Event.pendSV] else []) ++ [Event.unlockFromIsr] := by
  unfold PORT_IRQ_EPILOGUE chSysLockFromIsr chSysUnlockFromIsr emit
  by_cases h : w.rescRequired w.rlist <;> simp [h]

/-- C1 (null-slot tolerance): with `SDCD1.thread` NULL, whatever the status
stream holds, `SDIO_IRQHandler` leaves the slot NULL, every thread's `rdymsg`
and the ready list as they were, does not even read the status register, and
records only the gate operations and one slot read: no `chSchReadyI` call, no
`rdymsg` access. -/
theorem SDIO_IRQHandler_null_slot (w : World) (h : w.thread = none) :
    (SDIO_IRQHandler w).thread = none ∧
    (SDIO_IRQHandler w).rdymsg = w.rdymsg ∧
    (SDIO_IRQHandler w).rlist = w.rlist ∧
    (SDIO_IRQHandler w).staIn = w.staIn ∧
    (SDIO_IRQHandler w).trace = w.trace ++
      [Event.lockFromIsr, Event.slotRead, Event.unlockFromIsr, Event.lockFromIsr] ++
      (if w.rescRequired w.rlist then [Event.pendSV] else []) ++ [Event.unlockFromIsr] ∧
    (∀ e ∈ (SDIO_IRQHandler w).trace.drop w.trace.length,
      (∀ t, e ≠ Event.readyI t) ∧ (∀ t v, e ≠ Event.rdymsgWrite t v) ∧
      (∀ t v, e ≠ Event.rdymsgRead t v) ∧ (∀ v, e ≠ Event.slotWrite v)) := by
  have ht : (SDIO_IRQHandler w).trace = w.trace ++
      [Event.lockFromIsr, Event.slotRead, Event.unlockFromIsr, Event.lockFromIsr] ++
      (if w.rescRequired w.rlist then [Event.pendSV] else []) ++ [Event.unlockFromIsr] := by
    unfold SDIO_IRQHandler
    simp only [readSlot, chSysLockFromIsr, chSysUnlockFromIsr, emit, h, PORT_IRQ_EPILOGUE_trace]
    simp
  refine ⟨?_, ?_, ?_, ?_, ht, ?_⟩
  · unfold SDIO_IRQHandler PORT_IRQ_EPILOGUE
    simp only [readSlot, chSysLockFromIsr, chSysUnlockFromIsr, emit, h]
    split <;> rfl
  · unfold SDIO_IRQHandler PORT_IRQ_EPILOGUE
    simp only [readSlot, chSysLockFromIsr, chSysUnlockFromIsr, emit, h]
    split <;> rfl
  · unfold SDIO_IRQHandler PORT_IRQ_EPILOGUE
    simp only [readSlot, chSysLockFromIsr, chSysUnlockFromIsr, emit, h]
    split <;> rfl
  · unfold SDIO_IRQHandler PORT_IRQ_EPILOGUE
    simp only [readSlot, chSysLockFromIsr, chSysUnlockFromIsr, emit, h]
    split <;> rfl
  · rw [ht]
    intro e he
    simp only [List.append_assoc, List.drop_left] at he
    by_cases hr : w.rescRequired w.rlist
    · simp [hr] at he
      rcases he with rfl | rfl | rfl | rfl | rfl | rfl <;> simp
    · simp [hr] at he
      rcases he with rfl | rfl | rfl | rfl | rfl <;> simp

/-- Witness for C1: a spurious interrupt on an idle machine whose status
register shows data-end. -/
theorem SDIO_IRQHandler_null_slot_witness :
    (SDIO_IRQHandler (World.idle [0x100] [] false true)).thread = none ∧
    (SDIO_IRQHandler (World.idle [0x100] [] false true)).staIn = [0x100] :=
  ⟨(SDIO_IRQHandler_null_slot (World.idle [0x100] [] false true) rfl).1,
   (SDIO_IRQHandler_null_slot (World.idle [0x100] [] false true) rfl).2.2.2.1⟩

/-- The data-end test of the driver is a test of status bit 8. -/
theorem dataend_test (s : Nat) : s &&& SDIO_STA_DATAEND ≠ 0 ↔ s.testBit 8 = true :=
  and_two_pow_ne_zero_iff s 8

theorem PORT_IRQ_EPILOGUE_frame (w : World) :
    (PORT_IRQ_EPILOGUE w).thread = w.thread ∧ (PORT_IRQ_EPILOGUE w).rdymsg = w.rdymsg ∧
    (PORT_IRQ_EPILOGUE w).rlist = w.rlist ∧ (PORT_IRQ_EPILOGUE w).staIn = w.staIn ∧
    (PORT_IRQ_EPILOGUE w).locked = false := by
  unfold PORT_IRQ_EPILOGUE chSysLockFromIsr chSysUnlockFromIsr emit
  by_cases h : w.rescRequired w.rlist <;> simp [h]

/-- With a registered thread the handler is this straight line of actions. -/
theorem SDIO_IRQHandler_some (w : World) (t : Tid) (h : w.thread = some t) :
    SDIO_IRQHandler w = PORT_IRQ_EPILOGUE (chSysUnlockFromIsr (writeSlot none
      (chSchReadyI t (readSlot (writeRdymsg t
        (if (w.staIn.headD 0).testBit 8 then RDY_OK else RDY_RESET)
        (readSlot (readSTA (readSlot (chSysLockFromIsr w)).2).2).2)).2))) := by
  unfold SDIO_IRQHandler
  have hs : (readSlot (chSysLockFromIsr w)).1 = some t := h
  have hv : (readSTA (readSlot (chSysLockFromIsr w)).2).1 = w.staIn.headD 0 := rfl
  by_cases hb : (w.staIn.headD 0).testBit 8 = true
  · have hb2 := (dataend_test _).2 hb
    simp only [hs, hb, if_true]
    rw [hv, if_pos hb2]
  · have hb2 : ¬ ((w.staIn.headD 0) &&& SDIO_STA_DATAEND ≠ 0) := fun hc =>
      hb ((dataend_test _).1 hc)
    simp only [hs, hb]
    rw [hv, if_neg hb2]
    rfl

/-- C2 (interrupt-side completion): with `SDCD1.thread` referring to `t` and
`s` the status sample the handler reads, `SDIO_IRQHandler` stores in `t`'s
`rdymsg` the code `RDY_OK` when bit DATAEND of `s` is set and `RDY_RESET`
otherwise, touches no other thread's `rdymsg`, calls `chSchReadyI t` exactly
once, clears the slot, and does all of it between `chSysLockFromIsr` and
`chSysUnlockFromIsr`, before the epilogue. -/
theorem SDIO_IRQHandler_completion (w : World) (t : Tid) (h : w.thread = some t) :
    (SDIO_IRQHandler w).thread = none ∧
    (SDIO_IRQHandler w).rdymsg t =
      (if (w.staIn.headD 0).testBit 8 then RDY_OK else RDY_RESET) ∧
    (∀ u, u ≠ t → (SDIO_IRQHandler w).rdymsg u = w.rdymsg u) ∧
    (SDIO_IRQHandler w).rlist = w.rlist ++ [t] ∧
    (SDIO_IRQHandler w).trace = w.trace ++
      [Event.lockFromIsr, Event.slotRead, Event.staRead (w.staIn.headD 0), Event.slotRead,
       Event.rdymsgWrite t (if (w.staIn.headD 0).testBit 8 then RDY_OK else RDY_RESET),
       Event.slotRead, Event.readyI t, Event.slotWrite none, Event.unlockFromIsr,
       Event.lockFromIsr] ++
      (if w.rescRequired (w.rlist ++ [t]) then [Event.pendSV] else []) ++
      [Event.unlockFromIsr] ∧
    ((SDIO_IRQHandler w).trace.drop w.trace.length).count (Event.readyI t) = 1 := by
  have ht : (SDIO_IRQHandler w).trace = w.trace ++
      [Event.lockFromIsr, Event.slotRead, Event.staRead (w.staIn.headD 0), Event.slotRead,
       Event.rdymsgWrite t (if (w.staIn.headD 0).testBit 8 then RDY_OK else RDY_RESET),
       Event.slotRead, Event.readyI t, Event.slotWrite none, Event.unlockFromIsr,
       Event.lockFromIsr] ++
      (if w.rescRequired (w.rlist ++ [t]) then [Event.pendSV] else []) ++
      [Event.unlockFromIsr] := by
    rw [SDIO_IRQHandler_some w t h, PORT_IRQ_EPILOGUE_trace]
    simp [readSlot, readSTA, writeRdymsg, chSchReadyI, writeSlot, chSysLockFromIsr,
        chSysUnlockFromIsr, emit]
  refine ⟨?_, ?_, ?_, ?_, ht, ?_⟩
  · rw [SDIO_IRQHandler_some w t h, (PORT_IRQ_EPILOGUE_frame _).1]
    rfl
  · rw [SDIO_IRQHandler_some w t h, (PORT_IRQ_EPILOGUE_frame _).2.1]
    simp [readSlot, readSTA, writeRdymsg, chSchReadyI, writeSlot, chSysLockFromIsr,
        chSysUnlockFromIsr, emit]
  · intro u hu
    rw [SDIO_IRQHandler_some w t h, (PORT_IRQ_EPILOGUE_frame _).2.1]
    simp [readSlot, readSTA, writeRdymsg, chSchReadyI, writeSlot, chSysLockFromIsr,
        chSysUnlockFromIsr, emit, hu]
  · rw [SDIO_IRQHandler_some w t h, (PORT_IRQ_EPILOGUE_frame _).2.2.1]
    rfl
  · rw [ht]
    simp only [List.append_assoc, List.drop_left]
    by_cases hr : w.rescRequired (w.rlist ++ [t]) <;> simp [hr, List.count_cons]

/-- Witness for C2: thread 7 waits and the status register shows data-end. -/
theorem SDIO_IRQHandler_completion_witness :
    (SDIO_IRQHandler { World.idle [0x100] [] false true with thread := some 7 }).rdymsg 7 = RDY_OK ∧
    (SDIO_IRQHandler { World.idle [0x100] [] false true with thread := some 7 }).rlist = [7] :=
  ⟨(SDIO_IRQHandler_completion { World.idle [0x100] [] false true with thread := some 7 } 7 rfl).2.1,
   (SDIO_IRQHandler_completion { World.idle [0x100] [] false true with thread := some 7 } 7 rfl).2.2.2.1⟩

/-! ## Command senders -/

/-- The poll mask of the command senders tests bits 6, 2 and 0. -/
theorem cmdmask_eq_zero_iff (x : Nat) :
    x &&& (SDIO_STA_CMDREND ||| SDIO_STA_CTIMEOUT ||| SDIO_STA_CCRCFAIL) = 0 ↔ cmdPending x := by
  have h6 := and_two_pow_ne_zero_iff x 6
  have h2 := and_two_pow_ne_zero_iff x 2
  have h0 := and_two_pow_ne_zero_iff x 0
  rw [and_lor_eq_zero_iff, and_lor_eq_zero_iff]
  unfold cmdPending SDIO_STA_CMDREND SDIO_STA_CTIMEOUT SDIO_STA_CCRCFAIL
  constructor
  · rintro ⟨⟨a, b⟩, c⟩
    refine ⟨?_, ?_, ?_⟩
    · cases hb : x.testBit 6
      · rfl
      · exact absurd a (h6.2 hb)
    · cases hb : x.testBit 2
      · rfl
      · exact absurd b (h2.2 hb)
    · cases hb : x.testBit 0
      · rfl
      · exact absurd c (h0.2 hb)
  · rintro ⟨a, b, c⟩
    refine ⟨⟨?_, ?_⟩, ?_⟩
    · by_contra hc
      rw [h6.1 hc] at a
      exact Bool.noConfusion a
    · by_contra hc
      rw [h2.1 hc] at b
      exact Bool.noConfusion b
    · by_contra hc
      rw [h0.1 hc] at c
      exact Bool.noConfusion c

/-- The failure test of the CRC-checking senders tests bits 2 and 0. -/
theorem failmask_eq_zero_iff (x : Nat) :
    x &&& (SDIO_STA_CTIMEOUT ||| SDIO_STA_CCRCFAIL) = 0 ↔
      x.testBit 2 = false ∧ x.testBit 0 = false := by
  have h2 := and_two_pow_ne_zero_iff x 2
  have h0 := and_two_pow_ne_zero_iff x 0
  rw [and_lor_eq_zero_iff]
  unfold SDIO_STA_CTIMEOUT SDIO_STA_CCRCFAIL
  constructor
  · rintro ⟨b, c⟩
    refine ⟨?_, ?_⟩
    · cases hb : x.testBit 2
      · rfl
      · exact absurd b (h2.2 hb)
    · cases hb : x.testBit 0
      · rfl
      · exact absurd c (h0.2 hb)
  · rintro ⟨b, c⟩
    refine ⟨?_, ?_⟩
    · by_contra hc
      rw [h2.1 hc] at b
      exact Bool.noConfusion b
    · by_contra hc
      rw [h0.1 hc] at c
      exact Bool.noConfusion c

/-- A poll loop whose stream has a first sample with a bit of the mask returns it. -/
theorem pollLoop_ends (mask : Nat) (pre : List Nat) (e : Nat) (rest : List Nat) (w : World)
    (hpre : ∀ x ∈ pre, x &&& mask = 0) (he : e &&& mask ≠ 0) :
    pollLoop mask w (pre ++ e :: rest) =
      .ret e { w with staIn := rest, trace := w.trace ++ (pre ++ [e]).map Event.staRead } := by
  induction pre generalizing w with
  | nil => simp [pollLoop, he, emit]
  | cons x pre ih =>
    have hx : x &&& mask = 0 := hpre x (List.mem_cons_self _ _)
    have hp : ∀ y ∈ pre, y &&& mask = 0 := fun y hy => hpre y (List.mem_cons_of_mem _ hy)
    have hstep : pollLoop mask w (x :: pre ++ e :: rest) =
        pollLoop mask (emit (.staRead x) { w with staIn := pre ++ e :: rest })
          (pre ++ e :: rest) := by
      show pollLoop mask w (x :: (pre ++ e :: rest)) = _
      rw [pollLoop, if_neg (not_not.2 hx)]
    rw [hstep, ih _ hp]
    simp [emit]

/-- A poll loop either ends at the first sample with a bit of the mask, or
reads the whole stream and never ends. -/
theorem pollLoop_cases (mask : Nat) (l : List Nat) (w : World) :
    (∃ pre e rest, l = pre ++ e :: rest ∧ (∀ x ∈ pre, x &&& mask = 0) ∧ e &&& mask ≠ 0) ∨
    ((∀ x ∈ l, x &&& mask = 0) ∧
      pollLoop mask w l = .hang { w with staIn := [], trace := w.trace ++ l.map Event.staRead }) := by
  induction l generalizing w with
  | nil => right; simp [pollLoop]
  | cons x l ih =>
    by_cases hx : x &&& mask = 0
    · rcases ih (emit (.staRead x) { w with staIn := l }) with ⟨pre, e, rest, h1, h2, h3⟩ | ⟨h1, h2⟩
      · left
        refine ⟨x :: pre, e, rest, by simp [h1], ?_, h3⟩
        intro y hy
        rcases List.mem_cons.1 hy with rfl | hy
        · exact hx
        · exact h2 y hy
      · right
        refine ⟨?_, ?_⟩
        · intro y hy
          rcases List.mem_cons.1 hy with rfl | hy
          · exact hx
          · exact h1 y hy
        · rw [pollLoop, if_neg (not_not.2 hx), h2]
          simp [emit]
    · left
      exact ⟨[], x, l, rfl, by simp, hx⟩

theorem cmdFailed_iff (e : Nat) :
    cmdFailed e ↔ e &&& (SDIO_STA_CTIMEOUT ||| SDIO_STA_CCRCFAIL) ≠ 0 := by
  unfold cmdFailed
  rw [ne_eq, failmask_eq_zero_iff]
  cases e.testBit 2 <;> cases e.testBit 0 <;> simp

/-- A command whose poll ends at `e`: failure leaves the buffer alone, success
stores the next response sample in its first word. -/
theorem send_cmd_of_pollEnds (cmd arg : Nat) (resp : List Nat) (w : World)
    (pre : List Nat) (e : Nat) (rest : List Nat)
    (hs : w.staIn = pre ++ e :: rest) (hpre : ∀ x ∈ pre, cmdPending x) (he : ¬ cmdPending e) :
    sdc_lld_send_cmd_short_crc cmd arg resp w =
      if cmdFailed e then .ret (true, resp) (cmdDone cmd arg pre e rest w)
      else .ret (false, resp.set 0 (w.respIn.headD 0))
        (readRESP1 (cmdDone cmd arg pre e rest w)).2 := by
  have hp : pollSTA (SDIO_STA_CMDREND ||| SDIO_STA_CTIMEOUT ||| SDIO_STA_CCRCFAIL)
      (writeReg .CMD (cmdWord cmd) (writeReg .ARG (arg % 2 ^ 32) w)) =
      .ret e { writeReg .CMD (cmdWord cmd) (writeReg .ARG (arg % 2 ^ 32) w) with
        staIn := rest
        trace := (writeReg .CMD (cmdWord cmd) (writeReg .ARG (arg % 2 ^ 32) w)).trace ++
          (pre ++ [e]).map Event.staRead } := by
    unfold pollSTA
    have : (writeReg .CMD (cmdWord cmd) (writeReg .ARG (arg % 2 ^ 32) w)).staIn =
        pre ++ e :: rest := hs
    rw [this]
    exact pollLoop_ends _ pre e rest _ (fun x hx => (cmdmask_eq_zero_iff x).2 (hpre x hx))
      (fun hc => he ((cmdmask_eq_zero_iff e).1 hc))
  unfold sdc_lld_send_cmd_short_crc
  simp only []
  have hw : (cmdWord cmd) = (cmd % 2 ^ 8) ||| SDIO_CMD_WAITRESP_0 ||| SDIO_CMD_CPSMEN := rfl
  rw [← hw, hp]
  by_cases hf : cmdFailed e
  · rw [if_pos hf]
    simp only [Result.bind]
    rw [if_pos ((cmdFailed_iff e).1 hf)]
    rfl
  · rw [if_neg hf]
    simp only [Result.bind]
    rw [if_neg (fun hc => hf ((cmdFailed_iff e).2 hc))]
    rfl

/-- A command that is never answered never returns. -/
theorem send_cmd_hang (cmd arg : Nat) (resp : List Nat) (w : World)
    (h : ∀ x ∈ w.staIn, cmdPending x) :
    sdc_lld_send_cmd_short_crc cmd arg resp w = .hang (cmdHung cmd arg w) := by
  unfold sdc_lld_send_cmd_short_crc
  simp only []
  have hw : (cmdWord cmd) = (cmd % 2 ^ 8) ||| SDIO_CMD_WAITRESP_0 ||| SDIO_CMD_CPSMEN := rfl
  rw [← hw]
  unfold pollSTA
  rcases pollLoop_cases (SDIO_STA_CMDREND ||| SDIO_STA_CTIMEOUT ||| SDIO_STA_CCRCFAIL)
    (writeReg .CMD (cmdWord cmd) (writeReg .ARG (arg % 2 ^ 32) w)).staIn
    (writeReg .CMD (cmdWord cmd) (writeReg .ARG (arg % 2 ^ 32) w)) with
    ⟨pre, e, rest, h1, _, h3⟩ | ⟨_, h2⟩
  · exfalso
    have hm : e ∈ w.staIn := by
      have : w.staIn = pre ++ e :: rest := h1
      rw [this]
      simp
    exact h3 ((cmdmask_eq_zero_iff e).2 (h e hm))
  · rw [h2]
    rfl

/-- Every status stream either answers a command poll or leaves it pending for ever. -/
theorem pollEnds_or_pending (l : List Nat) :
    (∃ pre e rest, l = pre ++ e :: rest ∧ (∀ x ∈ pre, cmdPending x) ∧ ¬ cmdPending e) ∨
    (∀ x ∈ l, cmdPending x) := by
  induction l with
  | nil => right; simp
  | cons x l ih =>
    by_cases hx : cmdPending x
    · rcases ih with ⟨pre, e, rest, h1, h2, h3⟩ | h
      · left
        refine ⟨x :: pre, e, rest, by simp [h1], ?_, h3⟩
        intro y hy
        rcases List.mem_cons.1 hy with rfl | hy
        · exact hx
        · exact h2 y hy
      · right
        intro y hy
        rcases List.mem_cons.1 hy with rfl | hy
        · exact hx
        · exact h y hy
    · left
      exact ⟨[], x, l, rfl, by simp, hx⟩

/-- C7 (CRC failure on a short-response command): when the status word `e`
that ends the poll loop of `sdc_lld_send_cmd_short_crc` has CCRCFAIL (bit 0) or
CTIMEOUT (bit 2) set, the function returns TRUE, hands the response buffer back
unchanged and does not read the response register; when neither is set it
returns FALSE with the next RESP1 sample stored in the first word; and no
return of TRUE comes with a changed buffer. -/
theorem sdc_lld_send_cmd_short_crc_result (cmd arg : Nat) (resp : List Nat) (w : World)
    (pre : List Nat) (e : Nat) (rest : List Nat)
    (hs : w.staIn = pre ++ e :: rest) (hpre : ∀ x ∈ pre, cmdPending x) (he : ¬ cmdPending e) :
    (cmdFailed e → ∃ w1, sdc_lld_send_cmd_short_crc cmd arg resp w = .ret (true, resp) w1 ∧
      w1.respIn = w.respIn ∧ ∀ v, Event.respRead v ∉ w1.trace.drop w.trace.length) ∧
    (¬ cmdFailed e → ∃ w1, sdc_lld_send_cmd_short_crc cmd arg resp w =
      .ret (false, resp.set 0 (w.respIn.headD 0)) w1) ∧
    (∀ buf w1, sdc_lld_send_cmd_short_crc cmd arg resp w = .ret (true, buf) w1 → buf = resp) := by
  have hr := send_cmd_of_pollEnds cmd arg resp w pre e rest hs hpre he
  refine ⟨?_, ?_, ?_⟩
  · intro hf
    rw [if_pos hf] at hr
    refine ⟨_, hr, rfl, ?_⟩
    intro v hv
    simp [cmdDone, writeReg, emit] at hv
  · intro hf
    rw [if_neg hf] at hr
    exact ⟨_, hr⟩
  · intro buf w1 h
    rw [hr] at h
    by_cases hf : cmdFailed e
    · rw [if_pos hf] at h
      injection h with h1 _
      exact (congrArg Prod.snd h1).symm
    · rw [if_neg hf] at h
      injection h with h1 _
      exact absurd (congrArg Prod.fst h1) (by simp)

/-- Witness for C7: the poll reads an idle sample, then one with
command-complete and CRC failure; the buffer `[5]` comes back untouched. -/
theorem sdc_lld_send_cmd_short_crc_result_witness :
    ∃ w1, sdc_lld_send_cmd_short_crc 18 100 [5] (World.idle [0, 0x41] [0x900] false true) =
      .ret (true, [5]) w1 ∧ w1.respIn = [0x900] :=
  let h := (sdc_lld_send_cmd_short_crc_result 18 100 [5] (World.idle [0, 0x41] [0x900] false true)
    [0] 0x41 [] rfl (by simp [cmdPending]) (by simp [cmdPending])).1
    (by unfold cmdFailed; decide)
  ⟨h.choose, h.choose_spec.1, h.choose_spec.2.1⟩

/-! ## Block read: the pieces -/

/-- The terminal test of the data phase tests bits 1, 3, 8 and 9. -/
theorem datamask_eq_zero_iff (s : Nat) : s &&& dataTerminalBits = 0 ↔ dataPending s := by
  have h1 := and_two_pow_ne_zero_iff s 1
  have h3 := and_two_pow_ne_zero_iff s 3
  have h8 := and_two_pow_ne_zero_iff s 8
  have h9 := and_two_pow_ne_zero_iff s 9
  unfold dataTerminalBits
  rw [and_lor_eq_zero_iff, and_lor_eq_zero_iff, and_lor_eq_zero_iff]
  unfold dataPending SDIO_STA_DCRCFAIL SDIO_STA_DTIMEOUT SDIO_STA_DATAEND SDIO_STA_STBITERR
  constructor
  · rintro ⟨⟨⟨a, b⟩, c⟩, d⟩
    refine ⟨?_, ?_, ?_, ?_⟩
    · cases hb : s.testBit 1
      · rfl
      · exact absurd a (h1.2 hb)
    · cases hb : s.testBit 3
      · rfl
      · exact absurd b (h3.2 hb)
    · cases hb : s.testBit 8
      · rfl
      · exact absurd c (h8.2 hb)
    · cases hb : s.testBit 9
      · rfl
      · exact absurd d (h9.2 hb)
  · rintro ⟨a, b, c, d⟩
    refine ⟨⟨⟨?_, ?_⟩, ?_⟩, ?_⟩
    · by_contra hc
      rw [h1.1 hc] at a
      exact Bool.noConfusion a
    · by_contra hc
      rw [h3.1 hc] at b
      exact Bool.noConfusion b
    · by_contra hc
      rw [h8.1 hc] at c
      exact Bool.noConfusion c
    · by_contra hc
      rw [h9.1 hc] at d
      exact Bool.noConfusion d

theorem sdc_lld_read_error_eq (w : World) : sdc_lld_read_error w = .ret true (tornDown w) :=
  rfl

/-- The stop command after the data phase, when its poll ends at `e`. -/
theorem stop_of_pollEnds (resp : List Nat) (w : World)
    (pre : List Nat) (e : Nat) (rest : List Nat)
    (hs : w.staIn = pre ++ e :: rest) (hpre : ∀ x ∈ pre, cmdPending x) (he : ¬ cmdPending e) :
    sdc_lld_read_stop resp w =
      if cmdFailed e then
        .ret true (tornDown (cmdDone SDC_CMD_STOP_TRANSMISSION 0 pre e rest (chSysUnlock w)))
      else
        .ret false (readRESP1 (cmdDone SDC_CMD_STOP_TRANSMISSION 0 pre e rest
          (chSysUnlock w))).2 := by
  unfold sdc_lld_read_stop
  simp only []
  rw [send_cmd_of_pollEnds SDC_CMD_STOP_TRANSMISSION 0 resp (chSysUnlock w) pre e rest hs hpre he]
  by_cases hf : cmdFailed e
  · rw [if_pos hf, if_pos hf]
    rfl
  · rw [if_neg hf, if_neg hf]
    rfl

/-- The stop command after the data phase, when it is never answered. -/
theorem stop_hang (resp : List Nat) (w : World) (h : ∀ x ∈ w.staIn, cmdPending x) :
    sdc_lld_read_stop resp w = .hang (cmdHung SDC_CMD_STOP_TRANSMISSION 0 (chSysUnlock w)) := by
  unfold sdc_lld_read_stop
  simp only []
  rw [send_cmd_hang SDC_CMD_STOP_TRANSMISSION 0 resp (chSysUnlock w) h]
  rfl

/-- The rendezvous when the sampled status shows a terminal condition other
than data end. -/
theorem wait_terminal_failure (self : Tid) (resp : List Nat) (w : World)
    (ht : ¬ dataPending (w.staIn.headD 0)) (hd : (w.staIn.headD 0).testBit 8 = false) :
    sdc_lld_read_wait self resp w =
      .ret true (tornDown (chSysUnlock (readSTA (chSysLock w)).2)) := by
  unfold sdc_lld_read_wait
  have hv : (readSTA (chSysLock w)).1 = w.staIn.headD 0 := rfl
  simp only []
  rw [hv, if_neg (fun hc => ht ((datamask_eq_zero_iff _).1 hc))]
  have h0 : (w.staIn.headD 0) &&& SDIO_STA_DATAEND = 0 := by
    by_contra hc
    rw [(dataend_test _).1 hc] at hd
    exact Bool.noConfusion hd
  rw [if_pos h0]
  rfl

/-- The rendezvous when the sampled status shows data end. -/
theorem wait_terminal_dataend (self : Tid) (resp : List Nat) (w : World)
    (hd : (w.staIn.headD 0).testBit 8 = true) :
    sdc_lld_read_wait self resp w = sdc_lld_read_stop resp (readSTA (chSysLock w)).2 := by
  unfold sdc_lld_read_wait
  have hv : (readSTA (chSysLock w)).1 = w.staIn.headD 0 := rfl
  have ht : ¬ dataPending (w.staIn.headD 0) := by
    intro hc
    rw [hc.2.2.1] at hd
    exact Bool.noConfusion hd
  simp only []
  rw [hv, if_neg (fun hc => ht ((datamask_eq_zero_iff _).1 hc)),
    if_neg ((dataend_test _).2 hd)]

/-- The rendezvous when the sampled status shows no terminal condition. -/
theorem wait_pending (self : Tid) (resp : List Nat) (w : World)
    (ht : dataPending (w.staIn.headD 0)) :
    sdc_lld_read_wait self resp w = sdc_lld_read_sleep self resp (readSTA (chSysLock w)).2 := by
  unfold sdc_lld_read_wait
  have hv : (readSTA (chSysLock w)).1 = w.staIn.headD 0 := rfl
  simp only []
  rw [hv, if_pos ((datamask_eq_zero_iff _).2 ht)]

theorem PORT_IRQ_EPILOGUE_eq (w : World) :
    PORT_IRQ_EPILOGUE w =
      { w with
        locked := false
        pendsv := (w.pendsv || w.rescRequired w.rlist)
        trace := w.trace ++ [Event.lockFromIsr] ++
          (if w.rescRequired w.rlist then [Event.pendSV] else []) ++ [Event.unlockFromIsr] } := by
  unfold PORT_IRQ_EPILOGUE chSysLockFromIsr chSysUnlockFromIsr emit
  by_cases h : w.rescRequired w.rlist <;> simp [h]

/-- The handler run that wakes the thread registered from `w`. -/
theorem handler_registered (self : Tid) (w : World) :
    SDIO_IRQHandler { registered self w with irq := false } =
      { w with
        thread := none
        rdymsg := fun u =>
          if u = self then (if (w.staIn.headD 0).testBit 8 then RDY_OK else RDY_RESET)
          else w.rdymsg u
        rlist := w.rlist ++ [self]
        staIn := w.staIn.tail
        irq := false
        locked := false
        pendsv := (w.pendsv || w.rescRequired (w.rlist ++ [self]))
        trace := (registered self w).trace ++
          [Event.lockFromIsr, Event.slotRead, Event.staRead (w.staIn.headD 0), Event.slotRead,
           Event.rdymsgWrite self (if (w.staIn.headD 0).testBit 8 then RDY_OK else RDY_RESET),
           Event.slotRead, Event.readyI self, Event.slotWrite none, Event.unlockFromIsr,
           Event.lockFromIsr] ++
          (if w.rescRequired (w.rlist ++ [self]) then [Event.pendSV] else []) ++
          [Event.unlockFromIsr] } := by
  have hthr : ({ registered self w with irq := false } : World).thread = some self := rfl
  rw [SDIO_IRQHandler_some _ self hthr, PORT_IRQ_EPILOGUE_eq]
  by_cases ha : w.dbgAsserts = true <;>
    simp [registered, assertPassed, chSchGoSleepS_suspend, readSlot, readSTA, writeRdymsg,
      chSchReadyI, writeSlot, chSysLockFromIsr, chSysUnlockFromIsr, emit, ha]

/-- The sleeping branch when assertion #1 finds the slot occupied. -/
theorem sleep_halt (self : Tid) (resp : List Nat) (w : World) (u : Tid)
    (ha : w.dbgAsserts = true) (hu : w.thread = some u) :
    sdc_lld_read_sleep self resp w = .halt (emit (.assertFail 1) (readSlot w).2) := by
  unfold sdc_lld_read_sleep chDbgAssert_slotNull
  have h1 : (readSlot w).1 = some u := hu
  simp only [ha, if_true, h1]
  rfl

theorem assert_passes (n : Nat) (w : World) (hp : w.dbgAsserts = true → w.thread = none) :
    chDbgAssert_slotNull n w = .ret () (assertPassed w) := by
  unfold chDbgAssert_slotNull assertPassed
  by_cases ha : w.dbgAsserts = true
  · have h1 : (readSlot w).1 = none := hp ha
    simp only [ha, if_true, h1]
  · simp only [ha]
    rfl

/-- The sleeping branch when the interrupt is never raised. -/
theorem sleep_never_woken (self : Tid) (resp : List Nat) (w : World)
    (hp : w.dbgAsserts = true → w.thread = none) (hi : w.irq = false)
    (hr : self ∉ w.rlist) :
    sdc_lld_read_sleep self resp w = .hang (registered self w) := by
  unfold sdc_lld_read_sleep
  rw [assert_passes 1 w hp]
  simp only [Result.bind, chSchGoSleepS, chSchGoSleepS_wake, deliverIrq]
  have h1 : (chSchGoSleepS_suspend self (writeSlot (some self) (assertPassed w))).irq = false := by
    unfold assertPassed
    by_cases ha : w.dbgAsserts = true <;> simpa [ha, chSchGoSleepS_suspend, writeSlot, emit, readSlot] using hi
  have h2 : (chSchGoSleepS_suspend self (writeSlot (some self) (assertPassed w))).rlist = w.rlist := by
    unfold assertPassed
    by_cases ha : w.dbgAsserts = true <;> simp [ha, chSchGoSleepS_suspend, writeSlot, emit, readSlot]
  simp only [h1, Bool.false_eq_true, if_false, h2, hr]
  rfl

/-- The sleeping branch when the interrupt is raised: the handler classifies
the status it reads, and the woken thread branches on that code. -/
theorem sleep_woken (self : Tid) (resp : List Nat) (w : World)
    (hp : w.dbgAsserts = true → w.thread = none) (hi : w.irq = true) :
    sdc_lld_read_sleep self resp w =
      if (w.staIn.headD 0).testBit 8 = true then sdc_lld_read_stop resp (woken self w)
      else .ret true (tornDown (chSysUnlock (woken self w))) := by
  unfold sdc_lld_read_sleep
  rw [assert_passes 1 w hp]
  have hreg : chSchGoSleepS_suspend self (writeSlot (some self) (assertPassed w)) =
      registered self w := rfl
  have h1 : (registered self w).irq = true := by
    unfold registered assertPassed
    by_cases ha : w.dbgAsserts = true <;>
      simpa [ha, chSchGoSleepS_suspend, writeSlot, emit, readSlot] using hi
  have hH := handler_registered self w
  have hmem : self ∈ (SDIO_IRQHandler { registered self w with irq := false }).rlist := by
    rw [hH]
    simp
  have hwake : chSchGoSleepS self (writeSlot (some self) (assertPassed w)) =
      .ret () (emit (.resume self) { SDIO_IRQHandler { registered self w with irq := false } with
        rlist := (SDIO_IRQHandler { registered self w with irq := false }).rlist.erase self
        locked := true }) := by
    unfold chSchGoSleepS chSchGoSleepS_wake deliverIrq
    rw [hreg]
    simp only [h1, if_true, hmem]
  simp only [Result.bind]
  rw [hwake]
  simp only []
  have hpass : ∀ n, chDbgAssert_slotNull n
      (emit (.resume self) { SDIO_IRQHandler { registered self w with irq := false } with
        rlist := (SDIO_IRQHandler { registered self w with irq := false }).rlist.erase self
        locked := true }) = .ret () (assertPassed
      (emit (.resume self) { SDIO_IRQHandler { registered self w with irq := false } with
        rlist := (SDIO_IRQHandler { registered self w with irq := false }).rlist.erase self
        locked := true })) := by
    intro n
    apply assert_passes
    intro _
    show (SDIO_IRQHandler { registered self w with irq := false }).thread = none
    rw [hH]
  rw [hpass 2]
  simp only []
  have hmsg : (readRdymsg self (assertPassed
      (emit (.resume self) { SDIO_IRQHandler { registered self w with irq := false } with
        rlist := (SDIO_IRQHandler { registered self w with irq := false }).rlist.erase self
        locked := true }))).1 =
      (if (w.staIn.headD 0).testBit 8 = true then RDY_OK else RDY_RESET) := by
    unfold assertPassed
    rw [hH]
    by_cases ha : w.dbgAsserts = true <;> simp [ha, readRdymsg, readSlot, emit]
  rw [hmsg]
  by_cases hb : (w.staIn.headD 0).testBit 8 = true
  · simp only [hb, if_true, ne_eq, not_true_eq_false, if_false]
    rfl
  · simp only [hb, if_false]
    have : RDY_RESET ≠ RDY_OK := by decide
    simp only [ne_eq, this, not_false_eq_true, if_true]
    rfl

/-! ## Block read: the whole function -/

theorem setup_staIn (buf n : Nat) (w : World) :
    (sdc_lld_read_setup buf n w).staIn = w.staIn := by
  simp only [sdc_lld_read_setup, dmaEnableChannel, writeReg, dmaChannelSetup, emit]

theorem setup_respIn (buf n : Nat) (w : World) :
    (sdc_lld_read_setup buf n w).respIn = w.respIn := by
  simp only [sdc_lld_read_setup, dmaEnableChannel, writeReg, dmaChannelSetup, emit]

theorem read_eq (self : Tid) (startblk buf n : Nat) (w : World) :
    sdc_lld_read self startblk buf n w =
      (sdc_lld_send_cmd_short_crc SDC_CMD_READ_MULTIPLE_BLOCK startblk [0]
        (sdc_lld_read_setup buf n w)).bind fun r w =>
        if r.1 ∨ r.2.headD 0 &&& SDC_R1_ERROR_MASK ≠ 0 then sdc_lld_read_error w
        else sdc_lld_read_wait self r.2 w := by
  unfold sdc_lld_read
  simp only []

theorem read_cmd_hang (self : Tid) (startblk buf n : Nat) (w : World)
    (h : ∀ x ∈ w.staIn, cmdPending x) :
    sdc_lld_read self startblk buf n w =
      .hang (cmdHung SDC_CMD_READ_MULTIPLE_BLOCK startblk (sdc_lld_read_setup buf n w)) := by
  have h1 : ∀ x ∈ (sdc_lld_read_setup buf n w).staIn, cmdPending x := by
    rw [setup_staIn]
    exact h
  rw [read_eq, send_cmd_hang SDC_CMD_READ_MULTIPLE_BLOCK startblk [0] _ h1]
  simp only [Result.bind]

theorem read_cmd_failed (self : Tid) (startblk buf n : Nat) (w : World)
    (pre : List Nat) (e : Nat) (rest : List Nat)
    (hs : w.staIn = pre ++ e :: rest) (hpre : ∀ x ∈ pre, cmdPending x) (he : ¬ cmdPending e)
    (hf : cmdFailed e) :
    sdc_lld_read self startblk buf n w =
      .ret true (tornDown (cmdDone SDC_CMD_READ_MULTIPLE_BLOCK startblk pre e rest
        (sdc_lld_read_setup buf n w))) := by
  rw [read_eq, send_cmd_of_pollEnds SDC_CMD_READ_MULTIPLE_BLOCK startblk [0] _
    pre e rest ((setup_staIn buf n w).trans hs) hpre he, if_pos hf]
  simp only [Result.bind, true_or, if_true, sdc_lld_read_error_eq]

theorem read_resp_error (self : Tid) (startblk buf n : Nat) (w : World)
    (pre : List Nat) (e : Nat) (rest : List Nat)
    (hs : w.staIn = pre ++ e :: rest) (hpre : ∀ x ∈ pre, cmdPending x) (he : ¬ cmdPending e)
    (hf : ¬ cmdFailed e) (hr : w.respIn.headD 0 &&& SDC_R1_ERROR_MASK ≠ 0) :
    sdc_lld_read self startblk buf n w =
      .ret true (tornDown (cmdAnswered SDC_CMD_READ_MULTIPLE_BLOCK startblk pre e rest
        (sdc_lld_read_setup buf n w))) := by
  rw [read_eq, send_cmd_of_pollEnds SDC_CMD_READ_MULTIPLE_BLOCK startblk [0] _
    pre e rest ((setup_staIn buf n w).trans hs) hpre he, if_neg hf]
  simp only [Result.bind, setup_respIn]
  have h2 : ([0].set 0 (w.respIn.headD 0)).headD 0 = w.respIn.headD 0 := rfl
  rw [h2, if_pos (Or.inr hr), sdc_lld_read_error_eq, cmdAnswered]

theorem read_cmd_ok (self : Tid) (startblk buf n : Nat) (w : World)
    (pre : List Nat) (e : Nat) (rest : List Nat)
    (hs : w.staIn = pre ++ e :: rest) (hpre : ∀ x ∈ pre, cmdPending x) (he : ¬ cmdPending e)
    (hf : ¬ cmdFailed e) (hr : w.respIn.headD 0 &&& SDC_R1_ERROR_MASK = 0) :
    sdc_lld_read self startblk buf n w =
      sdc_lld_read_wait self [w.respIn.headD 0]
        (cmdAnswered SDC_CMD_READ_MULTIPLE_BLOCK startblk pre e rest
          (sdc_lld_read_setup buf n w)) := by
  rw [read_eq, send_cmd_of_pollEnds SDC_CMD_READ_MULTIPLE_BLOCK startblk [0] _
    pre e rest ((setup_staIn buf n w).trans hs) hpre he, if_neg hf]
  simp only [Result.bind, setup_respIn]
  have h2 : ([0].set 0 (w.respIn.headD 0)).headD 0 = w.respIn.headD 0 := rfl
  have h3 : ¬ ((false = true) ∨ w.respIn.headD 0 &&& SDC_R1_ERROR_MASK ≠ 0) := by
    rintro (h | h)
    · exact Bool.noConfusion h
    · exact h hr
  have h4 : [0].set 0 (w.respIn.headD 0) = [w.respIn.headD 0] := rfl
  rw [h2, if_neg h3, h4, cmdAnswered]

/-! ## Failure teardown -/

theorem stop_returns_true (resp : List Nat) (w w1 : World)
    (h : sdc_lld_read_stop resp w = .ret true w1) :
    ∃ wx, w1 = tornDown wx ∧ wx.locked = false := by
  rcases pollEnds_or_pending w.staIn with ⟨pre, e, rest, hs, hpre, he⟩ | hp
  · rw [stop_of_pollEnds resp w pre e rest hs hpre he] at h
    by_cases hf : cmdFailed e
    · rw [if_pos hf] at h
      injection h with _ h2
      exact ⟨_, h2.symm, rfl⟩
    · rw [if_neg hf] at h
      injection h with h1 _
      exact Bool.noConfusion h1
  · rw [stop_hang resp w hp] at h
    exact Result.noConfusion h

theorem sleep_returns_true (self : Tid) (resp : List Nat) (w w1 : World)
    (h : sdc_lld_read_sleep self resp w = .ret true w1) :
    ∃ wx, w1 = tornDown wx ∧ wx.locked = false := by
  unfold sdc_lld_read_sleep at h
  cases h1 : chDbgAssert_slotNull 1 w with
  | halt wa => rw [h1] at h; exact Result.noConfusion h
  | hang wa => rw [h1] at h; exact Result.noConfusion h
  | ret v wa =>
    rw [h1] at h
    simp only [Result.bind] at h
    cases h2 : chSchGoSleepS self (writeSlot (some self) wa) with
    | halt wb => rw [h2] at h; exact Result.noConfusion h
    | hang wb => rw [h2] at h; exact Result.noConfusion h
    | ret v2 wb =>
      rw [h2] at h
      simp only [] at h
      cases h3 : chDbgAssert_slotNull 2 wb with
      | halt wc => rw [h3] at h; exact Result.noConfusion h
      | hang wc => rw [h3] at h; exact Result.noConfusion h
      | ret v3 wc =>
        rw [h3] at h
        simp only [] at h
        by_cases hm : (readRdymsg self wc).1 ≠ RDY_OK
        · rw [if_pos hm, sdc_lld_read_error_eq] at h
          injection h with _ h5
          exact ⟨_, h5.symm, rfl⟩
        · rw [if_neg hm] at h
          exact stop_returns_true _ _ _ h

theorem wait_returns_true (self : Tid) (resp : List Nat) (w w1 : World)
    (h : sdc_lld_read_wait self resp w = .ret true w1) :
    ∃ wx, w1 = tornDown wx ∧ wx.locked = false := by
  by_cases ht : dataPending (w.staIn.headD 0)
  · rw [wait_pending self resp w ht] at h
    exact sleep_returns_true _ _ _ _ h
  · cases hd : (w.staIn.headD 0).testBit 8
    · rw [wait_terminal_failure self resp w ht hd] at h
      injection h with _ h2
      exact ⟨_, h2.symm, rfl⟩
    · rw [wait_terminal_dataend self resp w hd] at h
      exact stop_returns_true _ _ _ h

theorem read_returns_true (self : Tid) (startblk buf n : Nat) (w w1 : World)
    (h : sdc_lld_read self startblk buf n w = .ret true w1) :
    ∃ wx, w1 = tornDown wx ∧ (w.locked = false → wx.locked = false) := by
  rcases pollEnds_or_pending w.staIn with ⟨pre, e, rest, hs, hpre, he⟩ | hp
  · by_cases hf : cmdFailed e
    · rw [read_cmd_failed self startblk buf n w pre e rest hs hpre he hf] at h
      injection h with _ h2
      refine ⟨_, h2.symm, ?_⟩
      intro hl
      simpa [cmdDone, writeReg, emit, sdc_lld_read_setup, dmaEnableChannel, dmaChannelSetup]
        using hl
    · by_cases hr : w.respIn.headD 0 &&& SDC_R1_ERROR_MASK = 0
      · rw [read_cmd_ok self startblk buf n w pre e rest hs hpre he hf hr] at h
        obtain ⟨wx, h1, h2⟩ := wait_returns_true _ _ _ _ h
        exact ⟨wx, h1, fun _ => h2⟩
      · rw [read_resp_error self startblk buf n w pre e rest hs hpre he hf hr] at h
        injection h with _ h2
        refine ⟨_, h2.symm, ?_⟩
        intro hl
        simpa [cmdAnswered, readRESP1, cmdDone, writeReg, emit, sdc_lld_read_setup,
          dmaEnableChannel, dmaChannelSetup] using hl
  · rw [read_cmd_hang self startblk buf n w hp] at h
    exact Result.noConfusion h

/-- C6 (failure teardown): every call of `sdc_lld_read` that returns TRUE,
whichever step failed, ends with the statements of label `error:` as its last
four actions: DMA channel disabled, 0xFFFFFFFF written to the interrupt-clear
register, MASK and DCTRL set to 0; and a call entered with the gate open
returns with the gate open. -/
theorem sdc_lld_read_failure_teardown (self : Tid) (startblk buf n : Nat) (w w1 : World)
    (h : sdc_lld_read self startblk buf n w = .ret true w1) :
    w1.dmaEnabled = false ∧ w1.regs Reg.ICR = 0xFFFFFFFF ∧ w1.regs Reg.MASK = 0 ∧
    w1.regs Reg.DCTRL = 0 ∧
    (∃ tr, w1.trace = tr ++ [Event.dmaDisable, Event.regWrite Reg.ICR 0xFFFFFFFF,
      Event.regWrite Reg.MASK 0, Event.regWrite Reg.DCTRL 0]) ∧
    (w.locked = false → w1.locked = false) := by
  obtain ⟨wx, h1, h2⟩ := read_returns_true self startblk buf n w w1 h
  subst h1
  refine ⟨rfl, rfl, rfl, rfl, ⟨wx.trace, ?_⟩, ?_⟩
  · simp [tornDown, writeReg, dmaDisableChannel, emit]
  · intro hl
    exact h2 hl

/-- Witness for C6: the stop command of a read whose data phase ended times out. -/
theorem sdc_lld_read_failure_teardown_witness :
    ∃ w1, sdc_lld_read 7 100 0x20000000 2
        (World.idle [0x40, 0x100, 0x4] [0x900] false true) = .ret true w1 ∧
      w1.dmaEnabled = false ∧ w1.regs Reg.MASK = 0 ∧ w1.regs Reg.DCTRL = 0 ∧ w1.locked = false :=
  ⟨_, rfl,
    (sdc_lld_read_failure_teardown 7 100 0x20000000 2
      (World.idle [0x40, 0x100, 0x4] [0x900] false true) _ rfl).1,
    (sdc_lld_read_failure_teardown 7 100 0x20000000 2
      (World.idle [0x40, 0x100, 0x4] [0x900] false true) _ rfl).2.2.1,
    (sdc_lld_read_failure_teardown 7 100 0x20000000 2
      (World.idle [0x40, 0x100, 0x4] [0x900] false true) _ rfl).2.2.2.1,
    (sdc_lld_read_failure_teardown 7 100 0x20000000 2
      (World.idle [0x40, 0x100, 0x4] [0x900] false true) _ rfl).2.2.2.2.2 rfl⟩

/-! ## Traces of the pieces -/

theorem filter_map_staRead (p : Event → Bool) (hp : ∀ v, p (Event.staRead v) = false)
    (l : List Nat) : (l.map Event.staRead).filter p = [] := by
  induction l with
  | nil => rfl
  | cons x l ih => simp [List.filter_cons, hp, ih]

theorem cmdWrites_map_staRead (l : List Nat) : cmdWrites (l.map Event.staRead) = [] := by
  unfold cmdWrites
  induction l with
  | nil => rfl
  | cons x l ih => simp [List.filterMap_cons]

theorem cmdWrites_append (a b : List Event) : cmdWrites (a ++ b) = cmdWrites a ++ cmdWrites b := by
  unfold cmdWrites
  exact List.filterMap_append _ _ _

theorem wakeReads_map_staRead (l : List Nat) : wakeReads (l.map Event.staRead) = [] := by
  unfold wakeReads
  induction l with
  | nil => rfl
  | cons x l ih => simp [List.filterMap_cons]

theorem wakeReads_append (a b : List Event) :
    wakeReads (a ++ b) = wakeReads a ++ wakeReads b := by
  unfold wakeReads
  exact List.filterMap_append _ _ _

theorem newEvents_of_trace (w w1 : World) (X : List Event) (h : w1.trace = w.trace ++ X) :
    newEvents w w1 = X := by
  unfold newEvents
  rw [h, List.drop_left]

/-- What the stop phase does, whatever its outcome. -/
theorem stop_summary (resp : List Nat) (w : World) :
    ∃ Y, (sdc_lld_read_stop resp w).world.trace = w.trace ++ Y ∧
      Y.filter isSlotWriteOrSleep = [] ∧ Y.filter isGateOp = [Event.unlock] ∧
      cmdWrites Y = [cmdWord SDC_CMD_STOP_TRANSMISSION] ∧
      (sdc_lld_read_stop resp w).world.thread = w.thread ∧
      (sdc_lld_read_stop resp w).world.locked = false ∧ wakeReads Y = [] := by
  rcases pollEnds_or_pending w.staIn with ⟨pre, e, rest, hs, hpre, he⟩ | hp
  · rw [stop_of_pollEnds resp w pre e rest hs hpre he]
    by_cases hf : cmdFailed e
    · rw [if_pos hf]
      refine ⟨[Event.unlock, Event.regWrite Reg.ARG 0,
        Event.regWrite Reg.CMD (cmdWord SDC_CMD_STOP_TRANSMISSION)] ++
        (pre ++ [e]).map Event.staRead ++
        [Event.regWrite Reg.ICR (SDIO_ICR_CMDRENDC ||| SDIO_ICR_CTIMEOUTC ||| SDIO_ICR_CCRCFAILC),
         Event.dmaDisable, Event.regWrite Reg.ICR 0xFFFFFFFF, Event.regWrite Reg.MASK 0,
         Event.regWrite Reg.DCTRL 0], ?_, ?_, ?_, ?_, ?_, ?_, ?_⟩
      · simp [Result.world, tornDown, cmdDone, writeReg, dmaDisableChannel, chSysUnlock, emit]
      · simp [List.filter_cons, isSlotWriteOrSleep,
          filter_map_staRead isSlotWriteOrSleep (fun _ => rfl)]
      · simp [List.filter_cons, isGateOp, filter_map_staRead isGateOp (fun _ => rfl)]
      · simp only [cmdWrites_append, cmdWrites_map_staRead]
        rfl
      · simp [Result.world, tornDown, cmdDone, writeReg, dmaDisableChannel, chSysUnlock, emit]
      · simp [Result.world, tornDown, cmdDone, writeReg, dmaDisableChannel, chSysUnlock, emit]
      · simp only [wakeReads_append, wakeReads_map_staRead]
        rfl
    · rw [if_neg hf]
      refine ⟨[Event.unlock, Event.regWrite Reg.ARG 0,
        Event.regWrite Reg.CMD (cmdWord SDC_CMD_STOP_TRANSMISSION)] ++
        (pre ++ [e]).map Event.staRead ++
        [Event.regWrite Reg.ICR (SDIO_ICR_CMDRENDC ||| SDIO_ICR_CTIMEOUTC ||| SDIO_ICR_CCRCFAILC),
         Event.respRead (w.respIn.headD 0)], ?_, ?_, ?_, ?_, ?_, ?_, ?_⟩
      · simp [Result.world, readRESP1, cmdDone, writeReg, chSysUnlock, emit]
      · simp [List.filter_cons, isSlotWriteOrSleep,
          filter_map_staRead isSlotWriteOrSleep (fun _ => rfl)]
      · simp [List.filter_cons, isGateOp, filter_map_staRead isGateOp (fun _ => rfl)]
      · simp only [cmdWrites_append, cmdWrites_map_staRead]
        rfl
      · simp [Result.world, readRESP1, cmdDone, writeReg, chSysUnlock, emit]
      · simp [Result.world, readRESP1, cmdDone, writeReg, chSysUnlock, emit]
      · simp only [wakeReads_append, wakeReads_map_staRead]
        rfl
  · rw [stop_hang resp w hp]
    refine ⟨[Event.unlock, Event.regWrite Reg.ARG 0,
      Event.regWrite Reg.CMD (cmdWord SDC_CMD_STOP_TRANSMISSION)] ++
      w.staIn.map Event.staRead, ?_, ?_, ?_, ?_, ?_, ?_, ?_⟩
    · simp [Result.world, cmdHung, writeReg, chSysUnlock, emit]
    · simp [List.filter_cons, isSlotWriteOrSleep,
        filter_map_staRead isSlotWriteOrSleep (fun _ => rfl)]
    · simp [List.filter_cons, isGateOp, filter_map_staRead isGateOp (fun _ => rfl)]
    · simp only [cmdWrites_append, cmdWrites_map_staRead]
      rfl
    · simp [Result.world, cmdHung, writeReg, chSysUnlock, emit]
    · simp [Result.world, cmdHung, writeReg, chSysUnlock, emit]
    · simp only [wakeReads_append, wakeReads_map_staRead]
      rfl

theorem stop_val_iff (resp : List Nat) (w : World) :
    (sdc_lld_read_stop resp w).val? = some false ↔ ∃ rest, CmdSucceeds w.staIn rest := by
  constructor
  · intro h
    rcases pollEnds_or_pending w.staIn with ⟨pre, e, rest, hs, hpre, he⟩ | hp
    · rw [stop_of_pollEnds resp w pre e rest hs hpre he] at h
      by_cases hf : cmdFailed e
      · rw [if_pos hf] at h
        simp [Result.val?] at h
      · exact ⟨rest, e, ⟨pre, hs, hpre, he⟩, hf⟩
    · rw [stop_hang resp w hp] at h
      simp [Result.val?] at h
  · rintro ⟨rest, e, ⟨pre, hs, hpre, he⟩, hf⟩
    rw [stop_of_pollEnds resp w pre e rest hs hpre he, if_neg hf]
    rfl

theorem sampled_facts (startblk buf n : Nat) (pre : List Nat) (e : Nat) (rest : List Nat)
    (w : World) :
    (sampled startblk buf n pre e rest w).trace =
      w.trace ++ sampledEvents startblk buf n pre e rest w ∧
    (sampled startblk buf n pre e rest w).staIn = rest.tail ∧
    (sampled startblk buf n pre e rest w).respIn = w.respIn.tail ∧
    (sampled startblk buf n pre e rest w).thread = w.thread ∧
    (sampled startblk buf n pre e rest w).locked = true ∧
    (sampled startblk buf n pre e rest w).dmaEnabled = true ∧
    (sampled startblk buf n pre e rest w).rdymsg = w.rdymsg ∧
    (sampled startblk buf n pre e rest w).rlist = w.rlist ∧
    (sampled startblk buf n pre e rest w).irq = w.irq ∧
    (sampled startblk buf n pre e rest w).dbgAsserts = w.dbgAsserts ∧
    (sampled startblk buf n pre e rest w).state = w.state := by
  refine ⟨?_, ?_, ?_, ?_, ?_, ?_, ?_, ?_, ?_, ?_, ?_⟩ <;>
    simp [sampled, sampledEvents, readSTA, chSysLock, cmdAnswered, readRESP1, cmdDone, writeReg,
      emit, sdc_lld_read_setup, dmaEnableChannel, dmaChannelSetup]

theorem sampledEvents_filters (startblk buf n : Nat) (pre : List Nat) (e : Nat)
    (rest : List Nat) (w : World) :
    (sampledEvents startblk buf n pre e rest w).filter isSlotWriteOrSleep = [] ∧
    (sampledEvents startblk buf n pre e rest w).filter isGateOp = [Event.lock] ∧
    cmdWrites (sampledEvents startblk buf n pre e rest w) =
      [cmdWord SDC_CMD_READ_MULTIPLE_BLOCK] ∧
    wakeReads (sampledEvents startblk buf n pre e rest w) = [] := by
  refine ⟨?_, ?_, ?_, ?_⟩
  · simp [sampledEvents, List.filter_cons, isSlotWriteOrSleep,
      filter_map_staRead isSlotWriteOrSleep (fun _ => rfl)]
  · simp [sampledEvents, List.filter_cons, isGateOp, filter_map_staRead isGateOp (fun _ => rfl)]
  · unfold sampledEvents
    simp only [cmdWrites_append, cmdWrites_map_staRead]
    rfl
  · unfold sampledEvents
    simp only [wakeReads_append, wakeReads_map_staRead]
    rfl

/-! ## Race closure -/

theorem cmdAnswered_staIn (cmd arg : Nat) (pre : List Nat) (e : Nat) (rest : List Nat)
    (w : World) : (cmdAnswered cmd arg pre e rest w).staIn = rest := by
  simp [cmdAnswered, readRESP1, cmdDone, writeReg, emit]

theorem tornDown_unlock_facts (w : World) :
    (tornDown (chSysUnlock w)).trace = w.trace ++ [Event.unlock, Event.dmaDisable,
      Event.regWrite Reg.ICR 0xFFFFFFFF, Event.regWrite Reg.MASK 0,
      Event.regWrite Reg.DCTRL 0] ∧
    (tornDown (chSysUnlock w)).thread = w.thread ∧
    (tornDown (chSysUnlock w)).locked = false := by
  refine ⟨?_, ?_, ?_⟩ <;> simp [tornDown, chSysUnlock, writeReg, dmaDisableChannel, emit]

/-- C3 (race closure in `sdc_lld_read`): when the READ_MULTIPLE_BLOCK command
is answered without failure (poll `pre ++ [e]`, response without error bits)
and the status sampled right after `chSysLock` (the next sample,
`rest.headD 0`) shows a terminal condition, the call, whatever its outcome,
leaves the waiting-thread slot as it was, records no slot write and no sleep,
takes the gate once and releases it once, and ends with the gate open; without
DATAEND in the sample it returns TRUE and sends no further command; with
DATAEND it goes on to send STOP_TRANSMISSION and returns FALSE exactly when
that command is answered without failure. -/
theorem sdc_lld_read_race_closure (self : Tid) (startblk buf n : Nat) (w : World)
    (pre : List Nat) (e : Nat) (rest : List Nat)
    (hs : w.staIn = pre ++ e :: rest) (hpre : ∀ x ∈ pre, cmdPending x) (he : ¬ cmdPending e)
    (hf : ¬ cmdFailed e) (hr : w.respIn.headD 0 &&& SDC_R1_ERROR_MASK = 0)
    (ht : ¬ dataPending (rest.headD 0)) :
    (sdc_lld_read self startblk buf n w).world.thread = w.thread ∧
    (newEvents w (sdc_lld_read self startblk buf n w).world).filter isSlotWriteOrSleep = [] ∧
    (newEvents w (sdc_lld_read self startblk buf n w).world).filter isGateOp =
      [Event.lock, Event.unlock] ∧
    (sdc_lld_read self startblk buf n w).world.locked = false ∧
    ((rest.headD 0).testBit 8 = false →
      (sdc_lld_read self startblk buf n w).val? = some true ∧
      cmdWrites (newEvents w (sdc_lld_read self startblk buf n w).world) =
        [cmdWord SDC_CMD_READ_MULTIPLE_BLOCK]) ∧
    ((rest.headD 0).testBit 8 = true →
      cmdWrites (newEvents w (sdc_lld_read self startblk buf n w).world) =
        [cmdWord SDC_CMD_READ_MULTIPLE_BLOCK, cmdWord SDC_CMD_STOP_TRANSMISSION] ∧
      ((sdc_lld_read self startblk buf n w).val? = some false ↔
        ∃ rest2, CmdSucceeds rest.tail rest2)) := by
  have hW1 := cmdAnswered_staIn SDC_CMD_READ_MULTIPLE_BLOCK startblk pre e rest
    (sdc_lld_read_setup buf n w)
  have hS : (readSTA (chSysLock (cmdAnswered SDC_CMD_READ_MULTIPLE_BLOCK startblk pre e rest
      (sdc_lld_read_setup buf n w)))).2 = sampled startblk buf n pre e rest w := rfl
  obtain ⟨hT, hSta, -, hThr, -, -, -, -, -, -, -⟩ := sampled_facts startblk buf n pre e rest w
  obtain ⟨hF1, hF2, hF3, -⟩ := sampledEvents_filters startblk buf n pre e rest w
  rw [read_cmd_ok self startblk buf n w pre e rest hs hpre he hf hr]
  cases hd : (rest.headD 0).testBit 8
  · rw [wait_terminal_failure self _ _ (by rw [hW1]; exact ht) (by rw [hW1]; exact hd), hS]
    obtain ⟨hE1, hE2, hE3⟩ := tornDown_unlock_facts (sampled startblk buf n pre e rest w)
    have hN : newEvents w (tornDown (chSysUnlock (sampled startblk buf n pre e rest w))) =
        sampledEvents startblk buf n pre e rest w ++ [Event.unlock, Event.dmaDisable,
          Event.regWrite Reg.ICR 0xFFFFFFFF, Event.regWrite Reg.MASK 0,
          Event.regWrite Reg.DCTRL 0] := by
      apply newEvents_of_trace
      rw [hE1, hT, List.append_assoc]
    simp only [Result.world, hN, List.filter_append, hF1, hF2, cmdWrites_append, hF3]
    refine ⟨hE2.trans hThr, rfl, rfl, hE3, fun _ => ⟨rfl, rfl⟩, fun h => Bool.noConfusion h⟩
  · rw [wait_terminal_dataend self _ _ (by rw [hW1]; exact hd), hS]
    obtain ⟨Y, hY, hY1, hY2, hY3, hY4, hY5, -⟩ :=
      stop_summary [w.respIn.headD 0] (sampled startblk buf n pre e rest w)
    have hN : newEvents w (sdc_lld_read_stop [w.respIn.headD 0]
        (sampled startblk buf n pre e rest w)).world =
        sampledEvents startblk buf n pre e rest w ++ Y := by
      apply newEvents_of_trace
      rw [hY, hT, List.append_assoc]
    simp only [hN, List.filter_append, hF1, hF2, cmdWrites_append, hF3, hY1, hY2, hY3]
    refine ⟨hY4.trans hThr, rfl, rfl, hY5, fun h => Bool.noConfusion h, fun _ => ⟨rfl, ?_⟩⟩
    rw [stop_val_iff, hSta]

/-- Witness for C3: the read command is answered, and data end is already
shown when the thread samples the status under the gate. -/
theorem sdc_lld_read_race_closure_witness :
    (sdc_lld_read 7 100 0x20000000 2
      (World.idle [0, 0x40, 0x100, 0x40] [0x900] false true)).world.thread = none ∧
    (newEvents (World.idle [0, 0x40, 0x100, 0x40] [0x900] false true)
      (sdc_lld_read 7 100 0x20000000 2
        (World.idle [0, 0x40, 0x100, 0x40] [0x900] false true)).world).filter
      isSlotWriteOrSleep = [] :=
  ⟨(sdc_lld_read_race_closure 7 100 0x20000000 2
      (World.idle [0, 0x40, 0x100, 0x40] [0x900] false true) [0] 0x40 [0x100, 0x40] rfl
      (by unfold cmdPending; decide) (by unfold cmdPending; decide)
      (by unfold cmdFailed; decide) (by decide) (by unfold dataPending; decide)).1,
   (sdc_lld_read_race_closure 7 100 0x20000000 2
      (World.idle [0, 0x40, 0x100, 0x40] [0x900] false true) [0] 0x40 [0x100, 0x40] rfl
      (by unfold cmdPending; decide) (by unfold cmdPending; decide)
      (by unfold cmdFailed; decide) (by decide) (by unfold dataPending; decide)).2.1⟩

/-! ## Result of a block read -/

theorem registered_facts (self : Tid) (w : World) :
    ∃ Z, (registered self w).trace = w.trace ++ Z ∧ wakeReads Z = [] ∧
      Z.filter isRendezvous = [Event.goSleep self] := by
  refine ⟨(registered self w).trace.drop w.trace.length, ?_, ?_, ?_⟩ <;>
    by_cases ha : w.dbgAsserts = true <;>
    simp [registered, assertPassed, chSchGoSleepS_suspend, writeSlot, readSlot, emit, ha,
      wakeReads, List.filter_cons, isRendezvous]

theorem woken_facts (self : Tid) (w : World) :
    ∃ Z, (woken self w).trace = w.trace ++ Z ∧
      wakeReads Z =
        [(self, if (w.staIn.headD 0).testBit 8 = true then RDY_OK else RDY_RESET)] ∧
      cmdWrites Z = [] ∧
      (woken self w).staIn = w.staIn.tail ∧
      Z.filter isRendezvous =
        rendezvous self (if (w.staIn.headD 0).testBit 8 = true then RDY_OK else RDY_RESET) := by
  refine ⟨(woken self w).trace.drop w.trace.length, ?_, ?_, ?_, ?_, ?_⟩ <;>
    unfold woken <;> rw [handler_registered] <;>
    by_cases ha : w.dbgAsserts = true <;>
    by_cases hr : w.rescRequired (w.rlist ++ [self]) = true <;>
    simp [registered, assertPassed, chSchGoSleepS_suspend, writeSlot, readSlot, readRdymsg,
      emit, ha, hr, wakeReads, cmdWrites, List.filter_cons, isRendezvous, rendezvous]

/-- The stop phase takes no part in the rendezvous, whatever its outcome. -/
theorem stop_rendezvous (resp : List Nat) (w : World) :
    (newEvents w (sdc_lld_read_stop resp w).world).filter isRendezvous = [] := by
  rcases pollEnds_or_pending w.staIn with ⟨pre, e, rest, hs, hpre, he⟩ | hp
  · rw [stop_of_pollEnds resp w pre e rest hs hpre he]
    by_cases hf : cmdFailed e
    · rw [if_pos hf]
      simp [newEvents, Result.world, tornDown, cmdDone, writeReg, dmaDisableChannel, chSysUnlock,
        emit, List.filter_cons, isRendezvous, filter_map_staRead isRendezvous (fun _ => rfl)]
    · rw [if_neg hf]
      simp [newEvents, Result.world, readRESP1, cmdDone, writeReg, chSysUnlock,
        emit, List.filter_cons, isRendezvous, filter_map_staRead isRendezvous (fun _ => rfl)]
  · rw [stop_hang resp w hp]
    simp [newEvents, Result.world, cmdHung, writeReg, chSysUnlock,
      emit, List.filter_cons, isRendezvous, filter_map_staRead isRendezvous (fun _ => rfl)]

/-- The block read takes no part in the rendezvous when its read command is
never answered, fails, or is answered with an error response. -/
theorem early_rendezvous (startblk buf n : Nat) (pre : List Nat) (e : Nat) (rest : List Nat)
    (w : World) :
    (newEvents w (cmdHung SDC_CMD_READ_MULTIPLE_BLOCK startblk
      (sdc_lld_read_setup buf n w))).filter isRendezvous = [] ∧
    (newEvents w (tornDown (cmdDone SDC_CMD_READ_MULTIPLE_BLOCK startblk pre e rest
      (sdc_lld_read_setup buf n w)))).filter isRendezvous = [] ∧
    (newEvents w (tornDown (cmdAnswered SDC_CMD_READ_MULTIPLE_BLOCK startblk pre e rest
      (sdc_lld_read_setup buf n w)))).filter isRendezvous = [] := by
  refine ⟨?_, ?_, ?_⟩ <;>
    simp [newEvents, cmdHung, tornDown, cmdDone, cmdAnswered, readRESP1, writeReg,
      dmaDisableChannel, emit, sdc_lld_read_setup, dmaEnableChannel, dmaChannelSetup,
      List.filter_cons, isRendezvous, filter_map_staRead isRendezvous (fun _ => rfl)]

theorem sampledEvents_rendezvous (startblk buf n : Nat) (pre : List Nat) (e : Nat)
    (rest : List Nat) (w : World) :
    (sampledEvents startblk buf n pre e rest w).filter isRendezvous = [] := by
  simp [sampledEvents, List.filter_cons, isRendezvous,
    filter_map_staRead isRendezvous (fun _ => rfl)]

theorem rendezvous_inj (self : Tid) (c d : Int) (h : rendezvous self c = rendezvous self d) :
    c = d := by
  simp [rendezvous] at h
  exact h

/-- The sleeping branch classified: it returns FALSE exactly when the thread
has slept, has been given the wake code `RDY_OK` and made ready, has resumed
and has read that code, and the stop command is answered without failure. -/
theorem sleep_classification (self : Tid) (resp : List Nat) (w : World)
    (hself : self ∉ w.rlist) :
    ∃ Z, (sdc_lld_read_sleep self resp w).world.trace = w.trace ++ Z ∧
      ((sdc_lld_read_sleep self resp w).val? = some false →
        Z.filter isRendezvous = rendezvous self RDY_OK ∧
        cmdWrites Z = [cmdWord SDC_CMD_STOP_TRANSMISSION] ∧
        ∃ rest2, CmdSucceeds w.staIn.tail rest2) ∧
      (Z.filter isRendezvous = rendezvous self RDY_OK →
        (∃ rest2, CmdSucceeds w.staIn.tail rest2) →
        (sdc_lld_read_sleep self resp w).val? = some false) ∧
      (Z.filter isRendezvous = [] ∨ Z.filter isRendezvous = [Event.goSleep self] ∨
        ∃ c, (c = RDY_OK ∨ c = RDY_RESET) ∧ Z.filter isRendezvous = rendezvous self c) := by
  by_cases hp : w.dbgAsserts = true → w.thread = none
  · cases hi : w.irq
    · rw [sleep_never_woken self resp w hp hi hself]
      obtain ⟨Z, hZ, -, hZ2⟩ := registered_facts self w
      refine ⟨Z, hZ, ?_, ?_, Or.inr (Or.inl hZ2)⟩
      · intro h
        simp [Result.val?] at h
      · intro h
        rw [hZ2] at h
        simp [rendezvous] at h
    · rw [sleep_woken self resp w hp hi]
      obtain ⟨Z, hZ, -, hZ2, hZ3, hZ4⟩ := woken_facts self w
      by_cases hb : (w.staIn.headD 0).testBit 8 = true
      · rw [if_pos hb]
        rw [if_pos hb] at hZ4
        obtain ⟨Y, hY, -, -, hY3, -, -, -⟩ := stop_summary resp (woken self w)
        have hYr : Y.filter isRendezvous = [] := by
          have h := stop_rendezvous resp (woken self w)
          rw [newEvents_of_trace _ _ Y hY] at h
          exact h
        have hR : (Z ++ Y).filter isRendezvous = rendezvous self RDY_OK := by
          rw [List.filter_append, hZ4, hYr, List.append_nil]
        refine ⟨Z ++ Y, ?_, ?_, ?_, Or.inr (Or.inr ⟨RDY_OK, Or.inl rfl, hR⟩)⟩
        · rw [hY, hZ, List.append_assoc]
        · intro h
          refine ⟨hR, ?_, ?_⟩
          · rw [cmdWrites_append, hZ2, hY3]
            rfl
          · rw [stop_val_iff, hZ3] at h
            exact h
        · intro _ h
          rw [stop_val_iff, hZ3]
          exact h
      · rw [if_neg hb]
        rw [if_neg hb] at hZ4
        obtain ⟨hE1, -, -⟩ := tornDown_unlock_facts (woken self w)
        have hR : (Z ++ [Event.unlock, Event.dmaDisable, Event.regWrite Reg.ICR 0xFFFFFFFF,
            Event.regWrite Reg.MASK 0, Event.regWrite Reg.DCTRL 0]).filter isRendezvous =
            rendezvous self RDY_RESET := by
          rw [List.filter_append, hZ4]
          rfl
        refine ⟨Z ++ [Event.unlock, Event.dmaDisable, Event.regWrite Reg.ICR 0xFFFFFFFF,
          Event.regWrite Reg.MASK 0, Event.regWrite Reg.DCTRL 0], ?_, ?_, ?_,
          Or.inr (Or.inr ⟨RDY_RESET, Or.inr rfl, hR⟩)⟩
        · simp only [Result.world]
          rw [hE1, hZ, List.append_assoc]
        · intro h
          simp [Result.val?] at h
        · intro h
          rw [hR] at h
          have hne : RDY_RESET ≠ RDY_OK := by decide
          exact absurd (rendezvous_inj self _ _ h) hne
  · have ha : w.dbgAsserts = true := by
      by_contra hc
      exact hp (fun h => absurd h hc)
    have hu : ∃ u, w.thread = some u := by
      cases ht : w.thread with
      | none => exact absurd (fun _ => ht) hp
      | some u => exact ⟨u, rfl⟩
    obtain ⟨u, hu⟩ := hu
    rw [sleep_halt self resp w u ha hu]
    refine ⟨[Event.slotRead, Event.assertFail 1], ?_, ?_, ?_, Or.inl rfl⟩
    · simp [Result.world, readSlot, emit]
    · intro h
      simp [Result.val?] at h
    · intro h
      simp [rendezvous, isRendezvous] at h

/-- The block read after its read command has been answered without failure. -/
theorem read_after_cmd (self : Tid) (startblk buf n : Nat) (w : World)
    (hself : self ∉ w.rlist) (pre : List Nat) (e : Nat) (rest : List Nat)
    (hs : w.staIn = pre ++ e :: rest) (hpre : ∀ x ∈ pre, cmdPending x) (he : ¬ cmdPending e)
    (hf : ¬ cmdFailed e) (hr : w.respIn.headD 0 &&& SDC_R1_ERROR_MASK = 0) :
    ((sdc_lld_read self startblk buf n w).val? = some false ↔
      (((rest.headD 0).testBit 8 = true ∧ ∃ rest2, CmdSucceeds rest.tail rest2) ∨
       (dataPending (rest.headD 0) ∧
        (newEvents w (sdc_lld_read self startblk buf n w).world).filter isRendezvous =
          rendezvous self RDY_OK ∧
        ∃ rest2, CmdSucceeds rest.tail.tail rest2))) ∧
    ((sdc_lld_read self startblk buf n w).val? = some false →
      cmdWrites (newEvents w (sdc_lld_read self startblk buf n w).world) =
        [cmdWord SDC_CMD_READ_MULTIPLE_BLOCK, cmdWord SDC_CMD_STOP_TRANSMISSION]) ∧
    ((newEvents w (sdc_lld_read self startblk buf n w).world).filter isRendezvous = [] ∨
      (newEvents w (sdc_lld_read self startblk buf n w).world).filter isRendezvous =
        [Event.goSleep self] ∨
      ∃ c, (c = RDY_OK ∨ c = RDY_RESET) ∧
        (newEvents w (sdc_lld_read self startblk buf n w).world).filter isRendezvous =
          rendezvous self c) := by
  have hW1 := cmdAnswered_staIn SDC_CMD_READ_MULTIPLE_BLOCK startblk pre e rest
    (sdc_lld_read_setup buf n w)
  have hS : (readSTA (chSysLock (cmdAnswered SDC_CMD_READ_MULTIPLE_BLOCK startblk pre e rest
      (sdc_lld_read_setup buf n w)))).2 = sampled startblk buf n pre e rest w := rfl
  obtain ⟨hT, hSta, -, -, -, -, -, hRl, -, -, -⟩ := sampled_facts startblk buf n pre e rest w
  obtain ⟨-, -, hF3, -⟩ := sampledEvents_filters startblk buf n pre e rest w
  have hF5 := sampledEvents_rendezvous startblk buf n pre e rest w
  rw [read_cmd_ok self startblk buf n w pre e rest hs hpre he hf hr]
  by_cases ht : dataPending (rest.headD 0)
  · have hd : (rest.headD 0).testBit 8 = false := ht.2.2.1
    rw [wait_pending self _ _ (by rw [hW1]; exact ht), hS]
    obtain ⟨Z, hZ, hZ1, hZ2, hZ3⟩ := sleep_classification self [w.respIn.headD 0]
      (sampled startblk buf n pre e rest w) (by rw [hRl]; exact hself)
    have hN : newEvents w (sdc_lld_read_sleep self [w.respIn.headD 0]
        (sampled startblk buf n pre e rest w)).world =
        sampledEvents startblk buf n pre e rest w ++ Z := by
      apply newEvents_of_trace
      rw [hZ, hT, List.append_assoc]
    rw [hSta] at hZ1 hZ2
    simp only [hN, List.filter_append, hF5, cmdWrites_append, hF3, List.nil_append]
    refine ⟨⟨?_, ?_⟩, ?_, hZ3⟩
    · intro h
      exact Or.inr ⟨ht, (hZ1 h).1, (hZ1 h).2.2⟩
    · rintro (⟨h1, -⟩ | ⟨-, h2, h3⟩)
      · rw [hd] at h1
        exact Bool.noConfusion h1
      · exact hZ2 h2 h3
    · intro h
      rw [(hZ1 h).2.1]
      rfl
  · cases hd : (rest.headD 0).testBit 8
    · rw [wait_terminal_failure self _ _ (by rw [hW1]; exact ht) (by rw [hW1]; exact hd), hS]
      obtain ⟨hE1, -, -⟩ := tornDown_unlock_facts (sampled startblk buf n pre e rest w)
      have hN : newEvents w (tornDown (chSysUnlock (sampled startblk buf n pre e rest w))) =
          sampledEvents startblk buf n pre e rest w ++ [Event.unlock, Event.dmaDisable,
            Event.regWrite Reg.ICR 0xFFFFFFFF, Event.regWrite Reg.MASK 0,
            Event.regWrite Reg.DCTRL 0] := by
        apply newEvents_of_trace
        rw [hE1, hT, List.append_assoc]
      simp only [Result.world, hN, List.filter_append, hF5]
      refine ⟨⟨?_, ?_⟩, ?_, Or.inl rfl⟩
      · intro h
        simp [Result.val?] at h
      · rintro (⟨h1, -⟩ | ⟨h1, -⟩)
        · exact Bool.noConfusion h1
        · exact absurd h1 ht
      · intro h
        simp [Result.val?] at h
    · rw [wait_terminal_dataend self _ _ (by rw [hW1]; exact hd), hS]
      obtain ⟨Y, hY, -, -, hY3, -, -, -⟩ :=
        stop_summary [w.respIn.headD 0] (sampled startblk buf n pre e rest w)
      have hYr : Y.filter isRendezvous = [] := by
        have h := stop_rendezvous [w.respIn.headD 0] (sampled startblk buf n pre e rest w)
        rw [newEvents_of_trace _ _ Y hY] at h
        exact h
      have hN : newEvents w (sdc_lld_read_stop [w.respIn.headD 0]
          (sampled startblk buf n pre e rest w)).world =
          sampledEvents startblk buf n pre e rest w ++ Y := by
        apply newEvents_of_trace
        rw [hY, hT, List.append_assoc]
      simp only [hN, List.filter_append, hF5, hYr, cmdWrites_append, hF3, hY3, stop_val_iff,
        hSta]
      refine ⟨⟨?_, ?_⟩, ?_, Or.inl rfl⟩
      · intro h
        exact Or.inl ⟨trivial, h⟩
      · rintro (⟨-, h⟩ | ⟨h1, -⟩)
        · exact h
        · exact absurd h1 ht
      · intro _
        rfl

/-- C4 (result of a block read): for a caller that is not in the ready list,
`sdc_lld_read` returns FALSE exactly when (1) the READ_MULTIPLE_BLOCK command
is answered without timeout or CRC failure and its response has no bit of
`SDC_R1_ERROR_MASK`, (2) the status sampled under the gate shows DATAEND, or
it shows no terminal condition and the call has gone through the complete
rendezvous with wake code `RDY_OK`: the thread went to sleep, `RDY_OK` was
deposited in its `rdymsg` and it was made ready while it slept, it resumed,
and it then read `RDY_OK` from its `rdymsg`, and (3) the STOP_TRANSMISSION
command is answered without timeout or CRC failure on the status samples left
at that point.  In every such call the commands written are
READ_MULTIPLE_BLOCK once, then STOP_TRANSMISSION once.  Whatever the outcome,
the call reads a wake code only at the end of a complete rendezvous, and the
code it reads is the one deposited during its sleep, `RDY_OK` or `RDY_RESET`:
the rendezvous events of the call are none, the sleep alone (never woken), or
the complete rendezvous. -/
theorem sdc_lld_read_result (self : Tid) (startblk buf n : Nat) (w : World)
    (hself : self ∉ w.rlist) :
    ((sdc_lld_read self startblk buf n w).val? = some false ↔
      ∃ rest, CmdSucceeds w.staIn rest ∧ w.respIn.headD 0 &&& SDC_R1_ERROR_MASK = 0 ∧
        (((rest.headD 0).testBit 8 = true ∧ ∃ rest2, CmdSucceeds rest.tail rest2) ∨
         (dataPending (rest.headD 0) ∧
          (newEvents w (sdc_lld_read self startblk buf n w).world).filter isRendezvous =
            rendezvous self RDY_OK ∧
          ∃ rest2, CmdSucceeds rest.tail.tail rest2))) ∧
    ((sdc_lld_read self startblk buf n w).val? = some false →
      cmdWrites (newEvents w (sdc_lld_read self startblk buf n w).world) =
        [cmdWord SDC_CMD_READ_MULTIPLE_BLOCK, cmdWord SDC_CMD_STOP_TRANSMISSION]) ∧
    ((newEvents w (sdc_lld_read self startblk buf n w).world).filter isRendezvous = [] ∨
      (newEvents w (sdc_lld_read self startblk buf n w).world).filter isRendezvous =
        [Event.goSleep self] ∨
      ∃ c, (c = RDY_OK ∨ c = RDY_RESET) ∧
        (newEvents w (sdc_lld_read self startblk buf n w).world).filter isRendezvous =
          rendezvous self c) := by
  have hcases : (∃ pre e rest, w.staIn = pre ++ e :: rest ∧ (∀ x ∈ pre, cmdPending x) ∧
        ¬ cmdPending e ∧ ¬ cmdFailed e ∧ w.respIn.headD 0 &&& SDC_R1_ERROR_MASK = 0) ∨
      ((sdc_lld_read self startblk buf n w).val? ≠ some false ∧
        (newEvents w (sdc_lld_read self startblk buf n w).world).filter isRendezvous = []) := by
    rcases pollEnds_or_pending w.staIn with ⟨pre, e, rest, hs, hpre, he⟩ | hp
    · by_cases hf : cmdFailed e
      · refine Or.inr ?_
        rw [read_cmd_failed self startblk buf n w pre e rest hs hpre he hf]
        exact ⟨by simp [Result.val?], (early_rendezvous startblk buf n pre e rest w).2.1⟩
      · by_cases hr : w.respIn.headD 0 &&& SDC_R1_ERROR_MASK = 0
        · exact Or.inl ⟨pre, e, rest, hs, hpre, he, hf, hr⟩
        · refine Or.inr ?_
          rw [read_resp_error self startblk buf n w pre e rest hs hpre he hf hr]
          exact ⟨by simp [Result.val?], (early_rendezvous startblk buf n pre e rest w).2.2⟩
    · refine Or.inr ?_
      rw [read_cmd_hang self startblk buf n w hp]
      exact ⟨by simp [Result.val?], (early_rendezvous startblk buf n [] 0 [] w).1⟩
  rcases hcases with ⟨pre, e, rest, hs, hpre, he, hf, hr⟩ | ⟨hv, hq⟩
  · have hA := read_after_cmd self startblk buf n w hself pre e rest hs hpre he hf hr
    refine ⟨⟨?_, ?_⟩, hA.2.1, hA.2.2⟩
    · intro h
      exact ⟨rest, ⟨e, ⟨pre, hs, hpre, he⟩, hf⟩, hr, hA.1.1 h⟩
    · rintro ⟨rest1, ⟨e1, ⟨pre1, hs1, hpre1, he1⟩, hf1⟩, hr1, h⟩
      exact (read_after_cmd self startblk buf n w hself pre1 e1 rest1 hs1 hpre1 he1 hf1
        hr1).1.2 h
  · refine ⟨⟨fun h => absurd h hv, ?_⟩, fun h => absurd h hv, Or.inl hq⟩
    rintro ⟨rest1, ⟨e1, ⟨pre1, hs1, hpre1, he1⟩, hf1⟩, hr1, h⟩
    exact (read_after_cmd self startblk buf n w hself pre1 e1 rest1 hs1 hpre1 he1 hf1
      hr1).1.2 h

/-- Witness for C4: `read(startblk=100, n=2)` by thread 7, whose `rdymsg`
holds a stale `RDY_RESET` on entry.  The read command is answered, the status
sampled under the gate shows no terminal condition, the thread sleeps, the
interrupt finds data end and deposits `RDY_OK`, and the stop command is
answered: the call returns FALSE, with exactly one STOP_TRANSMISSION. -/
theorem sdc_lld_read_result_witness :
    ({ World.idle [0x40, 0, 0x100, 0x40] [0x900] true true with
        rdymsg := fun _ => RDY_RESET } : World).rdymsg 7 = RDY_RESET ∧
    (sdc_lld_read 7 100 0x20000000 2
      { World.idle [0x40, 0, 0x100, 0x40] [0x900] true true with
        rdymsg := fun _ => RDY_RESET }).val? = some false ∧
    cmdWrites (newEvents
      { World.idle [0x40, 0, 0x100, 0x40] [0x900] true true with rdymsg := fun _ => RDY_RESET }
      (sdc_lld_read 7 100 0x20000000 2
        { World.idle [0x40, 0, 0x100, 0x40] [0x900] true true with
          rdymsg := fun _ => RDY_RESET }).world) =
      [cmdWord SDC_CMD_READ_MULTIPLE_BLOCK, cmdWord SDC_CMD_STOP_TRANSMISSION] :=
  ⟨rfl,
   (sdc_lld_read_result 7 100 0x20000000 2
      { World.idle [0x40, 0, 0x100, 0x40] [0x900] true true with rdymsg := fun _ => RDY_RESET }
      (by simp [World.idle])).1.2
      ⟨[0, 0x100, 0x40],
        ⟨0x40, ⟨[], rfl, by simp, by unfold cmdPending; decide⟩, by unfold cmdFailed; decide⟩,
        by decide,
        Or.inr ⟨by unfold dataPending; decide, rfl,
          ⟨[], 0x40, ⟨[], rfl, by simp, by unfold cmdPending; decide⟩,
            by unfold cmdFailed; decide⟩⟩⟩,
   (sdc_lld_read_result 7 100 0x20000000 2
      { World.idle [0x40, 0, 0x100, 0x40] [0x900] true true with rdymsg := fun _ => RDY_RESET }
      (by simp [World.idle])).2.1 rfl⟩

/-! ## DMA channel after a successful read -/

/-- C5, evaluated: `read(startblk=100, n=2)` whose read command is answered,
whose sampled status shows data end and whose stop command is answered returns
FALSE with DMA2 channel 4 still enabled; the only DMA operations of the call
are the set-up and the enable. -/
theorem sdc_lld_read_success_leaves_dma_enabled :
    ∃ w1, sdc_lld_read 7 100 0x20000000 2
        (World.idle [0x40, 0x100, 0x40] [0x900] false true) = .ret false w1 ∧
      w1.dmaEnabled = true ∧
      (newEvents (World.idle [0x40, 0x100, 0x40] [0x900] false true) w1).filter isDmaOp =
        [Event.dmaSetup 256 0x20000000 14976, Event.dmaEnable] :=
  ⟨_, rfl, rfl, rfl⟩

/-! ## Driver state -/

theorem mapWorld_bind {α β : Type} (g : World → World) (r : Result α)
    (f f1 : α → World → Result β)
    (h : ∀ v w, f v (g w) = (f1 v w).mapWorld g) :
    (r.mapWorld g).bind f = (r.bind f1).mapWorld g := by
  cases r <;> simp [Result.bind, Result.mapWorld, h]

theorem pollLoop_setState (st : sdcstate_t) (mask : Nat) (l : List Nat) (w : World) :
    pollLoop mask (setState st w) l = (pollLoop mask w l).mapWorld (setState st) := by
  induction l generalizing w with
  | nil => rfl
  | cons x l ih =>
    by_cases hx : x &&& mask ≠ 0
    · rw [pollLoop, pollLoop, if_pos hx, if_pos hx]
      rfl
    · rw [pollLoop, pollLoop, if_neg hx, if_neg hx]
      exact ih (emit (.staRead x) { w with staIn := l })

theorem send_cmd_setState (st : sdcstate_t) (cmd arg : Nat) (resp : List Nat) (w : World) :
    sdc_lld_send_cmd_short_crc cmd arg resp (setState st w) =
      (sdc_lld_send_cmd_short_crc cmd arg resp w).mapWorld (setState st) := by
  unfold sdc_lld_send_cmd_short_crc pollSTA
  simp only []
  have h1 : writeReg .CMD ((cmd % 2 ^ 8) ||| SDIO_CMD_WAITRESP_0 ||| SDIO_CMD_CPSMEN)
      (writeReg .ARG (arg % 2 ^ 32) (setState st w)) =
      setState st (writeReg .CMD ((cmd % 2 ^ 8) ||| SDIO_CMD_WAITRESP_0 ||| SDIO_CMD_CPSMEN)
      (writeReg .ARG (arg % 2 ^ 32) w)) := rfl
  rw [h1]
  have h2 : (setState st (writeReg .CMD ((cmd % 2 ^ 8) ||| SDIO_CMD_WAITRESP_0 |||
      SDIO_CMD_CPSMEN) (writeReg .ARG (arg % 2 ^ 32) w))).staIn =
      (writeReg .CMD ((cmd % 2 ^ 8) ||| SDIO_CMD_WAITRESP_0 ||| SDIO_CMD_CPSMEN)
      (writeReg .ARG (arg % 2 ^ 32) w)).staIn := rfl
  rw [h2, pollLoop_setState]
  apply mapWorld_bind
  intro v w1
  by_cases hf : v &&& (SDIO_STA_CTIMEOUT ||| SDIO_STA_CCRCFAIL) ≠ 0
  · rw [if_pos hf, if_pos hf]
    rfl
  · rw [if_neg hf, if_neg hf]
    rfl

theorem error_setState (st : sdcstate_t) (w : World) :
    sdc_lld_read_error (setState st w) = (sdc_lld_read_error w).mapWorld (setState st) :=
  rfl

theorem stop_setState (st : sdcstate_t) (resp : List Nat) (w : World) :
    sdc_lld_read_stop resp (setState st w) =
      (sdc_lld_read_stop resp w).mapWorld (setState st) := by
  unfold sdc_lld_read_stop
  simp only []
  have h1 : chSysUnlock (setState st w) = setState st (chSysUnlock w) := rfl
  rw [h1, send_cmd_setState]
  apply mapWorld_bind
  intro v w1
  cases v.1
  · rfl
  · exact error_setState st w1

theorem PORT_IRQ_EPILOGUE_setState (st : sdcstate_t) (w : World) :
    PORT_IRQ_EPILOGUE (setState st w) = setState st (PORT_IRQ_EPILOGUE w) := by
  rw [PORT_IRQ_EPILOGUE_eq, PORT_IRQ_EPILOGUE_eq]
  rfl

theorem SDIO_IRQHandler_none (w : World) (h : w.thread = none) :
    SDIO_IRQHandler w =
      PORT_IRQ_EPILOGUE (chSysUnlockFromIsr (readSlot (chSysLockFromIsr w)).2) := by
  unfold SDIO_IRQHandler
  have hs : (readSlot (chSysLockFromIsr w)).1 = none := h
  simp only [hs]

theorem SDIO_IRQHandler_setState (st : sdcstate_t) (w : World) :
    SDIO_IRQHandler (setState st w) = setState st (SDIO_IRQHandler w) := by
  cases h : w.thread with
  | none =>
    rw [SDIO_IRQHandler_none w h, SDIO_IRQHandler_none (setState st w) h,
      ← PORT_IRQ_EPILOGUE_setState]
    rfl
  | some t =>
    rw [SDIO_IRQHandler_some w t h, SDIO_IRQHandler_some (setState st w) t h,
      ← PORT_IRQ_EPILOGUE_setState]
    rfl

theorem deliverIrq_setState (st : sdcstate_t) (w : World) :
    deliverIrq (setState st w) = setState st (deliverIrq w) := by
  unfold deliverIrq
  have h1 : (setState st w).irq = w.irq := rfl
  rw [h1]
  cases w.irq
  · simp only [Bool.false_eq_true, if_false]
  · simp only [if_true]
    exact SDIO_IRQHandler_setState st { w with irq := false }

theorem wake_eq (self : Tid) (w : World) :
    chSchGoSleepS_wake self w =
      if self ∈ (deliverIrq w).rlist then
        .ret () (emit (.resume self)
          { deliverIrq w with rlist := (deliverIrq w).rlist.erase self, locked := true })
      else .hang (deliverIrq w) :=
  rfl

theorem wake_setState (st : sdcstate_t) (self : Tid) (w : World) :
    chSchGoSleepS_wake self (setState st w) =
      (chSchGoSleepS_wake self w).mapWorld (setState st) := by
  rw [wake_eq, wake_eq, deliverIrq_setState]
  have h2 : (setState st (deliverIrq w)).rlist = (deliverIrq w).rlist := rfl
  by_cases hm : self ∈ (deliverIrq w).rlist
  · rw [h2, if_pos hm, if_pos hm]
    rfl
  · rw [h2, if_neg hm, if_neg hm]
    rfl

theorem assert_setState (st : sdcstate_t) (k : Nat) (w : World) :
    chDbgAssert_slotNull k (setState st w) =
      (chDbgAssert_slotNull k w).mapWorld (setState st) := by
  unfold chDbgAssert_slotNull
  have h1 : (setState st w).dbgAsserts = w.dbgAsserts := rfl
  have h2 : (readSlot (setState st w)).1 = (readSlot w).1 := rfl
  cases ha : w.dbgAsserts
  · simp only [h1, ha, Bool.false_eq_true, if_false]
    rfl
  · simp only [h1, ha, if_true, h2]
    by_cases hn : (readSlot w).1 = none
    · rw [if_pos hn, if_pos hn]
      rfl
    · rw [if_neg hn, if_neg hn]
      rfl

theorem sleep_setState (st : sdcstate_t) (self : Tid) (resp : List Nat) (w : World) :
    sdc_lld_read_sleep self resp (setState st w) =
      (sdc_lld_read_sleep self resp w).mapWorld (setState st) := by
  unfold sdc_lld_read_sleep
  rw [assert_setState]
  apply mapWorld_bind
  intro _ w1
  have h1 : chSchGoSleepS self (writeSlot (some self) (setState st w1)) =
      (chSchGoSleepS self (writeSlot (some self) w1)).mapWorld (setState st) :=
    wake_setState st self (chSchGoSleepS_suspend self (writeSlot (some self) w1))
  simp only []
  rw [h1]
  apply mapWorld_bind
  intro _ w2
  rw [assert_setState]
  apply mapWorld_bind
  intro _ w3
  have h2 : (readRdymsg self (setState st w3)).1 = (readRdymsg self w3).1 := rfl
  have h3 : (readRdymsg self (setState st w3)).2 = setState st (readRdymsg self w3).2 := rfl
  rw [h2, h3]
  by_cases hm : (readRdymsg self w3).1 ≠ RDY_OK
  · rw [if_pos hm, if_pos hm]
    rfl
  · rw [if_neg hm, if_neg hm]
    exact stop_setState st resp _

theorem wait_setState (st : sdcstate_t) (self : Tid) (resp : List Nat) (w : World) :
    sdc_lld_read_wait self resp (setState st w) =
      (sdc_lld_read_wait self resp w).mapWorld (setState st) := by
  unfold sdc_lld_read_wait
  have h1 : (readSTA (chSysLock (setState st w))).1 = (readSTA (chSysLock w)).1 := rfl
  have h2 : (readSTA (chSysLock (setState st w))).2 = setState st (readSTA (chSysLock w)).2 :=
    rfl
  simp only []
  rw [h1, h2]
  by_cases ht : (readSTA (chSysLock w)).1 &&& dataTerminalBits = 0
  · rw [if_pos ht, if_pos ht]
    exact sleep_setState st self resp _
  · rw [if_neg ht, if_neg ht]
    by_cases hd : (readSTA (chSysLock w)).1 &&& SDIO_STA_DATAEND = 0
    · rw [if_pos hd, if_pos hd]
      rfl
    · rw [if_neg hd, if_neg hd]
      exact stop_setState st resp _

theorem setup_setState (st : sdcstate_t) (buf n : Nat) (w : World) :
    sdc_lld_read_setup buf n (setState st w) = setState st (sdc_lld_read_setup buf n w) := by
  simp only [sdc_lld_read_setup, dmaEnableChannel, writeReg, dmaChannelSetup, emit, setState]

/-- C10, as the code has it: `sdc_lld_read` does not consult the driver state.
Run on a driver whose state field is `st` (`SDC_STOP` included) it gives the
outcome it gives for any other state, with the same slot registration and the
same sleep, only the state field of the resulting machine being `st`; and it
never changes the state field. -/
theorem sdc_lld_read_state_independent (st : sdcstate_t) (self : Tid) (startblk buf n : Nat)
    (w : World) :
    sdc_lld_read self startblk buf n (setState st w) =
      (sdc_lld_read self startblk buf n w).mapWorld (setState st) ∧
    (sdc_lld_read self startblk buf n w).world.state = w.state := by
  have key : ∀ st1 w1, sdc_lld_read self startblk buf n (setState st1 w1) =
      (sdc_lld_read self startblk buf n w1).mapWorld (setState st1) := by
    intro st1 w1
    rw [read_eq, read_eq, setup_setState, send_cmd_setState]
    apply mapWorld_bind
    intro v w2
    by_cases hc : v.1 = true ∨ v.2.headD 0 &&& SDC_R1_ERROR_MASK ≠ 0
    · rw [if_pos hc, if_pos hc]
      rfl
    · rw [if_neg hc, if_neg hc]
      exact wait_setState st1 self v.2 w2
  refine ⟨key st w, ?_⟩
  have h := key w.state w
  have hw : setState w.state w = w := rfl
  rw [hw] at h
  generalize sdc_lld_read self startblk buf n w = r at h
  cases r with
  | ret v w1 =>
    simp only [Result.mapWorld, Result.ret.injEq, true_and] at h
    simp only [Result.world]
    rw [h]
    rfl
  | halt w1 =>
    simp only [Result.mapWorld, Result.halt.injEq] at h
    simp only [Result.world]
    rw [h]
    rfl
  | hang w1 =>
    simp only [Result.mapWorld, Result.hang.injEq] at h
    simp only [Result.world]
    rw [h]
    rfl

/-- Counterexample to C10 as stated: on a driver in `SDC_STOP` whose hardware
answers, `sdc_lld_read` registers the caller in the slot, puts it to sleep and
returns FALSE (success). -/
theorem sdc_lld_read_not_rejected_in_stop :
    (setState sdcstate_t.SDC_STOP (World.idle [0x40, 0, 0x100, 0x40] [0x900] true true)).state =
      sdcstate_t.SDC_STOP ∧
    (sdc_lld_read 7 100 0x20000000 2 (setState sdcstate_t.SDC_STOP
      (World.idle [0x40, 0, 0x100, 0x40] [0x900] true true))).val? = some false ∧
    (sdc_lld_read 7 100 0x20000000 2 (setState sdcstate_t.SDC_STOP
      (World.idle [0x40, 0, 0x100, 0x40] [0x900] true true))).world.trace.filter
        isSlotWriteOrSleep =
      [Event.slotWrite (some 7), Event.goSleep 7, Event.slotWrite none] :=
  ⟨rfl, rfl, rfl⟩

/-! ## Single owner of the waiting-thread slot -/

theorem SDIO_IRQHandler_slot_and_asserts (w : World) :
    (SDIO_IRQHandler w).thread = none ∧ (SDIO_IRQHandler w).dbgAsserts = w.dbgAsserts := by
  cases h : w.thread with
  | none =>
    rw [SDIO_IRQHandler_none w h, PORT_IRQ_EPILOGUE_eq]
    exact ⟨h, rfl⟩
  | some t =>
    rw [SDIO_IRQHandler_some w t h, PORT_IRQ_EPILOGUE_eq]
    exact ⟨rfl, rfl⟩

/-- Registration with assertions compiled in: on an empty slot it stores the
thread after the assertion has read the slot, then suspends the thread. -/
theorem register_on_empty (self : Tid) (w : World) (ha : w.dbgAsserts = true)
    (h : w.thread = none) :
    sdc_lld_read_register self w =
      .ret () (chSchGoSleepS_suspend self (writeSlot (some self) (readSlot w).2)) := by
  unfold sdc_lld_read_register
  rw [assert_passes 1 w (fun _ => h)]
  unfold assertPassed
  simp only [ha, if_true, Result.bind]

/-- Registration with assertions compiled in: on an occupied slot the assertion halts the system. -/
theorem register_on_occupied (self u : Tid) (w : World) (ha : w.dbgAsserts = true)
    (h : w.thread = some u) :
    sdc_lld_read_register self w = .halt (emit (.assertFail 1) (readSlot w).2) := by
  unfold sdc_lld_read_register chDbgAssert_slotNull
  have h1 : (readSlot w).1 = some u := h
  simp only [ha, if_true, h1]
  rfl

/-- Sequences of registrations and interrupts, from any slot content. -/
theorem runOps_single_owner (ops : List Op) (w : World) (ha : w.dbgAsserts = true) :
    (Exclusive ops w.thread →
      ∃ w1, runOps ops w = .ret () w1 ∧ w1.thread = owner ops w.thread) ∧
    (¬ Exclusive ops w.thread → ∃ w1, runOps ops w = .halt w1) := by
  induction ops generalizing w with
  | nil =>
    refine ⟨fun _ => ⟨w, rfl, rfl⟩, fun h => absurd trivial h⟩
  | cons op ops ih =>
    cases op with
    | register t =>
      cases hthr : w.thread with
      | none =>
        have hreg := register_on_empty t w ha hthr
        have ha2 : (chSchGoSleepS_suspend t (writeSlot (some t) (readSlot w).2)).dbgAsserts =
            true := ha
        have ht2 : (chSchGoSleepS_suspend t (writeSlot (some t) (readSlot w).2)).thread =
            some t := rfl
        have hrun : runOps (Op.register t :: ops) w =
            runOps ops (chSchGoSleepS_suspend t (writeSlot (some t) (readSlot w).2)) := by
          rw [runOps, runOp, hreg]
          rfl
        obtain ⟨ih1, ih2⟩ := ih _ ha2
        rw [ht2] at ih1 ih2
        rw [hrun]
        refine ⟨?_, ?_⟩
        · intro hx
          exact ih1 hx.2
        · intro hx
          exact ih2 (fun hc => hx ⟨rfl, hc⟩)
      | some u =>
        have hreg := register_on_occupied t u w ha hthr
        have hrun : runOps (Op.register t :: ops) w =
            .halt (emit (.assertFail 1) (readSlot w).2) := by
          rw [runOps, runOp, hreg]
          rfl
        rw [hrun]
        refine ⟨?_, ?_⟩
        · intro hx
          exact Option.noConfusion hx.1
        · intro _
          exact ⟨_, rfl⟩
    | irq =>
      obtain ⟨hs1, hs2⟩ := SDIO_IRQHandler_slot_and_asserts w
      have hrun : runOps (Op.irq :: ops) w = runOps ops (SDIO_IRQHandler w) := by
        rw [runOps, runOp]
        rfl
      obtain ⟨ih1, ih2⟩ := ih (SDIO_IRQHandler w) (hs2.trans ha)
      rw [hs1] at ih1 ih2
      rw [hrun]
      exact ⟨ih1, ih2⟩

theorem ret_bind {α β : Type} (v : α) (w : World) (f : α → World → Result β) :
    (Result.ret v w).bind f = f v w :=
  rfl

theorem Extends.refl (w : World) : Extends w w :=
  ⟨[], by simp⟩

theorem Extends.trans {a b c : World} (h1 : Extends a b) (h2 : Extends b c) : Extends a c := by
  obtain ⟨X, hX⟩ := h1
  obtain ⟨Y, hY⟩ := h2
  exact ⟨X ++ Y, by rw [hY, hX, List.append_assoc]⟩

theorem emit_extends (e : Event) (w : World) : Extends w (emit e w) :=
  ⟨[e], rfl⟩

theorem PORT_IRQ_EPILOGUE_extends (w : World) : Extends w (PORT_IRQ_EPILOGUE w) :=
  ⟨[Event.lockFromIsr] ++ (if w.rescRequired w.rlist then [Event.pendSV] else []) ++
    [Event.unlockFromIsr], by rw [PORT_IRQ_EPILOGUE_trace]; simp only [List.append_assoc]⟩

theorem SDIO_IRQHandler_extends (w : World) : Extends w (SDIO_IRQHandler w) := by
  cases h : w.thread with
  | none =>
    rw [SDIO_IRQHandler_none w h]
    exact (((emit_extends Event.lockFromIsr { w with locked := true }).trans
      (emit_extends Event.slotRead _)).trans
      (emit_extends Event.unlockFromIsr _)).trans (PORT_IRQ_EPILOGUE_extends _)
  | some t =>
    rw [SDIO_IRQHandler_some w t h]
    exact ((((((((emit_extends Event.lockFromIsr { w with locked := true }).trans
      (emit_extends Event.slotRead _)).trans
      (emit_extends (Event.staRead (w.staIn.headD 0)) _)).trans
      (emit_extends Event.slotRead _)).trans
      (emit_extends (Event.rdymsgWrite t
        (if (w.staIn.headD 0).testBit 8 then RDY_OK else RDY_RESET)) _)).trans
      (emit_extends Event.slotRead _)).trans
      (emit_extends (Event.readyI t) _)).trans
      (emit_extends (Event.slotWrite none) _)).trans
      ((emit_extends Event.unlockFromIsr _).trans (PORT_IRQ_EPILOGUE_extends _))

theorem wake_extends (self : Tid) (w : World) :
    Extends w (chSchGoSleepS_wake self w).world := by
  have hd : Extends w (deliverIrq w) := by
    unfold deliverIrq
    cases w.irq
    · simp only [Bool.false_eq_true, if_false]
      exact Extends.refl w
    · simp only [if_true]
      exact SDIO_IRQHandler_extends { w with irq := false }
  rw [wake_eq]
  by_cases hm : self ∈ (deliverIrq w).rlist
  · rw [if_pos hm]
    exact hd.trans ⟨[Event.resume self], rfl⟩
  · rw [if_neg hm]
    exact hd

theorem assert_extends (k : Nat) (w : World) : Extends w (chDbgAssert_slotNull k w).world := by
  unfold chDbgAssert_slotNull
  cases w.dbgAsserts
  · simp only [Bool.false_eq_true, if_false]
    exact Extends.refl w
  · simp only [if_true]
    by_cases hn : (readSlot w).1 = none
    · rw [if_pos hn]
      exact emit_extends _ w
    · rw [if_neg hn]
      exact (emit_extends _ w).trans (emit_extends _ _)

theorem stop_extends (resp : List Nat) (w : World) :
    Extends w (sdc_lld_read_stop resp w).world := by
  obtain ⟨Y, hY, -⟩ := stop_summary resp w
  exact ⟨Y, hY⟩

theorem bind_extends {α β : Type} (w : World) (r : Result α) (f : α → World → Result β)
    (h1 : Extends w r.world) (h2 : ∀ v w1, Extends w1 (f v w1).world) :
    Extends w (r.bind f).world := by
  cases r with
  | ret v w1 => exact h1.trans (h2 v w1)
  | halt w1 => exact h1
  | hang w1 => exact h1

/-- What follows the registration in the sleeping branch of `sdc_lld_read`. -/
theorem sleep_eq_register_then (self : Tid) (resp : List Nat) (w : World) :
    sdc_lld_read_sleep self resp w =
      (sdc_lld_read_register self w).bind fun _ w1 =>
        (chSchGoSleepS_wake self w1).bind fun _ w2 =>
          (chDbgAssert_slotNull 2 w2).bind fun _ w3 =>
            if (readRdymsg self w3).1 ≠ RDY_OK then
              sdc_lld_read_error (chSysUnlock (readRdymsg self w3).2)
            else sdc_lld_read_stop resp (readRdymsg self w3).2 := by
  unfold sdc_lld_read_sleep sdc_lld_read_register chSchGoSleepS
  cases chDbgAssert_slotNull 1 w <;> rfl

theorem after_register_extends (self : Tid) (resp : List Nat) (w : World) :
    Extends w ((chSchGoSleepS_wake self w).bind fun _ w2 =>
      (chDbgAssert_slotNull 2 w2).bind fun _ w3 =>
        if (readRdymsg self w3).1 ≠ RDY_OK then
          sdc_lld_read_error (chSysUnlock (readRdymsg self w3).2)
        else sdc_lld_read_stop resp (readRdymsg self w3).2).world := by
  apply bind_extends _ _ _ (wake_extends self w)
  intro _ w2
  apply bind_extends _ _ _ (assert_extends 2 w2)
  intro _ w3
  by_cases hm : (readRdymsg self w3).1 ≠ RDY_OK
  · rw [if_pos hm]
    have h1 : Extends w3 (readRdymsg self w3).2 := emit_extends _ w3
    have h2 : Extends (readRdymsg self w3).2
        (tornDown (chSysUnlock (readRdymsg self w3).2)) :=
      ⟨_, (tornDown_unlock_facts _).1⟩
    exact h1.trans h2
  · rw [if_neg hm]
    have h1 : Extends w3 (readRdymsg self w3).2 := emit_extends _ w3
    exact h1.trans (stop_extends resp _)

/-- C9 (single-owner registration), with debug assertions compiled in.  In the
rendezvous of `sdc_lld_read`: when the sampled status shows no terminal
condition and the slot is occupied, assertion #1 halts the system right after
reading the slot under the gate, the slot keeps its thread, and neither a slot
write nor a sleep is recorded; when the slot is empty the slot write and the
sleep follow that assertion directly, under the gate taken by `chSysLock`;
when the sampled status is terminal no slot write and no sleep happen at all.
Over every sequence of registrations (the first statements of the sleeping
branch) and interrupt handler runs that starts with an empty slot: all steps
return exactly when no registration meets an occupied slot, the slot then
holding the last registered thread not yet woken, and otherwise the first
registration on an occupied slot halts the system. -/
theorem sdc_lld_read_single_owner (self : Tid) (resp : List Nat) (w : World)
    (ha : w.dbgAsserts = true) :
    (∀ u, w.thread = some u → dataPending (w.staIn.headD 0) →
      sdc_lld_read_wait self resp w =
        .halt (emit (.assertFail 1) (readSlot (readSTA (chSysLock w)).2).2) ∧
      (sdc_lld_read_wait self resp w).world.thread = some u ∧
      newEvents w (sdc_lld_read_wait self resp w).world =
        [Event.lock, Event.staRead (w.staIn.headD 0), Event.slotRead, Event.assertFail 1]) ∧
    (w.thread = none → dataPending (w.staIn.headD 0) →
      ∃ Z, (sdc_lld_read_wait self resp w).world.trace = w.trace ++
        [Event.lock, Event.staRead (w.staIn.headD 0), Event.slotRead,
         Event.slotWrite (some self), Event.goSleep self] ++ Z) ∧
    (¬ dataPending (w.staIn.headD 0) →
      (newEvents w (sdc_lld_read_wait self resp w).world).filter isSlotWriteOrSleep = [] ∧
      (sdc_lld_read_wait self resp w).world.thread = w.thread) ∧
    (w.thread = none → ∀ ops,
      (Exclusive ops none →
        ∃ w1, runOps ops w = .ret () w1 ∧ w1.thread = owner ops none) ∧
      (¬ Exclusive ops none → ∃ w1, runOps ops w = .halt w1)) ∧
    (sdc_lld_read_sleep self resp w =
      (sdc_lld_read_register self w).bind fun _ w1 =>
        (chSchGoSleepS_wake self w1).bind fun _ w2 =>
          (chDbgAssert_slotNull 2 w2).bind fun _ w3 =>
            if (readRdymsg self w3).1 ≠ RDY_OK then
              sdc_lld_read_error (chSysUnlock (readRdymsg self w3).2)
            else sdc_lld_read_stop resp (readRdymsg self w3).2) := by
  have haS : (readSTA (chSysLock w)).2.dbgAsserts = true := ha
  refine ⟨?_, ?_, ?_, ?_, sleep_eq_register_then self resp w⟩
  · intro u hu ht
    have hE : sdc_lld_read_wait self resp w =
        .halt (emit (.assertFail 1) (readSlot (readSTA (chSysLock w)).2).2) := by
      rw [wait_pending self resp w ht]
      exact sleep_halt self resp _ u haS hu
    rw [hE]
    refine ⟨rfl, hu, ?_⟩
    apply newEvents_of_trace
    simp [Result.world, readSlot, readSTA, chSysLock, emit]
  · intro hn ht
    rw [wait_pending self resp w ht, sleep_eq_register_then,
      register_on_empty self _ haS hn, ret_bind]
    obtain ⟨Z, hZ⟩ := after_register_extends self resp
      (chSchGoSleepS_suspend self (writeSlot (some self)
        (readSlot (readSTA (chSysLock w)).2).2))
    refine ⟨Z, ?_⟩
    rw [hZ]
    simp [chSchGoSleepS_suspend, writeSlot, readSlot, readSTA, chSysLock, emit]
  · intro ht
    cases hd : (w.staIn.headD 0).testBit 8
    · rw [wait_terminal_failure self resp w ht hd]
      obtain ⟨hE1, hE2, -⟩ := tornDown_unlock_facts (readSTA (chSysLock w)).2
      have hN : newEvents w (tornDown (chSysUnlock (readSTA (chSysLock w)).2)) =
          [Event.lock, Event.staRead (w.staIn.headD 0), Event.unlock, Event.dmaDisable,
           Event.regWrite Reg.ICR 0xFFFFFFFF, Event.regWrite Reg.MASK 0,
           Event.regWrite Reg.DCTRL 0] := by
        apply newEvents_of_trace
        rw [hE1]
        simp [readSTA, chSysLock, emit]
      simp only [Result.world, hN]
      exact ⟨rfl, hE2⟩
    · rw [wait_terminal_dataend self resp w hd]
      obtain ⟨Y, hY, hY1, -, -, hY4, -, -⟩ := stop_summary resp (readSTA (chSysLock w)).2
      have hN : newEvents w (sdc_lld_read_stop resp (readSTA (chSysLock w)).2).world =
          [Event.lock, Event.staRead (w.staIn.headD 0)] ++ Y := by
        apply newEvents_of_trace
        rw [hY]
        simp [readSTA, chSysLock, emit]
      rw [hN, List.filter_append, hY1]
      exact ⟨rfl, hY4⟩
  · intro hn ops
    have h := runOps_single_owner ops w ha
    rw [hn] at h
    exact h

/-- Witness for C9: thread 3 holds the slot when thread 7 reaches
registration; the assertion halts the system and the slot still holds 3. -/
theorem sdc_lld_read_single_owner_witness :
    (sdc_lld_read_wait 7 [0] (World.mk sdcstate_t.SDC_READY (some 3) (fun _ => 0) [] false
      false (fun _ => 0) [0] [] true 0 0 0 false true 3 (fun _ => false) [])).world.thread =
      some 3 :=
  ((sdc_lld_read_single_owner 7 [0] (World.mk sdcstate_t.SDC_READY (some 3) (fun _ => 0) []
    false false (fun _ => 0) [0] [] true 0 0 0 false true 3 (fun _ => false) []) rfl).1 3 rfl
    (by unfold dataPending; decide)).2.1

/-! ## Block write -/

/-- C8 (write stub): for every start block, buffer and block count and every
machine state, `sdc_lld_write` returns TRUE and leaves the whole machine as it
was: driver state, waiting-thread slot, every register, and no recorded
action. -/
theorem sdc_lld_write_stub (startblk buf n : Nat) (w : World) :
    sdc_lld_write startblk buf n w = .ret true w ∧
    (sdc_lld_write startblk buf n w).world.state = w.state ∧
    (sdc_lld_write startblk buf n w).world.thread = w.thread ∧
    (sdc_lld_write startblk buf n w).world.regs = w.regs ∧
    (sdc_lld_write startblk buf n w).world.trace = w.trace :=
  ⟨rfl, rfl, rfl, rfl, rfl⟩

/-! ## Data-path configuration of a read -/

/-- C16, evaluated: for every buffer, block count and machine state the value
`sdc_lld_read` writes to the data-control register is 0x489: DTEN (bit 0) and
DMAEN (bit 3) set and DTMODE (bit 2) clear as the comment says, but DTDIR
(bit 1) clear, i.e. direction controller to card, the block size field (bits
7..4) equal to 8, i.e. 256 byte blocks, not 9, and RWMOD (bit 10) set; DLEN is
`n * 512` and the DMA count is that number of bytes divided by 4. -/
theorem sdc_lld_read_dctrl_value (buf n : Nat) (w : World) :
    (sdc_lld_read_setup buf n w).regs Reg.DCTRL = 0x489 ∧
    Event.regWrite Reg.DCTRL 0x489 ∈ newEvents w (sdc_lld_read_setup buf n w) ∧
    Nat.testBit 0x489 0 = true ∧ Nat.testBit 0x489 1 = false ∧
    Nat.testBit 0x489 2 = false ∧ Nat.testBit 0x489 3 = true ∧
    (0x489 / 2 ^ 4) % 2 ^ 4 = 8 ∧ 2 ^ 8 ≠ SDC_BLOCK_SIZE ∧ 2 ^ 9 = SDC_BLOCK_SIZE ∧
    Nat.testBit 0x489 10 = true ∧
    (sdc_lld_read_setup buf n w).regs Reg.DLEN = (n * SDC_BLOCK_SIZE) % 2 ^ 32 ∧
    (sdc_lld_read_setup buf n w).dmaCNDTR = (n * SDC_BLOCK_SIZE) % 2 ^ 32 / 4 := by
  have hv : SDIO_DCTRL_RWMOD ||| SDIO_DCTRL_DBLOCKSIZE_3 ||| SDIO_DCTRL_DBLOCKSIZE_3 |||
      SDIO_DCTRL_DMAEN ||| SDIO_DCTRL_DTEN = 0x489 := by decide
  refine ⟨?_, ?_, by decide, by decide, by decide, by decide, by decide, by decide, by decide,
    by decide, ?_, ?_⟩
  · simp only [sdc_lld_read_setup, dmaEnableChannel, writeReg, dmaChannelSetup, emit, hv]
    simp
  · simp only [newEvents, sdc_lld_read_setup, dmaEnableChannel, writeReg, dmaChannelSetup,
      emit, hv]
    simp
  · simp only [sdc_lld_read_setup, dmaEnableChannel, writeReg, dmaChannelSetup, emit]
    simp
  · simp only [sdc_lld_read_setup, dmaEnableChannel, writeReg, dmaChannelSetup, emit]

/-! ## Long response -/

/-- C13, evaluated: a long-response command that is answered without failure
returns FALSE with only the first word of the four-word buffer written (with
RESP1); words 1 to 3 keep their old contents and a single response register
read is recorded. -/
theorem sdc_lld_send_cmd_long_crc_writes_one_word :
    ∃ w1, sdc_lld_send_cmd_long_crc 2 0 [11, 22, 33, 44]
        (World.idle [0x40] [0xAAAA, 0xBBBB, 0xCCCC, 0xDDDD] false true) =
        .ret (false, [0xAAAA, 22, 33, 44]) w1 ∧
      w1.respIn = [0xBBBB, 0xCCCC, 0xDDDD] ∧
      w1.trace = [Event.regWrite Reg.ARG 0, Event.regWrite Reg.CMD 0x4C2, Event.staRead 0x40,
        Event.regWrite Reg.ICR 0x45, Event.respRead 0xAAAA] :=
  ⟨_, rfl, rfl, rfl⟩

/-! ## Stack-size alignment -/

theorem lor_three (x : Nat) : x ||| 3 = 4 * (x / 4) + 3 := by
  apply Nat.eq_of_testBit_eq
  intro i
  have h := Nat.testBit_mul_pow_two_add (x / 4) (b := 3) (i := 2) (by decide) i
  have h4 : (2 : Nat) ^ 2 = 4 := by decide
  rw [h4] at h
  rw [Nat.testBit_or, h]
  by_cases hi : i < 2
  · rw [if_pos hi]
    have h3 : Nat.testBit 3 i = true := by
      interval_cases i <;> decide
    rw [h3, Bool.or_true]
  · rw [if_neg hi]
    have h3 : Nat.testBit 3 i = false := by
      apply Nat.testBit_lt_two_pow
      calc 3 < 2 ^ 2 := by decide
        _ ≤ 2 ^ i := Nat.pow_le_pow_right (by decide) (by omega)
    have hx : Nat.testBit (x / 4) (i - 2) = Nat.testBit x i := by
      have := Nat.testBit_shiftRight (i := 2) (j := i - 2) x
      rw [Nat.shiftRight_eq_div_pow, h4] at this
      rw [this]
      congr 1
      omega
    rw [h3, Bool.or_false, hx]

theorem STACK_ALIGN_eq (n : Nat) (h1 : 1 ≤ n) (h2 : n ≤ 2 ^ 32 - 4) :
    STACK_ALIGN n = 4 * ((n - 1) / 4) + 4 := by
  unfold STACK_ALIGN sizeof_stkalign_t
  have ha : (n + 2 ^ 32 - 1) % 2 ^ 32 = n - 1 := by omega
  have hb : (4 : Nat) - 1 = 3 := rfl
  rw [ha, hb, lor_three]
  omega

theorem STACK_ALIGN_mod (n : Nat) : STACK_ALIGN n % 4 = 0 := by
  unfold STACK_ALIGN sizeof_stkalign_t
  have hb : (4 : Nat) - 1 = 3 := rfl
  rw [hb, lor_three]
  omega


/-- C14, amended: with `sizeof(stkalign_t) = 4` and 32 bit unsigned
arithmetic, for every `n` with `1 ≤ n ≤ 2^32 - 4`, `STACK_ALIGN(n)` is the
least multiple of 4 that is at least `n`, hence between `n` and `n + 3`, and
aligning twice is aligning once; `THD_WA_SIZE(n)` is a multiple of 4 and,
provided the sum `sizeof(Thread) + sizeof(struct intctx) + sizeof(struct
extctx) + n + INT_REQUIRED_STACK` does not exceed `2^32 - 4`, not smaller than
that sum; and `WORKING_AREA(s, n)` declares an array of exactly
`THD_WA_SIZE(n)` bytes. -/
theorem STACK_ALIGN_spec (cache : Bool) (sizeofThread n : Nat)
    (h1 : 1 ≤ n) (h2 : n ≤ 2 ^ 32 - 4) :
    STACK_ALIGN n % 4 = 0 ∧ n ≤ STACK_ALIGN n ∧ STACK_ALIGN n ≤ n + 3 ∧
    (∀ m, m % 4 = 0 → n ≤ m → STACK_ALIGN n ≤ m) ∧
    STACK_ALIGN (STACK_ALIGN n) = STACK_ALIGN n ∧
    THD_WA_SIZE cache sizeofThread n % 4 = 0 ∧
    (sizeofThread + sizeof_intctx cache + sizeof_extctx + n + INT_REQUIRED_STACK ≤ 2 ^ 32 - 4 →
      sizeofThread + sizeof_intctx cache + sizeof_extctx + n + INT_REQUIRED_STACK ≤
        THD_WA_SIZE cache sizeofThread n) ∧
    WORKING_AREA_bytes cache sizeofThread n = THD_WA_SIZE cache sizeofThread n := by
  have he := STACK_ALIGN_eq n h1 h2
  have hidem : STACK_ALIGN (STACK_ALIGN n) = STACK_ALIGN n := by
    have h3 : 1 ≤ STACK_ALIGN n := by omega
    have h4 : STACK_ALIGN n ≤ 2 ^ 32 - 4 := by omega
    rw [STACK_ALIGN_eq (STACK_ALIGN n) h3 h4]
    omega
  have hmod : THD_WA_SIZE cache sizeofThread n % 4 = 0 := STACK_ALIGN_mod _
  refine ⟨by omega, by omega, by omega, ?_, hidem, hmod, ?_, ?_⟩
  · intro m hm hnm
    omega
  · intro hsum
    unfold THD_WA_SIZE
    have hpos : 1 ≤ sizeofThread + sizeof_intctx cache + sizeof_extctx + n +
        INT_REQUIRED_STACK := by omega
    have hlt : (sizeofThread + sizeof_intctx cache + sizeof_extctx + n +
        INT_REQUIRED_STACK) % 2 ^ 32 =
        sizeofThread + sizeof_intctx cache + sizeof_extctx + n + INT_REQUIRED_STACK := by
      apply Nat.mod_eq_of_lt
      omega
    rw [hlt, STACK_ALIGN_eq _ hpos hsum]
    omega
  · unfold WORKING_AREA_bytes WORKING_AREA_length sizeof_stkalign_t
    omega

/-- Witness for C14: a stack of 5 bytes. -/
theorem STACK_ALIGN_spec_witness :
    STACK_ALIGN 5 % 4 = 0 ∧ 5 ≤ STACK_ALIGN 5 ∧ STACK_ALIGN 5 ≤ 5 + 3 ∧
    (68 + sizeof_intctx false + sizeof_extctx + 5 + INT_REQUIRED_STACK ≤ 2 ^ 32 - 4 →
      68 + sizeof_intctx false + sizeof_extctx + 5 + INT_REQUIRED_STACK ≤
        THD_WA_SIZE false 68 5) :=
  ⟨(STACK_ALIGN_spec false 68 5 (by decide) (by decide)).1,
   (STACK_ALIGN_spec false 68 5 (by decide) (by decide)).2.1,
   (STACK_ALIGN_spec false 68 5 (by decide) (by decide)).2.2.1,
   (STACK_ALIGN_spec false 68 5 (by decide) (by decide)).2.2.2.2.2.2.1⟩

/-- Counterexample to C14 as stated: for `n = 2^32 - 4`, inside the stated
range, and a `Thread` structure of 68 bytes the 32 bit sum wraps and
`THD_WA_SIZE(n)` is 136, smaller than the sum of the sizes. -/
theorem THD_WA_SIZE_wraps :
    1 ≤ 2 ^ 32 - 4 ∧ THD_WA_SIZE false 68 (2 ^ 32 - 4) = 136 ∧
    THD_WA_SIZE false 68 (2 ^ 32 - 4) <
      68 + sizeof_intctx false + sizeof_extctx + (2 ^ 32 - 4) + INT_REQUIRED_STACK := by
  decide

/-! ## Critical-section gate -/

/-- C12, amended: for every prior state `port_lock` and `port_lock_from_isr`
set BASEPRI to `CORTEX_BASEPRI_KERNEL`, `port_unlock` and
`port_unlock_from_isr` set it to `CORTEX_BASEPRI_USER`, and none of the four
changes the global interrupt-enable flag, which `port_suspend` and
`port_enable` set; hence lock followed by unlock leaves BASEPRI at
`CORTEX_BASEPRI_USER`, which is the previous threshold exactly when the
previous threshold was `CORTEX_BASEPRI_USER`, and the ISR variants leave the
global flag as they found it. -/
theorem port_gate_transformer (p : PortParams) (c : Cpu) :
    (port_lock p c).basepri = p.CORTEX_BASEPRI_KERNEL ∧
    (port_lock_from_isr p c).basepri = p.CORTEX_BASEPRI_KERNEL ∧
    (port_unlock p c).basepri = p.CORTEX_BASEPRI_USER ∧
    (port_unlock_from_isr p c).basepri = p.CORTEX_BASEPRI_USER ∧
    (port_lock p c).irqEnabled = c.irqEnabled ∧
    (port_lock_from_isr p c).irqEnabled = c.irqEnabled ∧
    (port_unlock p c).irqEnabled = c.irqEnabled ∧
    (port_unlock_from_isr p c).irqEnabled = c.irqEnabled ∧
    (port_suspend p c).irqEnabled = true ∧ (port_enable p c).irqEnabled = true ∧
    (port_unlock p (port_lock p c)).basepri = p.CORTEX_BASEPRI_USER ∧
    ((port_unlock p (port_lock p c)).basepri = c.basepri ↔
      c.basepri = p.CORTEX_BASEPRI_USER) ∧
    (port_unlock_from_isr p (port_lock_from_isr p c)).irqEnabled = c.irqEnabled := by
  have hl : port_lock p c = { c with basepri := p.CORTEX_BASEPRI_KERNEL } := by
    unfold port_lock _port_lock msr_basepri
    cases p.CH_OPTIMIZE_SPEED <;> rfl
  have hu : ∀ d, port_unlock p d = { d with basepri := p.CORTEX_BASEPRI_USER } := by
    intro d
    unfold port_unlock _port_unlock msr_basepri
    cases p.CH_OPTIMIZE_SPEED <;> rfl
  unfold port_lock_from_isr port_unlock_from_isr
  rw [hu, hu, hl]
  refine ⟨rfl, rfl, rfl, rfl, rfl, rfl, rfl, rfl, rfl, rfl, rfl, ?_, rfl⟩
  constructor
  · intro h
    exact h.symm
  · intro h
    exact h.symm

/-- Counterexample to C12 as stated: from a prior state whose BASEPRI is the
kernel level 0x40, with user level 0, lock followed by unlock leaves BASEPRI
at 0, not at the previous threshold. -/
theorem port_lock_unlock_not_restoring :
    (port_unlock ⟨0, 0x40, true⟩ (port_lock ⟨0, 0x40, true⟩ ⟨0x40, true⟩)).basepri = 0 ∧
    (port_unlock ⟨0, 0x40, true⟩ (port_lock ⟨0, 0x40, true⟩ ⟨0x40, true⟩)).basepri ≠
      (Cpu.mk 0x40 true).basepri := by
  decide

/-! ## Initial thread context -/

theorem storeWord_other (m : Mem) (a v x : Nat) (h : ¬ inWord a x) :
    storeWord m a v x = m x := by
  unfold storeWord
  unfold inWord at h
  rw [if_neg h]

theorem loadWord_storeWord_same (m : Mem) (a v : Nat) (hv : v < 2 ^ 32) :
    loadWord (storeWord m a v) a = v := by
  unfold loadWord storeWord
  have h0 : a ≤ a ∧ a < a + 4 := by omega
  have h1 : a ≤ a + 1 ∧ a + 1 < a + 4 := by omega
  have h2 : a ≤ a + 2 ∧ a + 2 < a + 4 := by omega
  have h3 : a ≤ a + 3 ∧ a + 3 < a + 4 := by omega
  have e0 : a - a = 0 := by omega
  have e1 : a + 1 - a = 1 := by omega
  have e2 : a + 2 - a = 2 := by omega
  have e3 : a + 3 - a = 3 := by omega
  simp only [h0, h1, h2, h3, and_self, if_true, e0, e1, e2, e3]
  norm_num
  omega

theorem loadWord_storeWord_other (m : Mem) (a b v : Nat) (h : a + 4 ≤ b ∨ b + 4 ≤ a) :
    loadWord (storeWord m a v) b = loadWord m b := by
  unfold loadWord
  rw [storeWord_other m a v b (by unfold inWord; omega),
    storeWord_other m a v (b + 1) (by unfold inWord; omega),
    storeWord_other m a v (b + 2) (by unfold inWord; omega),
    storeWord_other m a v (b + 3) (by unfold inWord; omega)]

theorem intctx_layout (cache : Bool) :
    intctxOffset cache .basepri = 0 ∧
    intctxOffset cache .lr_exc + 36 = sizeof_intctx cache ∧
    intctxOffset cache .r0 + 32 = sizeof_intctx cache ∧
    intctxOffset cache .lr_thd + 12 = sizeof_intctx cache ∧
    intctxOffset cache .pc + 8 = sizeof_intctx cache ∧
    intctxOffset cache .xpsr + 4 = sizeof_intctx cache ∧
    68 ≤ sizeof_intctx cache ∧ sizeof_intctx cache ≤ 72 := by
  cases cache <;> decide


/-- With the thread's `p_ctx` clear of the frame, `SETUP_CONTEXT` is seven
stores at known addresses. -/
theorem SETUP_CONTEXT_eq (cache : Bool) (p : PortParams) (chThdExit ctx : Nat)
    (workspace wsize pf arg : Nat) (m : Mem)
    (hw : sizeof_intctx cache ≤ wsize) (hfit : workspace + wsize ≤ 2 ^ 32)
    (hdis : ctx + 4 ≤ workspace + wsize - sizeof_intctx cache ∨ workspace + wsize ≤ ctx) :
    SETUP_CONTEXT cache p chThdExit ctx workspace wsize pf arg m =
      storeWord (storeWord (storeWord (storeWord (storeWord (storeWord
        (storeWord m ctx (workspace + wsize - sizeof_intctx cache))
        (workspace + wsize - sizeof_intctx cache + intctxOffset cache .basepri)
          p.CORTEX_BASEPRI_USER)
        (workspace + wsize - sizeof_intctx cache + intctxOffset cache .lr_exc) 0xFFFFFFFD)
        (workspace + wsize - sizeof_intctx cache + intctxOffset cache .r0) arg)
        (workspace + wsize - sizeof_intctx cache + intctxOffset cache .lr_thd) chThdExit)
        (workspace + wsize - sizeof_intctx cache + intctxOffset cache .pc) pf)
        (workspace + wsize - sizeof_intctx cache + intctxOffset cache .xpsr) 0x01000000 := by
  obtain ⟨hb, hl, h0, ht, hpc, hx, hS1, hS2⟩ := intctx_layout cache
  have hr : (workspace + wsize + 2 ^ 32 - sizeof_intctx cache) % 2 ^ 32 =
      workspace + wsize - sizeof_intctx cache := by omega
  have hlt : workspace + wsize - sizeof_intctx cache < 2 ^ 32 := by omega
  unfold SETUP_CONTEXT
  simp only []
  rw [hr]
  have e1 : loadWord (storeWord m ctx (workspace + wsize - sizeof_intctx cache)) ctx =
      workspace + wsize - sizeof_intctx cache := loadWord_storeWord_same _ _ _ hlt
  rw [e1]
  rw [loadWord_storeWord_other _ _ ctx _ (by omega), e1]
  rw [loadWord_storeWord_other _ _ ctx _ (by omega),
    loadWord_storeWord_other _ _ ctx _ (by omega), e1]
  rw [loadWord_storeWord_other _ _ ctx _ (by omega),
    loadWord_storeWord_other _ _ ctx _ (by omega),
    loadWord_storeWord_other _ _ ctx _ (by omega), e1]
  rw [loadWord_storeWord_other _ _ ctx _ (by omega),
    loadWord_storeWord_other _ _ ctx _ (by omega),
    loadWord_storeWord_other _ _ ctx _ (by omega),
    loadWord_storeWord_other _ _ ctx _ (by omega), e1]
  rw [loadWord_storeWord_other _ _ ctx _ (by omega),
    loadWord_storeWord_other _ _ ctx _ (by omega),
    loadWord_storeWord_other _ _ ctx _ (by omega),
    loadWord_storeWord_other _ _ ctx _ (by omega),
    loadWord_storeWord_other _ _ ctx _ (by omega), e1]


/-- C11, amended: for every workspace of `wsize ≥ sizeof(struct intctx)` bytes
inside the 32 bit address space, every entry function `pf`, argument `arg`
and thread whose `p_ctx` member (at address `ctx`) does not overlap the frame,
`SETUP_CONTEXT` stores in `tp->p_ctx.r13` the address `workspace + wsize -
sizeof(struct intctx)`, so that the frame lies inside the workspace and ends at
its top, and fills the frame as a thread that already took one trap: `pc =
pf`, `r0 = arg`, `lr_thd = chThdExit`, `basepri = CORTEX_BASEPRI_USER`,
`lr_exc = 0xFFFFFFFD`, `xpsr = 0x01000000`; no byte outside these six members
and the four bytes of `tp->p_ctx.r13` itself is written. -/
theorem SETUP_CONTEXT_frame (cache : Bool) (p : PortParams) (chThdExit ctx : Nat)
    (workspace wsize pf arg : Nat) (m : Mem)
    (hw : sizeof_intctx cache ≤ wsize) (hfit : workspace + wsize ≤ 2 ^ 32)
    (hdis : ctx + 4 ≤ workspace + wsize - sizeof_intctx cache ∨ workspace + wsize ≤ ctx)
    (hpf : pf < 2 ^ 32) (harg : arg < 2 ^ 32) (hexit : chThdExit < 2 ^ 32)
    (huser : p.CORTEX_BASEPRI_USER < 2 ^ 32) :
    loadWord (SETUP_CONTEXT cache p chThdExit ctx workspace wsize pf arg m) ctx =
      workspace + wsize - sizeof_intctx cache ∧
    workspace ≤ workspace + wsize - sizeof_intctx cache ∧
    workspace + wsize - sizeof_intctx cache + sizeof_intctx cache = workspace + wsize ∧
    loadWord (SETUP_CONTEXT cache p chThdExit ctx workspace wsize pf arg m)
      (workspace + wsize - sizeof_intctx cache + intctxOffset cache .pc) = pf ∧
    loadWord (SETUP_CONTEXT cache p chThdExit ctx workspace wsize pf arg m)
      (workspace + wsize - sizeof_intctx cache + intctxOffset cache .r0) = arg ∧
    loadWord (SETUP_CONTEXT cache p chThdExit ctx workspace wsize pf arg m)
      (workspace + wsize - sizeof_intctx cache + intctxOffset cache .lr_thd) = chThdExit ∧
    loadWord (SETUP_CONTEXT cache p chThdExit ctx workspace wsize pf arg m)
      (workspace + wsize - sizeof_intctx cache + intctxOffset cache .basepri) =
        p.CORTEX_BASEPRI_USER ∧
    loadWord (SETUP_CONTEXT cache p chThdExit ctx workspace wsize pf arg m)
      (workspace + wsize - sizeof_intctx cache + intctxOffset cache .lr_exc) = 0xFFFFFFFD ∧
    loadWord (SETUP_CONTEXT cache p chThdExit ctx workspace wsize pf arg m)
      (workspace + wsize - sizeof_intctx cache + intctxOffset cache .xpsr) = 0x01000000 ∧
    (∀ a, ¬ inWord ctx a →
      ¬ inWord (workspace + wsize - sizeof_intctx cache + intctxOffset cache .pc) a →
      ¬ inWord (workspace + wsize - sizeof_intctx cache + intctxOffset cache .r0) a →
      ¬ inWord (workspace + wsize - sizeof_intctx cache + intctxOffset cache .lr_thd) a →
      ¬ inWord (workspace + wsize - sizeof_intctx cache + intctxOffset cache .basepri) a →
      ¬ inWord (workspace + wsize - sizeof_intctx cache + intctxOffset cache .lr_exc) a →
      ¬ inWord (workspace + wsize - sizeof_intctx cache + intctxOffset cache .xpsr) a →
      SETUP_CONTEXT cache p chThdExit ctx workspace wsize pf arg m a = m a) := by
  obtain ⟨hb, hl, h0, ht, hpc, hx, hS1, hS2⟩ := intctx_layout cache
  have hlt : workspace + wsize - sizeof_intctx cache < 2 ^ 32 := by omega
  rw [SETUP_CONTEXT_eq cache p chThdExit ctx workspace wsize pf arg m hw hfit hdis]
  refine ⟨?_, by omega, by omega, ?_, ?_, ?_, ?_, ?_, ?_, ?_⟩
  · rw [loadWord_storeWord_other _ _ ctx _ (by omega),
      loadWord_storeWord_other _ _ ctx _ (by omega),
      loadWord_storeWord_other _ _ ctx _ (by omega),
      loadWord_storeWord_other _ _ ctx _ (by omega),
      loadWord_storeWord_other _ _ ctx _ (by omega),
      loadWord_storeWord_other _ _ ctx _ (by omega)]
    exact loadWord_storeWord_same _ _ _ hlt
  · rw [loadWord_storeWord_other _ _ _ _ (by omega)]
    exact loadWord_storeWord_same _ _ _ hpf
  · rw [loadWord_storeWord_other _ _ _ _ (by omega),
      loadWord_storeWord_other _ _ _ _ (by omega),
      loadWord_storeWord_other _ _ _ _ (by omega)]
    exact loadWord_storeWord_same _ _ _ harg
  · rw [loadWord_storeWord_other _ _ _ _ (by omega),
      loadWord_storeWord_other _ _ _ _ (by omega)]
    exact loadWord_storeWord_same _ _ _ hexit
  · rw [loadWord_storeWord_other _ _ _ _ (by omega),
      loadWord_storeWord_other _ _ _ _ (by omega),
      loadWord_storeWord_other _ _ _ _ (by omega),
      loadWord_storeWord_other _ _ _ _ (by omega),
      loadWord_storeWord_other _ _ _ _ (by omega)]
    exact loadWord_storeWord_same _ _ _ huser
  · rw [loadWord_storeWord_other _ _ _ _ (by omega),
      loadWord_storeWord_other _ _ _ _ (by omega),
      loadWord_storeWord_other _ _ _ _ (by omega),
      loadWord_storeWord_other _ _ _ _ (by omega)]
    exact loadWord_storeWord_same _ _ _ (by decide)
  · exact loadWord_storeWord_same _ _ _ (by decide)
  · intro a hctx h1 h2 h3 h4 h5 h6
    rw [storeWord_other _ _ _ _ h6, storeWord_other _ _ _ _ h1, storeWord_other _ _ _ _ h3,
      storeWord_other _ _ _ _ h2, storeWord_other _ _ _ _ h5, storeWord_other _ _ _ _ h4,
      storeWord_other _ _ _ _ hctx]

/-- Witness for C11: a 256 byte workspace at 0x20000000 with the thread
structure at its base (`p_ctx` at offset 12), entry 0x08000101, argument 7. -/
theorem SETUP_CONTEXT_frame_witness :
    loadWord (SETUP_CONTEXT false ⟨0, 0x40, true⟩ 0x08000201 0x2000000C 0x20000000 0x100
      0x08000101 7 (fun _ => 0)) 0x2000000C = 0x20000000 + 0x100 - sizeof_intctx false ∧
    loadWord (SETUP_CONTEXT false ⟨0, 0x40, true⟩ 0x08000201 0x2000000C 0x20000000 0x100
      0x08000101 7 (fun _ => 0))
      (0x20000000 + 0x100 - sizeof_intctx false + intctxOffset false .pc) = 0x08000101 :=
  ⟨(SETUP_CONTEXT_frame false ⟨0, 0x40, true⟩ 0x08000201 0x2000000C 0x20000000 0x100
      0x08000101 7 (fun _ => 0) (by decide) (by decide) (by decide) (by decide) (by decide)
      (by decide) (by decide)).1,
   (SETUP_CONTEXT_frame false ⟨0, 0x40, true⟩ 0x08000201 0x2000000C 0x20000000 0x100
      0x08000101 7 (fun _ => 0) (by decide) (by decide) (by decide) (by decide) (by decide)
      (by decide) (by decide)).2.2.2.1⟩

/-- Counterexample to C11 as stated: with the thread structure at the base of
the workspace (`p_ctx` at offset 12, as `THD_WA_SIZE` reserves room for it),
the byte at `workspace + 12` lies in the workspace, outside the six members,
and is written: it receives the low byte 0xB8 of the saved stack pointer. -/
theorem SETUP_CONTEXT_writes_saved_sp :
    0x20000000 ≤ 0x2000000C ∧ 0x2000000C < 0x20000000 + 0x100 ∧
    ¬ inWord (0x20000000 + 0x100 - sizeof_intctx false + intctxOffset false .pc) 0x2000000C ∧
    ¬ inWord (0x20000000 + 0x100 - sizeof_intctx false + intctxOffset false .r0) 0x2000000C ∧
    ¬ inWord (0x20000000 + 0x100 - sizeof_intctx false + intctxOffset false .lr_thd)
      0x2000000C ∧
    ¬ inWord (0x20000000 + 0x100 - sizeof_intctx false + intctxOffset false .basepri)
      0x2000000C ∧
    ¬ inWord (0x20000000 + 0x100 - sizeof_intctx false + intctxOffset false .lr_exc)
      0x2000000C ∧
    ¬ inWord (0x20000000 + 0x100 - sizeof_intctx false + intctxOffset false .xpsr)
      0x2000000C ∧
    SETUP_CONTEXT false ⟨0, 0x40, true⟩ 0x08000201 0x2000000C 0x20000000 0x100
      0x08000101 7 (fun _ => 0) 0x2000000C = 0xB8 ∧
    SETUP_CONTEXT false ⟨0, 0x40, true⟩ 0x08000201 0x2000000C 0x20000000 0x100
      0x08000101 7 (fun _ => 0) 0x2000000C ≠ (fun _ => 0 : Mem) 0x2000000C := by
  decide

/-! ## Slot accesses under the gate -/

theorem gateRun_append (h : Bool) (a b : List Event) :
    gateRun h (a ++ b) = (gateRun h a).bind fun h1 => gateRun h1 b := by
  induction a generalizing h with
  | nil => rfl
  | cons e a ih =>
    show (match gateStep h e with
      | none => none
      | some h1 => gateRun h1 (a ++ b)) = _
    cases hs : gateStep h e with
    | none =>
      simp only [gateRun, hs]
      rfl
    | some h1 =>
      simp only [gateRun, hs]
      exact ih h1

theorem Safe.same (h : Bool) (w : World) : Safe h w w h :=
  ⟨[], by simp, rfl⟩

theorem Safe.seq {h h1 h2 : Bool} {a b c : World} (s1 : Safe h a b h1)
    (s2 : Safe h1 b c h2) : Safe h a c h2 := by
  obtain ⟨X, hX, gX⟩ := s1
  obtain ⟨Y, hY, gY⟩ := s2
  refine ⟨X ++ Y, by rw [hY, hX, List.append_assoc], ?_⟩
  rw [gateRun_append, gX]
  exact gY

/-- One recorded event that the discipline allows. -/
theorem safe_emit (h h1 : Bool) (e : Event) (w w0 : World) (ht : w0.trace = w.trace)
    (hs : gateStep h e = some h1) : Safe h w (emit e w0) h1 := by
  refine ⟨[e], ?_, ?_⟩
  · show w0.trace ++ [e] = w.trace ++ [e]
    rw [ht]
  · simp only [gateRun, hs]

theorem SafeR.of_safe {α : Type} {h h1 : Bool} {w : World} {r : Result α}
    (s : Safe h w r.world h1) : SafeR h w r h1 :=
  ⟨h1, s, fun _ _ _ => rfl⟩

theorem SafeR.bind {α β : Type} {h h1 h2 : Bool} {w : World} {r : Result α}
    {f : α → World → Result β} (s1 : SafeR h w r h1)
    (s2 : ∀ v w1, SafeR h1 w1 (f v w1) h2) : SafeR h w (r.bind f) h2 := by
  obtain ⟨k, sk, hk⟩ := s1
  cases r with
  | ret v w1 =>
    have hk1 : k = h1 := hk v w1 rfl
    subst hk1
    obtain ⟨k2, sk2, hk2⟩ := s2 v w1
    exact ⟨k2, sk.seq sk2, hk2⟩
  | halt w1 =>
    exact ⟨k, sk, fun v w2 hc => Result.noConfusion hc⟩
  | hang w1 =>
    exact ⟨k, sk, fun v w2 hc => Result.noConfusion hc⟩

theorem SafeR.after {α : Type} {h h1 h2 : Bool} {w w0 : World} {r : Result α}
    (s1 : Safe h w w0 h1) (s2 : SafeR h1 w0 r h2) : SafeR h w r h2 := by
  obtain ⟨k, sk, hk⟩ := s2
  exact ⟨k, s1.seq sk, hk⟩

theorem pollLoop_safe (h : Bool) (mask : Nat) (l : List Nat) (w : World) :
    Safe h w (pollLoop mask w l).world h := by
  induction l generalizing w with
  | nil => exact ⟨[], by simp [pollLoop, Result.world], rfl⟩
  | cons x l ih =>
    have hstep : Safe h w (emit (.staRead x) { w with staIn := l }) h :=
      safe_emit h h _ w _ rfl rfl
    by_cases hx : x &&& mask ≠ 0
    · rw [pollLoop, if_pos hx]
      exact hstep
    · rw [pollLoop, if_neg hx]
      exact hstep.seq (ih _)

theorem writeReg_safe (h : Bool) (r : Reg) (v : Nat) (w : World) :
    Safe h w (writeReg r v w) h :=
  safe_emit h h _ w _ rfl rfl

theorem readRESP1_safe (h : Bool) (w : World) : Safe h w (readRESP1 w).2 h :=
  safe_emit h h _ w _ rfl rfl

theorem readSTA_safe (h : Bool) (w : World) : Safe h w (readSTA w).2 h :=
  safe_emit h h _ w _ rfl rfl

theorem readRdymsg_safe (h : Bool) (t : Tid) (w : World) : Safe h w (readRdymsg t w).2 h :=
  safe_emit h h _ w _ rfl rfl

theorem writeRdymsg_safe (h : Bool) (t : Tid) (v : Int) (w : World) :
    Safe h w (writeRdymsg t v w) h :=
  safe_emit h h _ w _ rfl rfl

theorem chSchReadyI_safe (h : Bool) (t : Tid) (w : World) : Safe h w (chSchReadyI t w) h :=
  safe_emit h h _ w _ rfl rfl

theorem readSlot_safe (w : World) : Safe true w (readSlot w).2 true :=
  safe_emit true true _ w _ rfl rfl

theorem writeSlot_safe (v : Option Tid) (w : World) : Safe true w (writeSlot v w) true :=
  safe_emit true true _ w _ rfl rfl

theorem lock_safe (w : World) : Safe false w (chSysLock w) true :=
  safe_emit false true _ w _ rfl rfl

theorem lockFromIsr_safe (w : World) : Safe false w (chSysLockFromIsr w) true :=
  safe_emit false true _ w _ rfl rfl

theorem unlockFromIsr_safe (w : World) : Safe true w (chSysUnlockFromIsr w) false :=
  safe_emit true false _ w _ rfl rfl

theorem suspend_safe (t : Tid) (w : World) : Safe true w (chSchGoSleepS_suspend t w) false :=
  safe_emit true false _ w _ rfl rfl

theorem send_cmd_safe (h : Bool) (cmd arg : Nat) (resp : List Nat) (w : World) :
    SafeR h w (sdc_lld_send_cmd_short_crc cmd arg resp w) h := by
  unfold sdc_lld_send_cmd_short_crc
  simp only []
  have s1 : Safe h w (writeReg .CMD ((cmd % 2 ^ 8) ||| SDIO_CMD_WAITRESP_0 ||| SDIO_CMD_CPSMEN)
      (writeReg .ARG (arg % 2 ^ 32) w)) h :=
    (writeReg_safe h _ _ w).seq (writeReg_safe h _ _ _)
  refine SafeR.after s1 (SafeR.bind (SafeR.of_safe (pollLoop_safe h _ _ _)) ?_)
  intro sta w1
  by_cases hf : sta &&& (SDIO_STA_CTIMEOUT ||| SDIO_STA_CCRCFAIL) ≠ 0
  · rw [if_pos hf]
    exact SafeR.of_safe (writeReg_safe h _ _ w1)
  · rw [if_neg hf]
    have s2 : Safe h w1 (readRESP1 (writeReg .ICR
        (SDIO_ICR_CMDRENDC ||| SDIO_ICR_CTIMEOUTC ||| SDIO_ICR_CCRCFAILC) w1)).2 h :=
      (writeReg_safe h _ _ w1).seq (readRESP1_safe h _)
    exact SafeR.of_safe s2

theorem error_safe (h : Bool) (w : World) : SafeR h w (sdc_lld_read_error w) h := by
  rw [sdc_lld_read_error_eq]
  refine SafeR.of_safe ?_
  unfold tornDown
  exact (((safe_emit h h Event.dmaDisable w { w with dmaEnabled := false } rfl rfl).seq
    (writeReg_safe h _ _ _)).seq (writeReg_safe h _ _ _)).seq (writeReg_safe h _ _ _)

theorem unlock_safe (w : World) : Safe true w (chSysUnlock w) false :=
  safe_emit true false _ w _ rfl rfl

theorem stop_safe (resp : List Nat) (w : World) :
    SafeR true w (sdc_lld_read_stop resp w) false := by
  unfold sdc_lld_read_stop
  simp only []
  refine SafeR.after (unlock_safe w) ?_
  refine SafeR.bind (send_cmd_safe false _ _ _ _) ?_
  intro v w1
  cases v.1
  · exact SafeR.of_safe (Safe.same false w1)
  · exact error_safe false w1


theorem PORT_IRQ_EPILOGUE_safe (w : World) : Safe false w (PORT_IRQ_EPILOGUE w) false := by
  refine ⟨[Event.lockFromIsr] ++ (if w.rescRequired w.rlist then [Event.pendSV] else []) ++
    [Event.unlockFromIsr], ?_, ?_⟩
  · rw [PORT_IRQ_EPILOGUE_trace]
    simp only [List.append_assoc]
  · cases w.rescRequired w.rlist <;> rfl

theorem SDIO_IRQHandler_safe (w : World) : Safe false w (SDIO_IRQHandler w) false := by
  cases h : w.thread with
  | none =>
    rw [SDIO_IRQHandler_none w h]
    exact (((lockFromIsr_safe w).seq (readSlot_safe _)).seq
      (unlockFromIsr_safe _)).seq (PORT_IRQ_EPILOGUE_safe _)
  | some t =>
    rw [SDIO_IRQHandler_some w t h]
    exact ((((((((lockFromIsr_safe w).seq (readSlot_safe _)).seq
      (readSTA_safe true _)).seq (readSlot_safe _)).seq
      (writeRdymsg_safe true t _ _)).seq (readSlot_safe _)).seq
      (chSchReadyI_safe true t _)).seq (writeSlot_safe none _)).seq
      ((unlockFromIsr_safe _).seq (PORT_IRQ_EPILOGUE_safe _))

theorem deliverIrq_safe (w : World) : Safe false w (deliverIrq w) false := by
  unfold deliverIrq
  cases w.irq
  · simp only [Bool.false_eq_true, if_false]
    exact Safe.same false w
  · simp only [if_true]
    have s1 : Safe false w { w with irq := false } false := ⟨[], by simp, rfl⟩
    exact s1.seq (SDIO_IRQHandler_safe _)

theorem wake_safe (self : Tid) (w : World) :
    SafeR false w (chSchGoSleepS_wake self w) true := by
  rw [wake_eq]
  by_cases hm : self ∈ (deliverIrq w).rlist
  · rw [if_pos hm]
    have s2 : Safe false (deliverIrq w) (emit (.resume self)
        { deliverIrq w with rlist := (deliverIrq w).rlist.erase self, locked := true }) true :=
      safe_emit false true _ _ _ rfl rfl
    exact SafeR.of_safe ((deliverIrq_safe w).seq s2)
  · rw [if_neg hm]
    exact ⟨false, deliverIrq_safe w, fun v w2 hc => Result.noConfusion hc⟩

theorem assert_safe (k : Nat) (w : World) :
    SafeR true w (chDbgAssert_slotNull k w) true := by
  unfold chDbgAssert_slotNull
  cases w.dbgAsserts
  · simp only [Bool.false_eq_true, if_false]
    exact SafeR.of_safe (Safe.same true w)
  · simp only [if_true]
    by_cases hn : (readSlot w).1 = none
    · rw [if_pos hn]
      exact SafeR.of_safe (readSlot_safe w)
    · rw [if_neg hn]
      have s2 : Safe true (readSlot w).2 (emit (.assertFail k) (readSlot w).2) true :=
        safe_emit true true _ _ _ rfl rfl
      exact SafeR.of_safe ((readSlot_safe w).seq s2)

theorem sleep_safe (self : Tid) (resp : List Nat) (w : World) :
    SafeR true w (sdc_lld_read_sleep self resp w) false := by
  unfold sdc_lld_read_sleep
  refine SafeR.bind (assert_safe 1 w) ?_
  intro _ w1
  simp only []
  have s1 : Safe true w1 (chSchGoSleepS_suspend self (writeSlot (some self) w1)) false :=
    (writeSlot_safe (some self) w1).seq (suspend_safe self _)
  have s2 : SafeR true w1 (chSchGoSleepS self (writeSlot (some self) w1)) true :=
    SafeR.after s1 (wake_safe self _)
  refine SafeR.bind s2 ?_
  intro _ w2
  refine SafeR.bind (assert_safe 2 w2) ?_
  intro _ w3
  by_cases hm : (readRdymsg self w3).1 ≠ RDY_OK
  · rw [if_pos hm]
    exact SafeR.after ((readRdymsg_safe true self w3).seq (unlock_safe _)) (error_safe false _)
  · rw [if_neg hm]
    exact SafeR.after (readRdymsg_safe true self w3) (stop_safe resp _)

theorem wait_safe (self : Tid) (resp : List Nat) (w : World) :
    SafeR false w (sdc_lld_read_wait self resp w) false := by
  unfold sdc_lld_read_wait
  simp only []
  have s1 : Safe false w (readSTA (chSysLock w)).2 true :=
    (lock_safe w).seq (readSTA_safe true _)
  by_cases ht : (readSTA (chSysLock w)).1 &&& dataTerminalBits = 0
  · rw [if_pos ht]
    exact SafeR.after s1 (sleep_safe self resp _)
  · rw [if_neg ht]
    by_cases hd : (readSTA (chSysLock w)).1 &&& SDIO_STA_DATAEND = 0
    · rw [if_pos hd]
      exact SafeR.after (s1.seq (unlock_safe _)) (error_safe false _)
    · rw [if_neg hd]
      exact SafeR.after s1 (stop_safe resp _)

theorem setup_safe (h : Bool) (buf n : Nat) (w : World) :
    Safe h w (sdc_lld_read_setup buf n w) h := by
  unfold sdc_lld_read_setup
  simp only []
  have s0 : Safe h w (dmaChannelSetup ((n * SDC_BLOCK_SIZE) % 2 ^ 32 / 4) buf
      ((w.dmaPriority <<< 12) ||| DMA_CCR1_PSIZE_1 ||| DMA_CCR1_MSIZE_1 ||| DMA_CCR1_MINC) w) h :=
    safe_emit h h _ w _ rfl rfl
  have s5 : ∀ w0, Safe h w0 (dmaEnableChannel w0) h := fun w0 => safe_emit h h _ w0 _ rfl rfl
  exact ((((s0.seq (writeReg_safe h _ _ _)).seq (writeReg_safe h _ _ _)).seq
    (writeReg_safe h _ _ _)).seq (writeReg_safe h _ _ _)).seq (s5 _)

theorem read_safe (self : Tid) (startblk buf n : Nat) (w : World) :
    SafeR false w (sdc_lld_read self startblk buf n w) false := by
  rw [read_eq]
  refine SafeR.after (setup_safe false buf n w) (SafeR.bind (send_cmd_safe false _ _ _ _) ?_)
  intro v w1
  by_cases hc : v.1 = true ∨ v.2.headD 0 &&& SDC_R1_ERROR_MASK ≠ 0
  · rw [if_pos hc]
    exact error_safe false w1
  · rw [if_neg hc]
    exact wait_safe self v.2 w1


/-- C15, amended: started with the gate open, every execution of
`SDIO_IRQHandler` and of `sdc_lld_read`, whatever its outcome, respects the
gate discipline: each read or write of the waiting-thread slot comes while the
gate is held (after a lock with no unlock in between, the gate being given up
while the thread sleeps and held again from its resumption), and no lock is
taken while the gate is held, the lock of the IRQ epilogue after the handler's
own unlock included; the handler ends with the gate open and so does every
`sdc_lld_read` that returns.  `sdc_lld_init` is the exception: its one slot
write is made without taking the gate. -/
theorem slot_access_under_gate (self : Tid) (startblk buf n : Nat) (w : World) :
    gateRun false (newEvents w (SDIO_IRQHandler w)) = some false ∧
    (∃ b, gateRun false (newEvents w (sdc_lld_read self startblk buf n w).world) = some b ∧
      ∀ v w1, sdc_lld_read self startblk buf n w = .ret v w1 → b = false) ∧
    newEvents w (sdc_lld_init w) = [Event.slotWrite none] ∧
    gateRun false (newEvents w (sdc_lld_init w)) = none := by
  refine ⟨?_, ?_, ?_, ?_⟩
  · obtain ⟨Z, hZ, hg⟩ := SDIO_IRQHandler_safe w
    rw [newEvents_of_trace w _ Z hZ]
    exact hg
  · obtain ⟨b, ⟨Z, hZ, hg⟩, hb⟩ := read_safe self startblk buf n w
    refine ⟨b, ?_, hb⟩
    rw [newEvents_of_trace w _ Z hZ]
    exact hg
  · apply newEvents_of_trace
    rfl
  · have h : newEvents w (sdc_lld_init w) = [Event.slotWrite none] := by
      apply newEvents_of_trace
      rfl
    rw [h]
    rfl

/-- Counterexample to C15 as stated: `sdc_lld_init` on a machine at rest
writes the slot as its only action, with no lock before it. -/
theorem sdc_lld_init_writes_slot_unlocked :
    newEvents (World.idle [] [] false true) (sdc_lld_init (World.idle [] [] false true)) =
      [Event.slotWrite none] ∧
    gateRun false (newEvents (World.idle [] [] false true)
      (sdc_lld_init (World.idle [] [] false true))) = none := by
  decide

end SdcLld
